import Mathlib

/-!
# Chem City Collect: the game logic of `src/game.js`

A shallow embedding of the gameplay functions of `game.js` and the properties
proved about them.

Conventions of the embedding.

* JavaScript numbers are idealised as exact numbers: `ℚ` for coordinates and
  speeds, `ℤ` for values that the code only ever produces as integers (canvas
  sizes, `randomInt` results, the tally). Where the rounding of IEEE doubles
  decides a property (the speed of the vehicle under friction, the overlap of
  a rectangle with itself), the code is also given in double arithmetic
  (`updatePlayerDouble`, `isRectOverlapDouble`), every operation rounded to
  the nearest binary64 value by `roundDouble`. The counters of the tally hold
  integers, and their update `+= 1` is the rounded sum (`tallyIncrement`).
* The module-level `state` object becomes the structure `State`, passed in and
  returned explicitly. The `localStorage` record under `STORAGE_KEY` is the
  extra field `storage`.
* `Math.random()` is an explicit argument (one draw, or a stream of draws).
* `Math.cos` and `Math.sin` are arguments of `updatePlayer` (structure `Trig`).
* Drawing and DOM updates (`ui.*`, `ctx.*`, `setHud`, `disableChoices`) do not
  touch the game state and are left out.
-/

namespace ChemCity

/-! ## Geometry and the city map -/

/-- An axis-aligned rectangle `{ x, y, w, h }`. -/
structure Rect where
  x : ℚ
  y : ℚ
  w : ℚ
  h : ℚ
deriving DecidableEq

/-- The canvas element, of which the code reads `canvas.width` and `canvas.height`. -/
structure Canvas where
  width : ℤ
  height : ℤ
deriving DecidableEq

/-- The object returned by `buildCityMap`: `{ W, H, grass, roads, buildings }`. -/
structure CityMap where
  W : ℤ
  H : ℤ
  grass : Rect
  roads : List Rect
  buildings : List Rect
deriving DecidableEq

/-- The function `clamp(v, min, max)`: `Math.max(min, Math.min(max, v))`. -/
def clamp (v lo hi : ℚ) : ℚ := max lo (min hi v)

/-- The function `buildCityMap()`, reading the canvas size. -/
def buildCityMap (canvas : Canvas) : CityMap :=
  let W : ℚ := canvas.width
  let H : ℚ := canvas.height
  { W := canvas.width
    H := canvas.height
    grass := ⟨0, 0, W, H⟩
    roads :=
      [ ⟨80, 60, W - 160, 70⟩,
        ⟨80, H - 130, W - 160, 70⟩,
        ⟨120, 60, 70, H - 120⟩,
        ⟨W - 190, 60, 70, H - 120⟩,
        ⟨320, 200, W - 640, 80⟩ ]
    buildings :=
      [ ⟨220, 150, 160, 110⟩,
        ⟨420, 145, 150, 120⟩,
        ⟨610, 150, 140, 110⟩,
        ⟨260, 320, 150, 120⟩,
        ⟨455, 320, 170, 120⟩,
        ⟨660, 320, 140, 120⟩ ] }

/-- The function `isPointInRect(px, py, r)`; the four comparisons are inclusive. -/
def isPointInRect (px py : ℚ) (r : Rect) : Bool :=
  decide (px ≥ r.x) && decide (px ≤ r.x + r.w) && decide (py ≥ r.y) && decide (py ≤ r.y + r.h)

/-- The function `isRectOverlap(a, b)`; the four comparisons are strict. -/
def isRectOverlap (a b : Rect) : Bool :=
  decide (a.x < b.x + b.w) && decide (a.x + a.w > b.x) &&
    decide (a.y < b.y + b.h) && decide (a.y + a.h > b.y)

/-- The function `isDrivableRect(rect)` on the map `state.map`: the first loop
returns `false` at the first building holding the center, the second returns
`true` at the first road holding it. -/
def isDrivableRect (m : CityMap) (rect : Rect) : Bool :=
  let cx := rect.x + rect.w / 2
  let cy := rect.y + rect.h / 2
  if m.buildings.any (fun b => isPointInRect cx cy b) then false
  else if m.roads.any (fun r => isPointInRect cx cy r) then true
  else false

/-! ## Items and their placement -/

/-- An item object `{ id, x, y, size, collected }`. The coordinates come from
`randomInt` and are integers. -/
structure Item where
  id : String
  x : ℤ
  y : ℤ
  size : ℚ
  collected : Bool
deriving DecidableEq

/-- The function `randomInt(a, b)`, where `u` is the value that the call of
`Math.random()` returns: `Math.floor(u * (b - a + 1)) + a`. -/
def randomInt (u : ℚ) (a b : ℤ) : ℤ := ⌊u * ((b - a + 1 : ℤ) : ℚ)⌋ + a

/-- The test `Math.hypot(dx, dy) < 70` of `spawnItems`, on integer `dx` and
`dy`, decided on the squares: `dx * dx + dy * dy < 70 * 70`. For integers the
sum of squares is at most 4899, where the root is below 69.993, or at least
4900, where it is at least 70. -/
def hypotLt70 (dx dy : ℤ) : Bool := decide (dx * dx + dy * dy < 70 * 70)

/-- The `while` loop of `spawnItems(count)`, entered with the current values of
`tries` and `items`; it returns the final `items` together with the final
`tries`. The iteration entered with `tries = t` consumes the draws `rnd (2 * t)`
(for `x`) and `rnd (2 * t + 1)` (for `y`) of the stream of `Math.random()`
values. -/
def spawnLoop (canvas : Canvas) (m : CityMap) (collectedItemIds : List String)
    (count : ℕ) (rnd : ℕ → ℚ) (tries : ℕ) (items : List Item) : List Item × ℕ :=
  if h : items.length < count ∧ tries < 3000 then
    let size : ℚ := 16
    let x := randomInt (rnd (2 * tries)) 60 (canvas.width - 60)
    let y := randomInt (rnd (2 * tries + 1)) 60 (canvas.height - 60)
    let rect : Rect := ⟨x - size / 2, y - size / 2, size, size⟩
    if !isDrivableRect m rect then
      spawnLoop canvas m collectedItemIds count rnd (tries + 1) items
    else if items.any (fun it => hypotLt70 (it.x - x) (it.y - y)) then
      spawnLoop canvas m collectedItemIds count rnd (tries + 1) items
    else
      let id := "item-" ++ toString (items.length + 1)
      spawnLoop canvas m collectedItemIds count rnd (tries + 1)
        (items ++ [⟨id, x, y, size, collectedItemIds.contains id⟩])
  else (items, tries)
termination_by 3000 - tries
decreasing_by all_goals omega

/-- The function `spawnItems(count)` on the map `state.map`, with
`state.collectedItemIds` and the stream `rnd` of `Math.random()` values. -/
def spawnItems (canvas : Canvas) (m : CityMap) (collectedItemIds : List String)
    (count : ℕ) (rnd : ℕ → ℚ) : List Item :=
  (spawnLoop canvas m collectedItemIds count rnd 0 []).1

/-! ## The vehicle -/

/-- The player object created by `initPlayer`. -/
structure Player where
  x : ℚ
  y : ℚ
  w : ℚ
  h : ℚ
  angle : ℚ
  speed : ℚ
  maxSpeed : ℚ
  accel : ℚ
  friction : ℚ
  turnRate : ℚ
deriving DecidableEq

/-- The function `initPlayer()`. -/
def initPlayer : Player :=
  { x := 140, y := 95, w := 22, h := 12, angle := 0, speed := 0,
    maxSpeed := 3.2, accel := 0.12, friction := 0.04, turnRate := 0.06 }

/-- The functions `Math.cos` and `Math.sin`, which `updatePlayer` applies to
the heading. -/
structure Trig where
  cos : ℚ → ℚ
  sin : ℚ → ℚ

/-- The constant `up` of `updatePlayer`, from the set `keys` of pressed keys. -/
def keyUp (keys : List String) : Bool :=
  keys.contains "ArrowUp" || keys.contains "w" || keys.contains "W"

/-- The constant `down` of `updatePlayer`. -/
def keyDown (keys : List String) : Bool :=
  keys.contains "ArrowDown" || keys.contains "s" || keys.contains "S"

/-- The constant `left` of `updatePlayer`. -/
def keyLeft (keys : List String) : Bool :=
  keys.contains "ArrowLeft" || keys.contains "a" || keys.contains "A"

/-- The constant `right` of `updatePlayer`. -/
def keyRight (keys : List String) : Bool :=
  keys.contains "ArrowRight" || keys.contains "d" || keys.contains "D"

/-- Lines 424 to 427 of `updatePlayer`: throttle, then the clamp of the speed. -/
def applyThrottle (up down : Bool) (p : Player) : Player :=
  let p := if up then { p with speed := p.speed + p.accel } else p
  let p := if down then { p with speed := p.speed - p.accel } else p
  { p with speed := clamp p.speed (-p.maxSpeed * 0.7) p.maxSpeed }

/-- Lines 429 and 430 of `updatePlayer`: the heading changes only above the
dead zone, with the sign of the speed. -/
def applySteering (left right : Bool) (p : Player) : Player :=
  let turning : ℚ := (if left then -1 else 0) + (if right then 1 else 0)
  if |p.speed| > 0.2 then
    { p with angle := p.angle + turning * p.turnRate * (if p.speed ≥ 0 then 1 else -1) }
  else p

/-- Lines 433 to 436 of `updatePlayer`: friction, when no throttle key is held. -/
def applyFriction (up down : Bool) (p : Player) : Player :=
  if !up && !down then
    let p := if p.speed > 0 then { p with speed := max 0 (p.speed - p.friction) } else p
    if p.speed < 0 then { p with speed := min 0 (p.speed + p.friction) } else p
  else p

/-- Lines 438 to 448 of `updatePlayer`: the rectangle `tryRect`, which is the
body rectangle at the projected position, clamped to the canvas. -/
def tryRect (t : Trig) (canvas : Canvas) (p : Player) : Rect :=
  let nx := p.x + t.cos p.angle * p.speed
  let ny := p.y + t.sin p.angle * p.speed
  let rect : Rect := ⟨nx - p.w / 2, ny - p.h / 2, p.w, p.h⟩
  let rect : Rect := { rect with x := clamp rect.x 0 (canvas.width - rect.w) }
  let rect : Rect := { rect with y := clamp rect.y 0 (canvas.height - rect.h) }
  { x := rect.x, y := rect.y, w := rect.w, h := rect.h }

/-- Lines 449 to 470 of `updatePlayer`: the building loop returns at the first
overlapping building, then the road loop, then the move. -/
def resolveMove (m : CityMap) (tr : Rect) (p : Player) : Player :=
  let center : ℚ × ℚ := (tr.x + tr.w / 2, tr.y + tr.h / 2)
  if m.buildings.any (fun b => isRectOverlap tr b) then
    { p with speed := p.speed * 0.4 }
  else
    let onRoad := m.roads.any (fun r => isPointInRect center.1 center.2 r)
    if !onRoad then { p with speed := p.speed * 0.5 }
    else { p with x := tr.x + p.w / 2, y := tr.y + p.h / 2 }

/-- The function `updatePlayer()` on the player `p`, with the pressed keys
`keys`, the map `state.map` and the canvas. -/
def updatePlayer (t : Trig) (canvas : Canvas) (m : CityMap) (keys : List String)
    (p : Player) : Player :=
  let up := keyUp keys
  let down := keyDown keys
  let left := keyLeft keys
  let right := keyRight keys
  let p := applyThrottle up down p
  let p := applySteering left right p
  let p := applyFriction up down p
  resolveMove m (tryRect t canvas p) p

/-- Successive frames: `updatePlayer` once for each set of pressed keys of
`frames`, in order. -/
def runFrames (t : Trig) (canvas : Canvas) (m : CityMap) (frames : List (List String))
    (p : Player) : Player :=
  frames.foldl (fun q keys => updatePlayer t canvas m keys q) p

/-! ## The vehicle in IEEE double arithmetic

The definitions above compute with exact rationals. Where the rounding of
JavaScript numbers decides a property, the frame is computed here as the
engine computes it: every arithmetic operation and every decimal literal is
rounded to the nearest binary64 value. -/

/-- Rounding to the nearest integer, a tie going to the even neighbour. -/
def roundHalfEven (y : ℚ) : ℤ :=
  let n := ⌊y⌋
  if y - n < 1 / 2 then n
  else if 1 / 2 < y - n then n + 1
  else if n % 2 = 0 then n else n + 1

/-- For `y` at least 1: the number of halvings that bring `y` under 2. -/
def binadeUp : ℕ → ℚ → ℤ
  | 0, _ => 0
  | k + 1, y => if y < 2 then 0 else binadeUp k (y / 2) + 1

/-- For positive `y` under 1: minus the number of doublings that bring `y` to
at least 1. -/
def binadeDown : ℕ → ℚ → ℤ
  | 0, _ => 0
  | k + 1, y => if 1 ≤ y then 0 else binadeDown k (y * 2) - 1

/-- The exponent `e` with `2 ^ e ≤ |x| < 2 ^ (e + 1)`, for `x` of a magnitude
between `2 ^ (-1100)` and `2 ^ 1101` (see `binade_spec`). -/
def binade (x : ℚ) : ℤ :=
  if 1 ≤ |x| then binadeUp 1100 |x| else binadeDown 1100 |x|

/-- The binary64 value nearest to `x`, ties to even: 53 significant bits, and
the fixed spacing `2 ^ (-1074)` below `2 ^ (-1022)`. Overflow to infinity is
left out; the values of the game stay far below `2 ^ 1024`. -/
def roundDouble (x : ℚ) : ℚ :=
  if x = 0 then 0
  else
    let e : ℤ := max (binade x) (-1022)
    let q : ℚ := (2 : ℚ) ^ (e - 52)
    (roundHalfEven (x / q) : ℚ) * q

/-- The function `isPointInRect` in double arithmetic. -/
def isPointInRectDouble (px py : ℚ) (r : Rect) : Bool :=
  decide (px ≥ r.x) && decide (px ≤ roundDouble (r.x + r.w)) &&
    decide (py ≥ r.y) && decide (py ≤ roundDouble (r.y + r.h))

/-- The function `isRectOverlap` in double arithmetic. -/
def isRectOverlapDouble (a b : Rect) : Bool :=
  decide (a.x < roundDouble (b.x + b.w)) && decide (roundDouble (a.x + a.w) > b.x) &&
    decide (a.y < roundDouble (b.y + b.h)) && decide (roundDouble (a.y + a.h) > b.y)

/-- The function `initPlayer()`, its decimal literals read as doubles. -/
def initPlayerDouble : Player :=
  { x := 140, y := 95, w := 22, h := 12, angle := 0, speed := 0,
    maxSpeed := roundDouble 3.2, accel := roundDouble 0.12,
    friction := roundDouble 0.04, turnRate := roundDouble 0.06 }

/-- Lines 424 to 427 of `updatePlayer` in double arithmetic. -/
def applyThrottleDouble (up down : Bool) (p : Player) : Player :=
  let p := if up then { p with speed := roundDouble (p.speed + p.accel) } else p
  let p := if down then { p with speed := roundDouble (p.speed - p.accel) } else p
  { p with
    speed := clamp p.speed (roundDouble (-p.maxSpeed * roundDouble 0.7)) p.maxSpeed }

/-- Lines 429 and 430 of `updatePlayer` in double arithmetic. -/
def applySteeringDouble (left right : Bool) (p : Player) : Player :=
  let turning : ℚ := (if left then -1 else 0) + (if right then 1 else 0)
  if |p.speed| > roundDouble 0.2 then
    { p with angle := roundDouble (p.angle +
        roundDouble (roundDouble (turning * p.turnRate) * (if p.speed ≥ 0 then 1 else -1))) }
  else p

/-- Lines 433 to 436 of `updatePlayer` in double arithmetic. -/
def applyFrictionDouble (up down : Bool) (p : Player) : Player :=
  if !up && !down then
    let p :=
      if p.speed > 0 then { p with speed := max 0 (roundDouble (p.speed - p.friction)) }
      else p
    if p.speed < 0 then { p with speed := min 0 (roundDouble (p.speed + p.friction)) }
    else p
  else p

/-- Lines 438 to 448 of `updatePlayer` in double arithmetic. -/
def tryRectDouble (t : Trig) (canvas : Canvas) (p : Player) : Rect :=
  let nx := roundDouble (p.x + roundDouble (t.cos p.angle * p.speed))
  let ny := roundDouble (p.y + roundDouble (t.sin p.angle * p.speed))
  let rect : Rect :=
    ⟨roundDouble (nx - roundDouble (p.w / 2)), roundDouble (ny - roundDouble (p.h / 2)),
      p.w, p.h⟩
  let rect : Rect := { rect with x := clamp rect.x 0 (roundDouble (canvas.width - rect.w)) }
  let rect : Rect := { rect with y := clamp rect.y 0 (roundDouble (canvas.height - rect.h)) }
  { x := rect.x, y := rect.y, w := rect.w, h := rect.h }

/-- Lines 449 to 470 of `updatePlayer` in double arithmetic. -/
def resolveMoveDouble (m : CityMap) (tr : Rect) (p : Player) : Player :=
  let center : ℚ × ℚ :=
    (roundDouble (tr.x + roundDouble (tr.w / 2)), roundDouble (tr.y + roundDouble (tr.h / 2)))
  if m.buildings.any (fun b => isRectOverlapDouble tr b) then
    { p with speed := roundDouble (p.speed * roundDouble 0.4) }
  else
    let onRoad := m.roads.any (fun r => isPointInRectDouble center.1 center.2 r)
    if !onRoad then { p with speed := roundDouble (p.speed * roundDouble 0.5) }
    else { p with x := roundDouble (tr.x + roundDouble (p.w / 2)),
                  y := roundDouble (tr.y + roundDouble (p.h / 2)) }

/-- The function `updatePlayer()` in double arithmetic. -/
def updatePlayerDouble (t : Trig) (canvas : Canvas) (m : CityMap) (keys : List String)
    (p : Player) : Player :=
  let up := keyUp keys
  let down := keyDown keys
  let left := keyLeft keys
  let right := keyRight keys
  let p := applyThrottleDouble up down p
  let p := applySteeringDouble left right p
  let p := applyFrictionDouble up down p
  resolveMoveDouble m (tryRectDouble t canvas p) p

/-- Successive frames of `updatePlayerDouble`. -/
def runFramesDouble (t : Trig) (canvas : Canvas) (m : CityMap)
    (frames : List (List String)) (p : Player) : Player :=
  frames.foldl (fun q keys => updatePlayerDouble t canvas m keys q) p

/-! ## Questions, progress and the stored record -/

/-- A question record that passed the validation of `loadQuestions`. -/
structure Question where
  id : String
  prompt : String
  choices : List String
  answerIndex : ℤ
  explain : Option String
deriving DecidableEq

/-- The tally `state.stats`: `{ correct, wrong }`, two numbers that hold
integers. -/
structure Stats where
  correct : ℤ
  wrong : ℤ
deriving DecidableEq

/-- A JSON value, as `JSON.parse` yields it. The keys of an object are distinct. -/
inductive Json where
  | null
  | bool (b : Bool)
  | num (q : ℚ)
  | str (s : String)
  | arr (l : List Json)
  | obj (l : List (String × Json))

/-- The string held by `localStorage` under `STORAGE_KEY`: either a text that
`JSON.parse` rejects (the empty string included, which `!raw` already stops),
or the text of a JSON value. `JSON.parse (JSON.stringify j)` is taken to be `j`. -/
inductive Stored where
  | unparseable
  | document (j : Json)

/-- The module-level object `state`, and the stored record.

* `askedQuestionIds` and `collectedItemIds` are JavaScript `Set`s of strings,
  kept as the list of their elements in insertion order.
* `activeItem` refers to one of the objects of `items`; it is kept as the
  position of that object in `items`.
* `map` and `player` are `null` only before the first `restartRun`, when none
  of the functions below runs. -/
structure State where
  map : CityMap
  player : Player
  items : List Item
  questions : List Question
  askedQuestionIds : List String
  collectedItemIds : List String
  activeItem : Option ℕ
  activeQuestion : Option Question
  locked : Bool
  stats : Stats
  storage : Option Stored

/-- The method `Set.prototype.has`. -/
def setHas (s : List String) (x : String) : Bool := s.contains x

/-- The method `Set.prototype.add`: a new element goes last. -/
def setAdd (s : List String) (x : String) : List String :=
  if s.contains x then s else s ++ [x]

/-- The constructor `new Set(array)` on an array of strings. -/
def setFrom (l : List String) : List String := l.foldl setAdd []

/-- Truthiness of a JSON value. -/
def Json.truthy : Json → Bool
  | .null => false
  | .bool b => b
  | .num q => decide (q ≠ 0)
  | .str s => decide (s ≠ "")
  | .arr _ => true
  | .obj _ => true

/-- The string inside a JSON string value. -/
def Json.asString : Json → Option String
  | .str s => some s
  | _ => none

/-- The value of `data && data[name]` when it is truthy, for one of the three
field names of the record (none of which is a property of an array, a string,
a number or a boolean). -/
def Json.field (data : Json) (name : String) : Option Json :=
  if data.truthy then
    match data with
    | .obj l =>
      match l.lookup name with
      | some v => if v.truthy then some v else none
      | none => none
    | _ => none
  else none

/-- What evaluating an expression on stored data comes to. -/
inductive Loaded (α : Type) where
  /-- It evaluates to a value that the typed state can hold. -/
  | value (a : α)
  /-- It raises an exception, which the `catch` of `loadProgress` swallows. -/
  | throws
  /-- It evaluates to a JavaScript value that is neither a set of strings nor
  an integer tally, so that `State` has no counterpart for the result. -/
  | untyped

/-- The expression `new Set(v)`: the elements of an array, the characters of a
string, the empty set for `null`; a number, a boolean or a plain object is not
iterable. -/
def newSet : Json → Loaded (List String)
  | .arr l =>
    if l.all (fun j => (Json.asString j).isSome) then .value (setFrom (l.filterMap Json.asString))
    else .untyped
  | .str s => .value (setFrom (s.toList.map String.singleton))
  | .null => .value []
  | .bool _ => .throws
  | .num _ => .throws
  | .obj _ => .throws

/-- Reading a stored value as the tally: an object with exactly the integer
fields `correct` and `wrong`. -/
def asStats : Json → Loaded Stats
  | .obj l =>
    match l.lookup "correct", l.lookup "wrong" with
    | some (.num c), some (.num w) =>
      if c.den = 1 ∧ w.den = 1 ∧ l.length = 2 then .value ⟨c.num, w.num⟩ else .untyped
    | _, _ => .untyped
  | _ => .untyped

/-- The function `loadProgress()`. The result is `none` when the stored
document makes `state` hold a value outside `State` (see `Loaded.untyped`);
otherwise it is the state after the call, in which an exception raised by
`JSON.parse` or `new Set` has been caught and the assignments made before it
are kept. -/
def loadProgress (s : State) : Option State :=
  match s.storage with
  | none => some s
  | some .unparseable => some s
  | some (.document data) =>
    let r1 : Loaded State :=
      match data.field "collectedItemIds" with
      | none => .value s
      | some v =>
        match newSet v with
        | .value l => .value { s with collectedItemIds := l }
        | .throws => .throws
        | .untyped => .untyped
    match r1 with
    | .untyped => none
    | .throws => some s
    | .value s1 =>
      let r2 : Loaded State :=
        match data.field "askedQuestionIds" with
        | none => .value s1
        | some v =>
          match newSet v with
          | .value l => .value { s1 with askedQuestionIds := l }
          | .throws => .throws
          | .untyped => .untyped
      match r2 with
      | .untyped => none
      | .throws => some s1
      | .value s2 =>
        match data.field "stats" with
        | none => some s2
        | some v =>
          match asStats v with
          | .value st => some { s2 with stats := st }
          | .throws => some s2
          | .untyped => none

/-- The function `saveProgress()`. -/
def saveProgress (s : State) : State :=
  let data : Json := .obj
    [ ("collectedItemIds", .arr (s.collectedItemIds.map .str)),
      ("askedQuestionIds", .arr (s.askedQuestionIds.map .str)),
      ("stats", .obj [("correct", .num s.stats.correct), ("wrong", .num s.stats.wrong)]) ]
  { s with storage := some (.document data) }

/-- The function `resetProgress()`. -/
def resetProgress (s : State) : State :=
  { s with storage := none, collectedItemIds := [], askedQuestionIds := [],
           stats := ⟨0, 0⟩ }

/-! ## The quiz -/

/-- The function `chooseQuestion()`, where `u` is the value that the call of
`Math.random()` returns. An index outside the array reads `undefined`, which
is `none` here like `null`. -/
def chooseQuestion (s : State) (u : ℚ) : Option Question :=
  let notAsked := s.questions.filter (fun q => !setHas s.askedQuestionIds q.id)
  let pool := if notAsked.length ≠ 0 then notAsked else s.questions
  if pool.length = 0 then none
  else
    let i : ℤ := ⌊u * (pool.length : ℚ)⌋
    if i < 0 then none else pool[i.toNat]?

/-- The function `collectActiveItem()`. -/
def collectActiveItem (s : State) : State :=
  match s.activeItem with
  | none => s
  | some i =>
    match s.items[i]? with
    | none => s
    | some item =>
      { s with items := s.items.set i { item with collected := true },
               collectedItemIds := setAdd s.collectedItemIds item.id }

/-- The update `n += 1` of a counter of the tally that holds the integer `n`:
the sum is a double, `n + 1` rounded to the nearest binary64 value, which is
an integer again. -/
def tallyIncrement (n : ℤ) : ℤ := ⌊roundDouble ((n : ℚ) + 1)⌋

/-- The function `answerQuiz(selectedIndex)`. -/
def answerQuiz (selectedIndex : ℤ) (s : State) : State :=
  match s.activeQuestion with
  | none => s
  | some q =>
    let s := { s with askedQuestionIds := setAdd s.askedQuestionIds q.id }
    let correct : Bool := decide (selectedIndex = q.answerIndex)
    let s :=
      if correct then
        let s := collectActiveItem s
        { s with stats := { s.stats with correct := tallyIncrement s.stats.correct } }
      else
        { s with stats := { s.stats with wrong := tallyIncrement s.stats.wrong } }
    saveProgress s

/-- The function `closeQuiz()`. -/
def closeQuiz (s : State) : State :=
  { s with locked := false, activeItem := none, activeQuestion := none }

/-- The function `allCollected()`. -/
def allCollected (s : State) : Bool := s.items.all (fun i => i.collected)

/-- The function `openQuizForItem(item)`, where `item` is the position of the
item in `state.items` and `u` the value of `Math.random()` in `chooseQuestion`. -/
def openQuizForItem (item : ℕ) (u : ℚ) (s : State) : State :=
  match chooseQuestion s u with
  | none => s
  | some q => { s with locked := true, activeItem := some item, activeQuestion := some q }

/-! ## Pickup, frames and restart -/

/-- The rectangle `pr` of `checkItemPickup`: the body of the vehicle around its
position. -/
def bodyRect (p : Player) : Rect := ⟨p.x - p.w / 2, p.y - p.h / 2, p.w, p.h⟩

/-- The rectangle `ir` of `checkItemPickup`: the square of an item around its
position. -/
def itemRect (it : Item) : Rect :=
  ⟨it.x - it.size / 2, it.y - it.size / 2, it.size, it.size⟩

/-- The loop of `checkItemPickup` over the items from position `i` on: the
position of the item for which `openQuizForItem` is called, if any. -/
def pickupScan (pr : Rect) : List Item → ℕ → Option ℕ
  | [], _ => none
  | it :: rest, i =>
    if it.collected then pickupScan pr rest (i + 1)
    else if isRectOverlap pr (itemRect it) then some i
    else pickupScan pr rest (i + 1)

/-- The function `checkItemPickup()`. -/
def checkItemPickup (u : ℚ) (s : State) : State :=
  match pickupScan (bodyRect s.player) s.items 0 with
  | some i => openQuizForItem i u s
  | none => s

/-- The gameplay part of `tick(t)`: the drawing calls and the request for the
next frame are left out. -/
def tick (t : Trig) (canvas : Canvas) (keys : List String) (u : ℚ) (s : State) : State :=
  if !s.locked && !allCollected s then
    checkItemPickup u { s with player := updatePlayer t canvas s.map keys s.player }
  else s

/-- The function `restartRun(keepProgress)`, with the stream `rnd` of
`Math.random()` values that `spawnItems` consumes. The handlers call it after
`closeQuiz()`, with no active item. -/
def restartRun (canvas : Canvas) (keepProgress : Bool) (rnd : ℕ → ℚ) (s : State) : State :=
  let s := { s with map := buildCityMap canvas }
  let s := { s with player := initPlayer }
  let count := min 12 (max 6 s.questions.length)
  let s := { s with items := spawnItems canvas s.map s.collectedItemIds count rnd }
  if !keepProgress then
    let s := { s with collectedItemIds := [] }
    let s := { s with askedQuestionIds := [] }
    let s := { s with stats := ⟨0, 0⟩ }
    let s := { s with items := s.items.map (fun i => { i with collected := false }) }
    saveProgress s
  else
    { s with items :=
        s.items.map (fun i => { i with collected := setHas s.collectedItemIds i.id }) }

/-! ## The question file -/

/-- The property `v[name]` of a parsed value, for a name that is no built-in
property (`length` and the like): a field of an object, `undefined` otherwise. -/
def Json.get (v : Json) (name : String) : Option Json :=
  match v with
  | .obj l => l.lookup name
  | _ => none

/-- The predicate of the `filter` of `loadQuestions`, on one entry `q` of
`data.items`. `Number.isInteger` holds of a number with denominator 1. -/
def validQuestion (q : Json) : Bool :=
  q.truthy &&
  (match q.get "id" with
    | some (.str _) => true
    | _ => false) &&
  (match q.get "prompt" with
    | some (.str _) => true
    | _ => false) &&
  (match q.get "choices" with
    | some (.arr cs) => decide (cs.length ≥ 2)
    | _ => false) &&
  (match q.get "answerIndex" with
    | some (.num n) => decide (n.den = 1)
    | _ => false) &&
  (match q.get "answerIndex", q.get "choices" with
    | some (.num n), some (.arr cs) => decide (n ≥ 0) && decide (n < (cs.length : ℚ))
    | _, _ => false)

/-- The exchange `[arr[i], arr[j]] = [arr[j], arr[i]]` of `shuffle`, for two
positions inside the array (a draw in `[0, 1)` gives `j ≤ i`). -/
def swapAt {α : Type} (arr : List α) (i j : ℕ) : List α :=
  match arr[i]?, arr[j]? with
  | some a, some b => (arr.set i b).set j a
  | _, _ => arr

/-- The loop of `shuffle(arr)` entered with the index `i`, the `k`-th draw of
the stream being the next value of `Math.random()`. -/
def shuffleFrom {α : Type} (rnd : ℕ → ℚ) : ℕ → ℕ → List α → List α
  | 0, _, arr => arr
  | i + 1, k, arr =>
    let j : ℤ := ⌊rnd k * (((i + 1 : ℕ) : ℚ) + 1)⌋
    shuffleFrom rnd i (k + 1) (swapAt arr (i + 1) j.toNat)

/-- The function `shuffle(arr)`. -/
def shuffle {α : Type} (rnd : ℕ → ℚ) (arr : List α) : List α :=
  shuffleFrom rnd (arr.length - 1) 0 arr

/-- The function `loadQuestions()` on the parsed question file `data`: the
value that it assigns to `state.questions`, or `none` when it throws for want
of `items[]`. The records are kept as parsed: the validation looks at no entry
of `choices` and at no other field. -/
def loadQuestions (data : Json) (rnd : ℕ → ℚ) : Option (List Json) :=
  if data.truthy then
    match data.get "items" with
    | some (.arr items) => some (shuffle rnd (items.filter validQuestion))
    | _ => none
  else none

/-! ## Concrete inputs -/

/-- The question of the scenario: id `q1`, choices `a` and `b`, answer index 1. -/
def questionQ1 : Question :=
  { id := "q1", prompt := "", choices := ["a", "b"], answerIndex := 1, explain := none }

/-- A state of the scenario: the pool is `[q1]`, nothing asked or collected,
one item on the top road of the 1000 by 600 map, and the quiz open on it. -/
def quizScenario : State :=
  { map := buildCityMap ⟨1000, 600⟩
    player := initPlayer
    items := [⟨"item-1", 500, 100, 16, false⟩]
    questions := [questionQ1]
    askedQuestionIds := []
    collectedItemIds := []
    activeItem := some 0
    activeQuestion := some questionQ1
    locked := true
    stats := ⟨0, 0⟩
    storage := none }

/-- A pair of functions that agrees with cosine and sine at the heading 0,
where the vehicle of `initPlayer` points. -/
def headingZero : Trig := ⟨fun _ => 1, fun _ => 0⟩

/-- The vehicle of `initPlayer` rolling at speed 0.1. -/
def coastingPlayer : Player := { initPlayer with speed := 0.1 }

/-- The vehicle of `initPlayer` at (215, 200), next to the first building and
off every road of the 1000 by 600 map, rolling at speed 1. -/
def strayPlayer : Player := { initPlayer with x := 215, y := 200, speed := 1 }

/-- A stream of draws: 3/4 at position 4, elsewhere 1/2 at the even positions
and 1/10 at the odd ones. -/
def sampleDraws : ℕ → ℚ := fun k => if k = 4 then 3 / 4 else if k % 2 = 0 then 1 / 2 else 1 / 10

/-- Draws that place six items on the top road of the 1000 by 600 map, 100
apart: the even positions give x = 150, 250, and so on, the odd ones y = 108. -/
def spreadDraws : ℕ → ℚ :=
  fun k => if k % 2 = 0 then (90 + 100 * ((k / 2 : ℕ) : ℚ) + 1 / 2) / 881 else 1 / 10

/-- A state with progress: the quiz of `quizScenario` closed, its item
collected, its question asked and one correct answer tallied. -/
def playedScenario : State :=
  { closeQuiz quizScenario with
    items := [⟨"item-1", 500, 100, 16, true⟩]
    askedQuestionIds := ["q1"]
    collectedItemIds := ["item-1"]
    stats := ⟨1, 0⟩ }

/-- A state in which the vehicle stands on the second of two uncollected
items of the top road, with no quiz open. -/
def pickupScenario : State :=
  { closeQuiz quizScenario with
    player := { initPlayer with x := 500, y := 100 }
    items := [⟨"item-1", 400, 100, 16, false⟩, ⟨"item-2", 500, 100, 16, false⟩] }

/-- The vehicle of `initPlayer` at the center of the 1000 by 600 canvas. -/
def centerPlayer : Player := { initPlayer with x := 500, y := 300 }

/-- A record of the question file whose `id` is the empty string. -/
def emptyIdRecord : Json :=
  .obj [("id", .str ""), ("prompt", .str "p"), ("choices", .arr [.str "a", .str "b"]),
    ("answerIndex", .num 0)]

/-- A record of the question file that passes the validation. -/
def recordQ1 : Json :=
  .obj [("id", .str "q1"), ("prompt", .str "p"), ("choices", .arr [.str "a", .str "b"]),
    ("answerIndex", .num 1)]

/-- A question file with three entries: `null`, `recordQ1`, and a record
whose answer index 2 is out of range. -/
def sampleFile : Json :=
  .obj [("items", .arr [.null, recordQ1,
    .obj [("id", .str "q2"), ("prompt", .str "p"), ("choices", .arr [.str "a", .str "b"]),
      ("answerIndex", .num 2)]])]

/-! ## Properties -/

theorem isPointInRect_iff (px py : ℚ) (r : Rect) :
    isPointInRect px py r = true ↔
      r.x ≤ px ∧ px ≤ r.x + r.w ∧ r.y ≤ py ∧ py ≤ r.y + r.h := by
  simp [isPointInRect, and_assoc]

/-- C8: `isDrivableRect` is true exactly when the center of the rectangle lies
in some road rectangle and in no building rectangle (borders included on both
sides); in particular it is false whenever the center is strictly inside a
building, whatever the roads are. -/
theorem isDrivableRect_iff (m : CityMap) (rect : Rect) :
    (isDrivableRect m rect = true ↔
      (∃ r ∈ m.roads, r.x ≤ rect.x + rect.w / 2 ∧ rect.x + rect.w / 2 ≤ r.x + r.w ∧
          r.y ≤ rect.y + rect.h / 2 ∧ rect.y + rect.h / 2 ≤ r.y + r.h) ∧
      (∀ b ∈ m.buildings, ¬ (b.x ≤ rect.x + rect.w / 2 ∧ rect.x + rect.w / 2 ≤ b.x + b.w ∧
          b.y ≤ rect.y + rect.h / 2 ∧ rect.y + rect.h / 2 ≤ b.y + b.h))) ∧
    (∀ b ∈ m.buildings,
      b.x < rect.x + rect.w / 2 → rect.x + rect.w / 2 < b.x + b.w →
      b.y < rect.y + rect.h / 2 → rect.y + rect.h / 2 < b.y + b.h →
      isDrivableRect m rect = false) := by
  have key : isDrivableRect m rect = true ↔
      (∃ r ∈ m.roads, r.x ≤ rect.x + rect.w / 2 ∧ rect.x + rect.w / 2 ≤ r.x + r.w ∧
          r.y ≤ rect.y + rect.h / 2 ∧ rect.y + rect.h / 2 ≤ r.y + r.h) ∧
      (∀ b ∈ m.buildings, ¬ (b.x ≤ rect.x + rect.w / 2 ∧ rect.x + rect.w / 2 ≤ b.x + b.w ∧
          b.y ≤ rect.y + rect.h / 2 ∧ rect.y + rect.h / 2 ≤ b.y + b.h)) := by
    unfold isDrivableRect
    simp only []
    by_cases hb : (m.buildings.any fun b =>
        isPointInRect (rect.x + rect.w / 2) (rect.y + rect.h / 2) b) = true
    · rw [if_pos hb]
      rw [List.any_eq_true] at hb
      obtain ⟨b, hbm, hbp⟩ := hb
      constructor
      · intro h; cases h
      · rintro ⟨-, hall⟩
        exact absurd ((isPointInRect_iff _ _ _).1 hbp) (hall b hbm)
    · rw [if_neg hb]
      have hnb : ∀ b ∈ m.buildings, ¬ (b.x ≤ rect.x + rect.w / 2 ∧
          rect.x + rect.w / 2 ≤ b.x + b.w ∧
          b.y ≤ rect.y + rect.h / 2 ∧ rect.y + rect.h / 2 ≤ b.y + b.h) := by
        intro b hbm hin
        exact hb (List.any_eq_true.2 ⟨b, hbm, (isPointInRect_iff _ _ _).2 hin⟩)
      by_cases hr : (m.roads.any fun r =>
          isPointInRect (rect.x + rect.w / 2) (rect.y + rect.h / 2) r) = true
      · rw [if_pos hr]
        rw [List.any_eq_true] at hr
        obtain ⟨r, hrm, hrp⟩ := hr
        exact ⟨fun _ => ⟨⟨r, hrm, (isPointInRect_iff _ _ _).1 hrp⟩, hnb⟩, fun _ => rfl⟩
      · rw [if_neg hr]
        constructor
        · intro h; cases h
        · rintro ⟨⟨r, hrm, hin⟩, -⟩
          exact absurd (List.any_eq_true.2 ⟨r, hrm, (isPointInRect_iff _ _ _).2 hin⟩) hr
  refine ⟨key, ?_⟩
  intro b hbm h1 h2 h3 h4
  cases hd : isDrivableRect m rect
  · rfl
  · exact absurd ⟨le_of_lt h1, le_of_lt h2, le_of_lt h3, le_of_lt h4⟩ ((key.1 hd).2 b hbm)

/-- C8 at a concrete input: on the map of a 1000 by 600 canvas the 16 by 16
rectangle centred at (500, 100) is drivable, the one centred at (350, 230),
which is on the middle road and inside the first building, is not. -/
theorem isDrivableRect_iff_witness :
    isDrivableRect (buildCityMap ⟨1000, 600⟩) ⟨492, 92, 16, 16⟩ = true ∧
    isDrivableRect (buildCityMap ⟨1000, 600⟩) ⟨342, 222, 16, 16⟩ = false :=
  ⟨(isDrivableRect_iff (buildCityMap ⟨1000, 600⟩) ⟨492, 92, 16, 16⟩).1.2
      ⟨⟨⟨80, 60, 1000 - 160, 70⟩, by simp [buildCityMap], by norm_num⟩,
        by simp [buildCityMap]; norm_num⟩,
    (isDrivableRect_iff (buildCityMap ⟨1000, 600⟩) ⟨342, 222, 16, 16⟩).2
      ⟨220, 150, 160, 110⟩ (by simp [buildCityMap])
      (by norm_num) (by norm_num) (by norm_num) (by norm_num)⟩

/-! ### The quiz -/

theorem setHas_iff (l : List String) (x : String) : setHas l x = true ↔ x ∈ l := by
  simp [setHas]

theorem mem_setAdd (l : List String) (x y : String) : y ∈ setAdd l x ↔ y ∈ l ∨ y = x := by
  unfold setAdd
  split_ifs with h
  · constructor
    · exact Or.inl
    · rintro (h1 | h1)
      · exact h1
      · subst h1; simpa using h
  · simp

theorem chooseQuestion_some_cases (s : State) (u : ℚ) (q : Question)
    (h : chooseQuestion s u = some q) :
    q ∈ s.questions.filter (fun q => !setHas s.askedQuestionIds q.id) ∨
      (s.questions.filter (fun q => !setHas s.askedQuestionIds q.id) = [] ∧ q ∈ s.questions) := by
  unfold chooseQuestion at h
  simp only [] at h
  by_cases hn : (s.questions.filter (fun q => !setHas s.askedQuestionIds q.id)).length ≠ 0
  · rw [if_pos hn] at h
    split_ifs at h
    exact Or.inl (List.getElem?_mem h)
  · rw [if_neg hn] at h
    split_ifs at h
    refine Or.inr ⟨?_, List.getElem?_mem h⟩
    exact List.length_eq_zero.1 (not_not.1 hn)

/-- C1: whatever `chooseQuestion` returns is an element of `state.questions`,
and its id is in `askedQuestionIds` only if the id of every question of the
pool is; with a non-empty pool and a draw in `[0, 1)` it does return a
question, with an empty pool it returns none. -/
theorem chooseQuestion_prefers_unasked (s : State) (u : ℚ) :
    (∀ q, chooseQuestion s u = some q →
      q ∈ s.questions ∧
      (q.id ∈ s.askedQuestionIds → ∀ r ∈ s.questions, r.id ∈ s.askedQuestionIds)) ∧
    (s.questions ≠ [] → 0 ≤ u → u < 1 → ∃ q, chooseQuestion s u = some q) ∧
    (s.questions = [] → chooseQuestion s u = none) := by
  refine ⟨?_, ?_, ?_⟩
  · intro q h
    rcases chooseQuestion_some_cases s u q h with h1 | ⟨h1, h2⟩
    · rw [List.mem_filter] at h1
      refine ⟨h1.1, fun hq => ?_⟩
      have := h1.2
      simp [setHas] at this
      exact absurd hq this
    · refine ⟨h2, fun _ r hr => ?_⟩
      by_contra hr2
      have : r ∈ s.questions.filter (fun q => !setHas s.askedQuestionIds q.id) := by
        rw [List.mem_filter]
        exact ⟨hr, by simpa [setHas] using hr2⟩
      rw [h1] at this
      cases this
  · intro hne h0 h1
    unfold chooseQuestion
    simp only []
    have key : ∀ pool : List Question, pool ≠ [] →
        ∃ q, (if pool.length = 0 then none
          else if ⌊u * (pool.length : ℚ)⌋ < 0 then none
          else pool[(⌊u * (pool.length : ℚ)⌋).toNat]?) = some q := by
      intro pool hp
      have hlen : 0 < pool.length := List.length_pos.2 hp
      have hlenq : (0 : ℚ) < (pool.length : ℚ) := by exact_mod_cast hlen
      have hfl0 : 0 ≤ ⌊u * (pool.length : ℚ)⌋ := Int.floor_nonneg.2 (mul_nonneg h0 hlenq.le)
      have hfl1 : ⌊u * (pool.length : ℚ)⌋ < (pool.length : ℤ) := by
        rw [Int.floor_lt]
        have : u * (pool.length : ℚ) < 1 * (pool.length : ℚ) :=
          mul_lt_mul_of_pos_right h1 hlenq
        simpa using this
      have hidx : (⌊u * (pool.length : ℚ)⌋).toNat < pool.length := by omega
      rw [if_neg (by omega), if_neg (by omega)]
      exact ⟨pool[(⌊u * (pool.length : ℚ)⌋).toNat], List.getElem?_eq_getElem hidx⟩
    by_cases hn : (s.questions.filter (fun q => !setHas s.askedQuestionIds q.id)).length ≠ 0
    · rw [if_pos hn]
      exact key _ (fun h => hn (by rw [h]; rfl))
    · rw [if_neg hn]
      exact key _ hne
  · intro he
    unfold chooseQuestion
    simp [he]

/-- C1 on the scenario: with the pool `[q1]`, nothing asked and the draw 1/2,
`chooseQuestion` returns `q1`. -/
theorem chooseQuestion_prefers_unasked_witness :
    chooseQuestion quizScenario (1 / 2) = some questionQ1 ∧
    questionQ1 ∈ quizScenario.questions ∧
    (questionQ1.id ∈ quizScenario.askedQuestionIds →
      ∀ r ∈ quizScenario.questions, r.id ∈ quizScenario.askedQuestionIds) :=
  have h : chooseQuestion quizScenario (1 / 2) = some questionQ1 := by
    have hf : ⌊(2 : ℚ)⁻¹⌋ = 0 := by
      rw [Int.floor_eq_iff]; norm_num
    simp [chooseQuestion, quizScenario, setHas, hf]
  ⟨h, (chooseQuestion_prefers_unasked quizScenario (1 / 2)).1 questionQ1 h⟩

theorem collectActiveItem_eq (s : State) (i : ℕ) (item : Item)
    (hi : s.activeItem = some i) (hitem : s.items[i]? = some item) :
    collectActiveItem s =
      { s with items := s.items.set i { item with collected := true },
               collectedItemIds := setAdd s.collectedItemIds item.id } := by
  unfold collectActiveItem
  rw [hi]
  simp only []
  rw [hitem]

theorem answerQuiz_eq (s : State) (q : Question) (selectedIndex : ℤ)
    (hq : s.activeQuestion = some q) :
    answerQuiz selectedIndex s =
      saveProgress
        (if selectedIndex = q.answerIndex then
          { collectActiveItem { s with askedQuestionIds := setAdd s.askedQuestionIds q.id } with
            stats :=
              { (collectActiveItem
                  { s with askedQuestionIds := setAdd s.askedQuestionIds q.id }).stats with
                correct := tallyIncrement (collectActiveItem
                  { s with askedQuestionIds := setAdd s.askedQuestionIds q.id }).stats.correct } }
        else
          { s with askedQuestionIds := setAdd s.askedQuestionIds q.id,
                   stats := { s.stats with wrong := tallyIncrement s.stats.wrong } }) := by
  unfold answerQuiz
  split
  · rename_i h
    rw [hq] at h
    cases h
  · rename_i r h
    rw [hq] at h
    cases h
    simp only [decide_eq_true_eq]

/-- C3: with a question and an item active, `answerQuiz` puts the id of the
question into `askedQuestionIds` whatever the answer; on the answer index it
sets the `collected` flag of the active item and adds its id to
`collectedItemIds`; on any other index it leaves `items` and
`collectedItemIds` as they were. So an item that was not collected is
collected afterwards exactly when the selected index is the answer index. -/
theorem answerQuiz_asked_and_collected (s : State) (q : Question) (i : ℕ) (item : Item)
    (selectedIndex : ℤ) (hq : s.activeQuestion = some q) (hi : s.activeItem = some i)
    (hitem : s.items[i]? = some item) :
    q.id ∈ (answerQuiz selectedIndex s).askedQuestionIds ∧
    (selectedIndex = q.answerIndex →
      (answerQuiz selectedIndex s).items = s.items.set i { item with collected := true } ∧
      (answerQuiz selectedIndex s).items[i]? = some { item with collected := true } ∧
      (answerQuiz selectedIndex s).collectedItemIds = setAdd s.collectedItemIds item.id ∧
      item.id ∈ (answerQuiz selectedIndex s).collectedItemIds) ∧
    (selectedIndex ≠ q.answerIndex →
      (answerQuiz selectedIndex s).items = s.items ∧
      (answerQuiz selectedIndex s).collectedItemIds = s.collectedItemIds) ∧
    (item.collected = false →
      ((∃ it, (answerQuiz selectedIndex s).items[i]? = some it ∧ it.collected = true) ↔
        selectedIndex = q.answerIndex)) ∧
    (item.id ∉ s.collectedItemIds →
      (item.id ∈ (answerQuiz selectedIndex s).collectedItemIds ↔
        selectedIndex = q.answerIndex)) := by
  have hlt : i < s.items.length := (List.getElem?_eq_some.1 hitem).1
  have hyes : selectedIndex = q.answerIndex →
      (answerQuiz selectedIndex s).items = s.items.set i { item with collected := true } ∧
      (answerQuiz selectedIndex s).collectedItemIds = setAdd s.collectedItemIds item.id := by
    intro hc
    rw [answerQuiz_eq s q selectedIndex hq, collectActiveItem_eq
      { s with askedQuestionIds := setAdd s.askedQuestionIds q.id } i item hi hitem]
    simp [hc, saveProgress]
  have hno : selectedIndex ≠ q.answerIndex →
      (answerQuiz selectedIndex s).items = s.items ∧
      (answerQuiz selectedIndex s).collectedItemIds = s.collectedItemIds := by
    intro hc
    rw [answerQuiz_eq s q selectedIndex hq]
    simp [hc, saveProgress]
  have hasked : q.id ∈ (answerQuiz selectedIndex s).askedQuestionIds := by
    rw [answerQuiz_eq s q selectedIndex hq]
    by_cases hc : selectedIndex = q.answerIndex
    · rw [collectActiveItem_eq
        { s with askedQuestionIds := setAdd s.askedQuestionIds q.id } i item hi hitem]
      simp [hc, saveProgress, mem_setAdd]
    · simp [hc, saveProgress, mem_setAdd]
  refine ⟨hasked, ?_, hno, ?_, ?_⟩
  · intro hc
    obtain ⟨h1, h2⟩ := hyes hc
    refine ⟨h1, ?_, h2, ?_⟩
    · rw [h1]; exact List.getElem?_set_self hlt
    · rw [h2, mem_setAdd]; exact Or.inr rfl
  · intro hflag
    constructor
    · rintro ⟨it, hit, hcol⟩
      by_contra hc
      rw [(hno hc).1, hitem] at hit
      cases hit
      rw [hflag] at hcol
      cases hcol
    · intro hc
      refine ⟨{ item with collected := true }, ?_, rfl⟩
      rw [(hyes hc).1]; exact List.getElem?_set_self hlt
  · intro hnot
    constructor
    · intro hmem
      by_contra hc
      rw [(hno hc).2] at hmem
      exact hnot hmem
    · intro hc
      rw [(hyes hc).2, mem_setAdd]; exact Or.inr rfl

/-- C3 on the scenario: pool `[q1]` with answer index 1, nothing asked; the
answer 1 gives the tally 1 correct and 0 wrong, the item collected, its id in
`collectedItemIds`, and `askedQuestionIds` equal to the set of `q1`. -/
theorem answerQuiz_asked_and_collected_witness :
    (answerQuiz 1 quizScenario).stats = ⟨1, 0⟩ ∧
    (answerQuiz 1 quizScenario).askedQuestionIds = ["q1"] ∧
    (answerQuiz 1 quizScenario).items = [⟨"item-1", 500, 100, 16, true⟩] ∧
    (answerQuiz 1 quizScenario).collectedItemIds = ["item-1"] ∧
    "q1" ∈ (answerQuiz 1 quizScenario).askedQuestionIds ∧
    "item-1" ∈ (answerQuiz 1 quizScenario).collectedItemIds := by
  have h := answerQuiz_asked_and_collected quizScenario questionQ1 0
    ⟨"item-1", 500, 100, 16, false⟩ 1 rfl rfl rfl
  refine ⟨?_, ?_, ?_, ?_, h.1, (h.2.1 rfl).2.2.2⟩
  · decide!
  · simp [answerQuiz, quizScenario, questionQ1, collectActiveItem, saveProgress, setAdd]
  · have := (h.2.1 rfl).1
    simpa [quizScenario] using this
  · have := (h.2.1 rfl).2.2.1
    simpa [quizScenario, setAdd] using this

/-! ### The progress store -/

theorem foldl_setAdd_of_nodup (l acc : List String) (h : (acc ++ l).Nodup) :
    l.foldl setAdd acc = acc ++ l := by
  induction l generalizing acc with
  | nil => simp
  | cons x xs ih =>
    have hx : x ∉ acc := by
      intro hmem
      rw [List.nodup_append] at h
      exact h.2.2 hmem (List.mem_cons_self x xs)
    have hadd : setAdd acc x = acc ++ [x] := by
      unfold setAdd
      rw [if_neg (by simpa using hx)]
    rw [List.foldl_cons, hadd, ih (acc ++ [x]) (by simpa using h)]
    simp

theorem setFrom_of_nodup (l : List String) (h : l.Nodup) : setFrom l = l := by
  unfold setFrom
  rw [foldl_setAdd_of_nodup l [] (by simpa using h)]
  simp

theorem newSet_arr_str (l : List String) (h : l.Nodup) :
    newSet (.arr (l.map Json.str)) = .value l := by
  have hall : (l.map Json.str).all (fun j => (Json.asString j).isSome) = true := by
    simp [List.all_eq_true, Json.asString]
  have hfm : ∀ k : List String, (k.map Json.str).filterMap Json.asString = k := by
    intro k
    induction k with
    | nil => rfl
    | cons x xs ih =>
      simp only [List.map_cons, List.filterMap_cons, Json.asString]
      rw [ih]
  unfold newSet
  simp only []
  rw [if_pos hall, hfm, setFrom_of_nodup l h]

theorem asStats_tally (c w : ℤ) :
    asStats (.obj [("correct", .num c), ("wrong", .num w)]) = .value ⟨c, w⟩ := by
  simp [asStats, List.lookup]

/-- C4: round trip of the progress store. After `saveProgress` in a state whose
two id sets have no repeated element (as the elements of a `Set` have none),
`loadProgress`, run from any in-memory state over the record just written,
succeeds and yields the saved `collectedItemIds`, `askedQuestionIds` and
`stats`; this includes empty sets and the tally 0, 0. -/
theorem save_load_roundtrip (s s0 : State)
    (hc : s.collectedItemIds.Nodup) (ha : s.askedQuestionIds.Nodup) :
    ∃ s1, loadProgress { s0 with storage := (saveProgress s).storage } = some s1 ∧
      s1.collectedItemIds = s.collectedItemIds ∧
      s1.askedQuestionIds = s.askedQuestionIds ∧
      s1.stats = s.stats := by
  refine ⟨{ s0 with storage := (saveProgress s).storage,
                    collectedItemIds := s.collectedItemIds,
                    askedQuestionIds := s.askedQuestionIds,
                    stats := s.stats }, ?_, rfl, rfl, rfl⟩
  simp [loadProgress, saveProgress, Json.field, Json.truthy, List.lookup,
    newSet_arr_str _ hc, newSet_arr_str _ ha, asStats_tally]

/-- C4 on concrete progress: the sets of `item-1`, `item-3` and of `q1`, with
the tally 1 correct and 2 wrong, come back from the store, loaded into the
cleared state; so does the cleared progress itself. -/
theorem save_load_roundtrip_witness :
    (∃ s1, loadProgress { resetProgress quizScenario with
          storage := (saveProgress { quizScenario with
            collectedItemIds := ["item-1", "item-3"], askedQuestionIds := ["q1"],
            stats := ⟨1, 2⟩ }).storage } = some s1 ∧
        s1.collectedItemIds = ["item-1", "item-3"] ∧ s1.askedQuestionIds = ["q1"] ∧
        s1.stats = ⟨1, 2⟩) ∧
    (∃ s1, loadProgress { quizScenario with
          storage := (saveProgress (resetProgress quizScenario)).storage } = some s1 ∧
        s1.collectedItemIds = [] ∧ s1.askedQuestionIds = [] ∧ s1.stats = ⟨0, 0⟩) :=
  ⟨save_load_roundtrip { quizScenario with
      collectedItemIds := ["item-1", "item-3"], askedQuestionIds := ["q1"],
      stats := ⟨1, 2⟩ } (resetProgress quizScenario) (by decide) (by decide),
    save_load_roundtrip (resetProgress quizScenario) quizScenario (by decide) (by decide)⟩

/-! ### The vehicle -/

theorem clamp_ge (v lo hi : ℚ) : lo ≤ clamp v lo hi := le_max_left _ _

theorem clamp_le (v lo hi : ℚ) (h : lo ≤ hi) : clamp v lo hi ≤ hi :=
  max_le h (min_le_left _ _)

theorem applyThrottle_consts (up down : Bool) (p : Player) :
    (applyThrottle up down p).maxSpeed = p.maxSpeed ∧
    (applyThrottle up down p).friction = p.friction ∧
    (applyThrottle up down p).x = p.x ∧ (applyThrottle up down p).y = p.y ∧
    (applyThrottle up down p).w = p.w ∧ (applyThrottle up down p).h = p.h := by
  unfold applyThrottle
  cases up <;> cases down <;> simp

theorem applySteering_consts (left right : Bool) (p : Player) :
    (applySteering left right p).maxSpeed = p.maxSpeed ∧
    (applySteering left right p).friction = p.friction ∧
    (applySteering left right p).x = p.x ∧ (applySteering left right p).y = p.y ∧
    (applySteering left right p).w = p.w ∧ (applySteering left right p).h = p.h ∧
    (applySteering left right p).speed = p.speed := by
  unfold applySteering
  simp only []
  split_ifs <;> simp

theorem applyFriction_consts (up down : Bool) (p : Player) :
    (applyFriction up down p).maxSpeed = p.maxSpeed ∧
    (applyFriction up down p).friction = p.friction ∧
    (applyFriction up down p).x = p.x ∧ (applyFriction up down p).y = p.y ∧
    (applyFriction up down p).w = p.w ∧ (applyFriction up down p).h = p.h ∧
    (applyFriction up down p).angle = p.angle := by
  unfold applyFriction
  simp only []
  split_ifs <;> simp

theorem resolveMove_consts (m : CityMap) (tr : Rect) (p : Player) :
    (resolveMove m tr p).maxSpeed = p.maxSpeed ∧
    (resolveMove m tr p).friction = p.friction ∧
    (resolveMove m tr p).w = p.w ∧ (resolveMove m tr p).h = p.h ∧
    (resolveMove m tr p).angle = p.angle := by
  unfold resolveMove
  simp only []
  split_ifs <;> simp

theorem updatePlayer_consts (t : Trig) (canvas : Canvas) (m : CityMap) (keys : List String)
    (p : Player) :
    (updatePlayer t canvas m keys p).maxSpeed = p.maxSpeed ∧
    (updatePlayer t canvas m keys p).friction = p.friction := by
  unfold updatePlayer
  simp only []
  obtain ⟨h1, h2, -⟩ := resolveMove_consts m
    (tryRect t canvas (applyFriction (keyUp keys) (keyDown keys)
      (applySteering (keyLeft keys) (keyRight keys)
        (applyThrottle (keyUp keys) (keyDown keys) p))))
    (applyFriction (keyUp keys) (keyDown keys)
      (applySteering (keyLeft keys) (keyRight keys)
        (applyThrottle (keyUp keys) (keyDown keys) p)))
  obtain ⟨h3, h4, -⟩ := applyFriction_consts (keyUp keys) (keyDown keys)
      (applySteering (keyLeft keys) (keyRight keys)
        (applyThrottle (keyUp keys) (keyDown keys) p))
  obtain ⟨h5, h6, -⟩ := applySteering_consts (keyLeft keys) (keyRight keys)
        (applyThrottle (keyUp keys) (keyDown keys) p)
  obtain ⟨h7, h8, -⟩ := applyThrottle_consts (keyUp keys) (keyDown keys) p
  exact ⟨by rw [h1, h3, h5, h7], by rw [h2, h4, h6, h8]⟩

theorem applyThrottle_speed_range (up down : Bool) (p : Player) (hM : 0 ≤ p.maxSpeed) :
    -0.7 * p.maxSpeed ≤ (applyThrottle up down p).speed ∧
    (applyThrottle up down p).speed ≤ p.maxSpeed := by
  have hlo : -p.maxSpeed * 0.7 ≤ p.maxSpeed := by linarith
  have key : ∀ v : ℚ, -0.7 * p.maxSpeed ≤ clamp v (-p.maxSpeed * 0.7) p.maxSpeed ∧
      clamp v (-p.maxSpeed * 0.7) p.maxSpeed ≤ p.maxSpeed := by
    intro v
    constructor
    · have := clamp_ge v (-p.maxSpeed * 0.7) p.maxSpeed
      linarith
    · exact clamp_le _ _ _ hlo
  unfold applyThrottle
  cases up <;> cases down <;> exact key _

/-- Friction moves the speed towards zero and never across it (for a
non-negative friction constant). -/
theorem applyFriction_speed (up down : Bool) (p : Player) (hf : 0 ≤ p.friction) :
    (0 ≤ p.speed → 0 ≤ (applyFriction up down p).speed ∧
      (applyFriction up down p).speed ≤ p.speed) ∧
    (p.speed ≤ 0 → p.speed ≤ (applyFriction up down p).speed ∧
      (applyFriction up down p).speed ≤ 0) := by
  unfold applyFriction
  simp only []
  split_ifs with h1 h2 h3 h4 <;> simp at * <;>
    refine ⟨fun _ => ⟨?_, ?_⟩, fun _ => ⟨?_, ?_⟩⟩ <;> linarith

theorem resolveMove_speed (m : CityMap) (tr : Rect) (p : Player) :
    (resolveMove m tr p).speed = p.speed ∨ (resolveMove m tr p).speed = p.speed * 0.4 ∨
      (resolveMove m tr p).speed = p.speed * 0.5 := by
  unfold resolveMove
  simp only []
  split_ifs <;> simp

theorem resolveMove_speed_toward (m : CityMap) (tr : Rect) (p : Player) :
    (0 ≤ p.speed → 0 ≤ (resolveMove m tr p).speed ∧ (resolveMove m tr p).speed ≤ p.speed) ∧
    (p.speed ≤ 0 → p.speed ≤ (resolveMove m tr p).speed ∧ (resolveMove m tr p).speed ≤ 0) := by
  rcases resolveMove_speed m tr p with h | h | h <;> rw [h] <;>
    refine ⟨fun _ => ⟨?_, ?_⟩, fun _ => ⟨?_, ?_⟩⟩ <;> linarith

theorem updatePlayer_eq (t : Trig) (canvas : Canvas) (m : CityMap) (keys : List String)
    (p : Player) :
    updatePlayer t canvas m keys p =
      resolveMove m
        (tryRect t canvas (applyFriction (keyUp keys) (keyDown keys)
          (applySteering (keyLeft keys) (keyRight keys)
            (applyThrottle (keyUp keys) (keyDown keys) p))))
        (applyFriction (keyUp keys) (keyDown keys)
          (applySteering (keyLeft keys) (keyRight keys)
            (applyThrottle (keyUp keys) (keyDown keys) p))) := rfl

/-- One frame keeps the speed inside the clamp interval. -/
theorem updatePlayer_speed_range (t : Trig) (canvas : Canvas) (m : CityMap)
    (keys : List String) (p : Player) (hM : 0 ≤ p.maxSpeed) (hf : 0 ≤ p.friction) :
    -0.7 * p.maxSpeed ≤ (updatePlayer t canvas m keys p).speed ∧
    (updatePlayer t canvas m keys p).speed ≤ p.maxSpeed := by
  rw [updatePlayer_eq]
  obtain ⟨ha1, ha2⟩ := applyThrottle_speed_range (keyUp keys) (keyDown keys) p hM
  obtain ⟨-, hfa, -⟩ := applyThrottle_consts (keyUp keys) (keyDown keys) p
  generalize applyThrottle (keyUp keys) (keyDown keys) p = a at *
  obtain ⟨-, hfb, -, -, -, -, hsb⟩ := applySteering_consts (keyLeft keys) (keyRight keys) a
  generalize applySteering (keyLeft keys) (keyRight keys) a = b at *
  have hc := applyFriction_speed (keyUp keys) (keyDown keys) b (by rw [hfb, hfa]; exact hf)
  generalize applyFriction (keyUp keys) (keyDown keys) b = c at *
  have hd := resolveMove_speed_toward m (tryRect t canvas c) c
  generalize (resolveMove m (tryRect t canvas c) c).speed = d at *
  rw [hsb] at hc
  rcases le_total 0 a.speed with h0 | h0
  · have h1 := hc.1 h0
    have h2 := hd.1 h1.1
    constructor <;> linarith
  · have h1 := hc.2 h0
    have h2 := hd.2 h1.2
    constructor <;> linarith

theorem runFrames_nil (t : Trig) (canvas : Canvas) (m : CityMap) (p : Player) :
    runFrames t canvas m [] p = p := rfl

theorem runFrames_cons (t : Trig) (canvas : Canvas) (m : CityMap) (keys : List String)
    (frames : List (List String)) (p : Player) :
    runFrames t canvas m (keys :: frames) p =
      runFrames t canvas m frames (updatePlayer t canvas m keys p) := rfl

theorem runFrames_consts (t : Trig) (canvas : Canvas) (m : CityMap)
    (frames : List (List String)) (p : Player) :
    (runFrames t canvas m frames p).maxSpeed = p.maxSpeed ∧
    (runFrames t canvas m frames p).friction = p.friction := by
  induction frames generalizing p with
  | nil => exact ⟨rfl, rfl⟩
  | cons keys rest ih =>
    rw [runFrames_cons]
    obtain ⟨h1, h2⟩ := ih (updatePlayer t canvas m keys p)
    obtain ⟨h3, h4⟩ := updatePlayer_consts t canvas m keys p
    exact ⟨by rw [h1, h3], by rw [h2, h4]⟩

theorem runFrames_speed_range (t : Trig) (canvas : Canvas) (m : CityMap)
    (frames : List (List String)) (p : Player) (hM : 0 ≤ p.maxSpeed) (hf : 0 ≤ p.friction)
    (h0 : -0.7 * p.maxSpeed ≤ p.speed ∧ p.speed ≤ p.maxSpeed) :
    -0.7 * p.maxSpeed ≤ (runFrames t canvas m frames p).speed ∧
    (runFrames t canvas m frames p).speed ≤ p.maxSpeed := by
  induction frames generalizing p with
  | nil => exact h0
  | cons keys rest ih =>
    rw [runFrames_cons]
    obtain ⟨h3, h4⟩ := updatePlayer_consts t canvas m keys p
    have h5 := updatePlayer_speed_range t canvas m keys p hM hf
    have := ih (updatePlayer t canvas m keys p) (by rw [h3]; exact hM) (by rw [h4]; exact hf)
      (by rw [h3]; exact h5)
    rw [h3] at this
    exact this

/-- In exact arithmetic: from the vehicle of `initPlayer`, after any finite
sequence of `updatePlayer` frames, `maxSpeed` is still 3.2 and the speed lies
in `[-0.7 * maxSpeed, maxSpeed]`, that is in `[-2.24, 3.2]`. -/
theorem speed_range_exact (t : Trig) (canvas : Canvas) (m : CityMap)
    (frames : List (List String)) :
    (runFrames t canvas m frames initPlayer).maxSpeed = 3.2 ∧
    -0.7 * (runFrames t canvas m frames initPlayer).maxSpeed ≤
      (runFrames t canvas m frames initPlayer).speed ∧
    (runFrames t canvas m frames initPlayer).speed ≤
      (runFrames t canvas m frames initPlayer).maxSpeed ∧
    -2.24 ≤ (runFrames t canvas m frames initPlayer).speed ∧
    (runFrames t canvas m frames initPlayer).speed ≤ 3.2 := by
  have hM : initPlayer.maxSpeed = 3.2 := rfl
  have h := runFrames_speed_range t canvas m frames initPlayer
    (by rw [hM]; norm_num) (by norm_num [initPlayer]) (by norm_num [initPlayer])
  have hc := (runFrames_consts t canvas m frames initPlayer).1
  rw [hM] at h hc
  rw [hc]
  refine ⟨rfl, h.1, h.2, ?_, h.2⟩
  have := h.1
  norm_num at this ⊢
  linarith

theorem clamp_toward_zero (v M : ℚ) (hM : 0 ≤ M) :
    (0 ≤ v → 0 ≤ clamp v (-M * 0.7) M ∧ clamp v (-M * 0.7) M ≤ v) ∧
    (v ≤ 0 → v ≤ clamp v (-M * 0.7) M ∧ clamp v (-M * 0.7) M ≤ 0) := by
  unfold clamp
  have hlo : -M * 0.7 ≤ 0 := by linarith
  constructor
  · intro hv
    constructor
    · exact le_max_of_le_right (le_min hM hv)
    · exact max_le (by linarith) (min_le_right _ _)
  · intro hv
    constructor
    · rw [min_eq_right (by linarith)]
      exact le_max_right _ _
    · exact max_le hlo (le_trans (min_le_right _ _) hv)

theorem applyFriction_idle (p : Player) :
    (0 ≤ p.speed → 0 ≤ (applyFriction false false p).speed ∧
      ((applyFriction false false p).speed = 0 ∨
        (applyFriction false false p).speed ≤ p.speed - p.friction)) ∧
    (p.speed ≤ 0 → (applyFriction false false p).speed ≤ 0 ∧
      ((applyFriction false false p).speed = 0 ∨
        p.speed + p.friction ≤ (applyFriction false false p).speed)) := by
  unfold applyFriction
  simp only [Bool.not_false, Bool.and_self, if_true]
  by_cases h1 : p.speed > 0
  · rw [if_pos h1]
    have h2 : ¬ (max 0 (p.speed - p.friction) < 0) := not_lt.2 (le_max_left _ _)
    simp only [h2, if_false]
    refine ⟨fun _ => ⟨le_max_left _ _, ?_⟩, fun h => absurd h1 (not_lt.2 h)⟩
    rcases le_total 0 (p.speed - p.friction) with h | h
    · right; rw [max_eq_right h]
    · left; rw [max_eq_left h]
  · rw [if_neg h1]
    by_cases h3 : p.speed < 0
    · rw [if_pos h3]
      refine ⟨fun h => absurd h3 (not_lt.2 h), fun _ => ⟨min_le_left _ _, ?_⟩⟩
      rcases le_total 0 (p.speed + p.friction) with h | h
      · left; exact min_eq_left h
      · right; rw [min_eq_right h]
    · rw [if_neg h3]
      have h0 : p.speed = 0 := le_antisymm (not_lt.1 h1) (not_lt.1 h3)
      exact ⟨fun _ => ⟨h0.ge, Or.inl h0⟩, fun _ => ⟨h0.le, Or.inl h0⟩⟩

/-- One frame without throttle: the speed keeps its sign or becomes zero, and
it is zero or has lost at least the friction constant. -/
theorem updatePlayer_idle_speed (t : Trig) (canvas : Canvas) (m : CityMap)
    (keys : List String) (p : Player) (hM : 0 ≤ p.maxSpeed)
    (hup : keyUp keys = false) (hdown : keyDown keys = false) :
    (0 ≤ p.speed → 0 ≤ (updatePlayer t canvas m keys p).speed ∧
      ((updatePlayer t canvas m keys p).speed = 0 ∨
        (updatePlayer t canvas m keys p).speed ≤ p.speed - p.friction)) ∧
    (p.speed ≤ 0 → (updatePlayer t canvas m keys p).speed ≤ 0 ∧
      ((updatePlayer t canvas m keys p).speed = 0 ∨
        p.speed + p.friction ≤ (updatePlayer t canvas m keys p).speed)) := by
  rw [updatePlayer_eq, hup, hdown]
  have ha : (applyThrottle false false p).speed =
      clamp p.speed (-p.maxSpeed * 0.7) p.maxSpeed := rfl
  have hcl := clamp_toward_zero p.speed p.maxSpeed hM
  rw [← ha] at hcl
  obtain ⟨-, hfa, -⟩ := applyThrottle_consts false false p
  generalize applyThrottle false false p = a at *
  obtain ⟨-, hfb, -, -, -, -, hsb⟩ := applySteering_consts (keyLeft keys) (keyRight keys) a
  generalize applySteering (keyLeft keys) (keyRight keys) a = b at *
  have hc := applyFriction_idle b
  generalize applyFriction false false b = c at *
  have hd := resolveMove_speed_toward m (tryRect t canvas c) c
  generalize (resolveMove m (tryRect t canvas c) c).speed = d at *
  rw [hsb, hfb, hfa] at hc
  constructor
  · intro h0
    obtain ⟨h1, h2⟩ := hcl.1 h0
    obtain ⟨h3, h4⟩ := hc.1 h1
    obtain ⟨h5, h6⟩ := hd.1 h3
    refine ⟨h5, ?_⟩
    rcases h4 with h4 | h4
    · left; linarith
    · right; linarith
  · intro h0
    obtain ⟨h1, h2⟩ := hcl.2 h0
    obtain ⟨h3, h4⟩ := hc.2 h2
    obtain ⟨h5, h6⟩ := hd.2 h3
    refine ⟨h6, ?_⟩
    rcases h4 with h4 | h4
    · left; linarith
    · right; linarith

/-- Any number of frames without throttle: the speed keeps its sign or is
zero, and it is zero or has lost the friction constant once per frame. -/
theorem runFrames_idle_speed (t : Trig) (canvas : Canvas) (m : CityMap)
    (frames : List (List String)) (p : Player) (hM : 0 ≤ p.maxSpeed) (hf : 0 ≤ p.friction)
    (hidle : ∀ keys ∈ frames, keyUp keys = false ∧ keyDown keys = false) :
    (0 ≤ p.speed → 0 ≤ (runFrames t canvas m frames p).speed ∧
      ((runFrames t canvas m frames p).speed = 0 ∨
        (runFrames t canvas m frames p).speed ≤ p.speed - frames.length * p.friction)) ∧
    (p.speed ≤ 0 → (runFrames t canvas m frames p).speed ≤ 0 ∧
      ((runFrames t canvas m frames p).speed = 0 ∨
        p.speed + frames.length * p.friction ≤ (runFrames t canvas m frames p).speed)) := by
  induction frames generalizing p with
  | nil =>
    rw [runFrames_nil]
    exact ⟨fun h => ⟨h, Or.inr (by simp)⟩, fun h => ⟨h, Or.inr (by simp)⟩⟩
  | cons keys rest ih =>
    rw [runFrames_cons]
    obtain ⟨hk1, hk2⟩ := hidle keys (List.mem_cons_self _ _)
    obtain ⟨h3, h4⟩ := updatePlayer_consts t canvas m keys p
    have hstep := updatePlayer_idle_speed t canvas m keys p hM hk1 hk2
    have hrest := ih (updatePlayer t canvas m keys p) (by rw [h3]; exact hM)
      (by rw [h4]; exact hf) (fun k hk => hidle k (List.mem_cons_of_mem _ hk))
    rw [h4] at hrest
    have hlen : ((keys :: rest).length : ℚ) = (rest.length : ℚ) + 1 := by
      simp
    have hn : (0 : ℚ) ≤ (rest.length : ℚ) := Nat.cast_nonneg _
    have hnf : 0 ≤ (rest.length : ℚ) * p.friction := mul_nonneg hn hf
    rw [hlen]
    generalize (runFrames t canvas m rest (updatePlayer t canvas m keys p)).speed = r at *
    generalize (updatePlayer t canvas m keys p).speed = u at *
    constructor
    · intro h0
      obtain ⟨hu0, hu⟩ := hstep.1 h0
      obtain ⟨hr0, hr⟩ := hrest.1 hu0
      refine ⟨hr0, ?_⟩
      rcases hr with hr | hr
      · exact Or.inl hr
      · rcases hu with hu | hu
        · left
          rw [hu] at hr
          linarith
        · right
          linarith
    · intro h0
      obtain ⟨hu0, hu⟩ := hstep.2 h0
      obtain ⟨hr0, hr⟩ := hrest.2 hu0
      refine ⟨hr0, ?_⟩
      rcases hr with hr | hr
      · exact Or.inl hr
      · rcases hu with hu | hu
        · left
          rw [hu] at hr
          linarith
        · right
          linarith

/-- Friction in exact arithmetic: for a vehicle with `maxSpeed` at least 0 and
a positive friction constant, a frame with neither accelerate nor brake
pressed yields a speed that is zero or has the sign it had, of magnitude at
most `max 0 (|speed| - friction)`; over any run of such frames the speed is
zero or keeps its sign, and once the run has at least
`ceil (|speed| / friction)` frames the speed is exactly 0, however long the
run goes on. -/
theorem friction_drives_speed_to_zero (t : Trig) (canvas : Canvas) (m : CityMap)
    (p : Player) (hM : 0 ≤ p.maxSpeed) (hf : 0 < p.friction) :
    (∀ keys, keyUp keys = false → keyDown keys = false →
      ((updatePlayer t canvas m keys p).speed = 0 ∨
        (0 < p.speed ∧ 0 < (updatePlayer t canvas m keys p).speed) ∨
        (p.speed < 0 ∧ (updatePlayer t canvas m keys p).speed < 0)) ∧
      |(updatePlayer t canvas m keys p).speed| ≤ max 0 (|p.speed| - p.friction)) ∧
    (∀ frames : List (List String),
      (∀ keys ∈ frames, keyUp keys = false ∧ keyDown keys = false) →
      ((runFrames t canvas m frames p).speed = 0 ∨
        (0 < p.speed ∧ 0 < (runFrames t canvas m frames p).speed) ∨
        (p.speed < 0 ∧ (runFrames t canvas m frames p).speed < 0)) ∧
      (⌈|p.speed| / p.friction⌉₊ ≤ frames.length →
        (runFrames t canvas m frames p).speed = 0)) := by
  constructor
  · intro keys hup hdown
    have h := updatePlayer_idle_speed t canvas m keys p hM hup hdown
    generalize (updatePlayer t canvas m keys p).speed = u at *
    rcases le_total 0 p.speed with h0 | h0
    · obtain ⟨hu0, hu⟩ := h.1 h0
      rw [abs_of_nonneg hu0, abs_of_nonneg h0]
      rcases hu with hu | hu
      · exact ⟨Or.inl hu, by rw [hu]; exact le_max_left _ _⟩
      · refine ⟨?_, le_max_of_le_right hu⟩
        rcases eq_or_lt_of_le hu0 with hz | hz
        · exact Or.inl hz.symm
        · exact Or.inr (Or.inl ⟨by linarith, hz⟩)
    · obtain ⟨hu0, hu⟩ := h.2 h0
      rw [abs_of_nonpos hu0, abs_of_nonpos h0]
      rcases hu with hu | hu
      · exact ⟨Or.inl hu, by rw [hu]; simp⟩
      · refine ⟨?_, le_max_of_le_right (by linarith)⟩
        rcases eq_or_lt_of_le hu0 with hz | hz
        · exact Or.inl hz
        · exact Or.inr (Or.inr ⟨by linarith, hz⟩)
  · intro frames hidle
    have h := runFrames_idle_speed t canvas m frames p hM hf.le hidle
    have hn : (0 : ℚ) ≤ (frames.length : ℚ) := Nat.cast_nonneg _
    have hnf : 0 ≤ (frames.length : ℚ) * p.friction := mul_nonneg hn hf.le
    generalize (runFrames t canvas m frames p).speed = r at *
    rcases le_total 0 p.speed with h0 | h0
    · obtain ⟨hr0, hr⟩ := h.1 h0
      constructor
      · rcases eq_or_lt_of_le hr0 with hz | hz
        · exact Or.inl hz.symm
        · refine Or.inr (Or.inl ⟨?_, hz⟩)
          rcases hr with hr | hr
          · exact absurd hr (ne_of_gt hz)
          · linarith
      · intro hceil
        have hle : |p.speed| / p.friction ≤ (frames.length : ℚ) := Nat.ceil_le.1 hceil
        rw [div_le_iff₀ hf, abs_of_nonneg h0] at hle
        rcases hr with hr | hr
        · exact hr
        · linarith
    · obtain ⟨hr0, hr⟩ := h.2 h0
      constructor
      · rcases eq_or_lt_of_le hr0 with hz | hz
        · exact Or.inl hz
        · refine Or.inr (Or.inr ⟨?_, hz⟩)
          rcases hr with hr | hr
          · exact absurd hr (ne_of_lt hz)
          · linarith
      · intro hceil
        have hle : |p.speed| / p.friction ≤ (frames.length : ℚ) := Nat.ceil_le.1 hceil
        rw [div_le_iff₀ hf, abs_of_nonpos h0] at hle
        rcases hr with hr | hr
        · exact hr
        · linarith

/-- Friction in exact arithmetic on a concrete vehicle: rolling at speed 0.1
with friction 0.04, three frames without throttle (one of them with the left
key held) bring the speed to exactly 0, and a fourth leaves it at 0. -/
theorem friction_drives_speed_to_zero_witness :
    (runFrames headingZero ⟨1000, 600⟩ (buildCityMap ⟨1000, 600⟩)
      [[], ["ArrowLeft"], []] coastingPlayer).speed = 0 ∧
    (runFrames headingZero ⟨1000, 600⟩ (buildCityMap ⟨1000, 600⟩)
      [[], ["ArrowLeft"], [], []] coastingPlayer).speed = 0 :=
  have hM : 0 ≤ coastingPlayer.maxSpeed := by norm_num [coastingPlayer, initPlayer]
  have hf : 0 < coastingPlayer.friction := by norm_num [coastingPlayer, initPlayer]
  have hc : |coastingPlayer.speed| / coastingPlayer.friction ≤ 3 := by
    norm_num [coastingPlayer, initPlayer, abs_of_pos]
  ⟨((friction_drives_speed_to_zero headingZero ⟨1000, 600⟩ (buildCityMap ⟨1000, 600⟩)
      coastingPlayer hM hf).2 [[], ["ArrowLeft"], []] (by decide)).2
      (Nat.ceil_le.2 (by simpa using hc)),
    ((friction_drives_speed_to_zero headingZero ⟨1000, 600⟩ (buildCityMap ⟨1000, 600⟩)
      coastingPlayer hM hf).2 [[], ["ArrowLeft"], [], []] (by decide)).2
      (Nat.ceil_le.2 (by simp only [List.length]; norm_num; linarith))⟩

/-! ### Rounding to doubles -/

theorem roundHalfEven_near (y : ℚ) : |(roundHalfEven y : ℚ) - y| ≤ 1 / 2 := by
  unfold roundHalfEven
  simp only []
  have h1 := Int.floor_le y
  have h2 := Int.lt_floor_add_one y
  split_ifs with a b c
  · rw [abs_le]; constructor <;> linarith
  · rw [abs_le]; push_cast; constructor <;> linarith
  · rw [abs_le]; constructor <;> linarith
  · rw [abs_le]; push_cast; constructor <;> linarith

theorem roundHalfEven_nonneg (y : ℚ) (h : 0 ≤ y) : 0 ≤ roundHalfEven y := by
  unfold roundHalfEven
  simp only []
  have h0 : 0 ≤ ⌊y⌋ := Int.floor_nonneg.2 h
  split_ifs <;> omega

theorem roundHalfEven_nonpos (y : ℚ) (h : y ≤ 0) : roundHalfEven y ≤ 0 := by
  unfold roundHalfEven
  simp only []
  have h0 : ⌊y⌋ ≤ 0 := by
    have := Int.floor_le y
    have h3 : ((⌊y⌋ : ℤ) : ℚ) ≤ 0 := le_trans this h
    exact_mod_cast h3
  have h1 := Int.floor_le y
  have h2 := Int.lt_floor_add_one y
  rcases eq_or_lt_of_le h0 with hz | hneg
  · have hy : y = 0 := by
      rw [hz] at h1
      push_cast at h1
      linarith
    subst hy
    norm_num
  · split_ifs <;> omega

theorem binadeDown_nonpos (k : ℕ) (y : ℚ) : binadeDown k y ≤ 0 := by
  induction k generalizing y with
  | zero => simp [binadeDown]
  | succ k ih =>
    unfold binadeDown
    split_ifs
    · exact le_refl 0
    · have := ih (y * 2)
      omega

theorem binade_le_one (x : ℚ) (h : |x| < 4) : binade x ≤ 1 := by
  unfold binade
  split_ifs with h1
  · show binadeUp (1099 + 1) |x| ≤ 1
    unfold binadeUp
    split_ifs with h2
    · norm_num
    · show binadeUp (1098 + 1) (|x| / 2) + 1 ≤ 1
      unfold binadeUp
      rw [if_pos (by linarith)]
      norm_num
  · have := binadeDown_nonpos 1100 |x|
    omega

theorem binadeUp_spec (k : ℕ) (y : ℚ) (h1 : 1 ≤ y) (h2 : y < 2 ^ (k + 1)) :
    (2 : ℚ) ^ binadeUp k y ≤ y ∧ y < 2 ^ (binadeUp k y + 1) := by
  induction k generalizing y with
  | zero =>
    simp only [binadeUp]
    norm_num at h2 ⊢
    exact ⟨h1, h2⟩
  | succ k ih =>
    unfold binadeUp
    split_ifs with h
    · norm_num
      exact ⟨h1, h⟩
    · have h3 : 1 ≤ y / 2 := by linarith [not_lt.1 h]
      have h4 : y / 2 < 2 ^ (k + 1) := by
        rw [pow_succ] at h2
        linarith
      obtain ⟨i1, i2⟩ := ih (y / 2) h3 h4
      have e1 : (2 : ℚ) ^ (binadeUp k (y / 2) + 1) = 2 ^ binadeUp k (y / 2) * 2 := by
        rw [zpow_add_one₀ (by norm_num)]
      have e2 : (2 : ℚ) ^ (binadeUp k (y / 2) + 1 + 1) = 2 ^ (binadeUp k (y / 2) + 1) * 2 := by
        rw [zpow_add_one₀ (by norm_num)]
      rw [e2, e1]
      rw [e1] at i2
      constructor <;> linarith

theorem binadeDown_spec (k : ℕ) (y : ℚ) (h0 : 0 < y) (h1 : y < 1) (h2 : 1 / 2 ^ k ≤ y) :
    (2 : ℚ) ^ binadeDown k y ≤ y ∧ y < 2 ^ (binadeDown k y + 1) := by
  induction k generalizing y with
  | zero =>
    norm_num at h2
    linarith
  | succ k ih =>
    unfold binadeDown
    rw [if_neg (not_le.2 h1)]
    have e1 : (2 : ℚ) ^ (binadeDown k (y * 2) - 1 + 1) = 2 ^ (binadeDown k (y * 2) - 1) * 2 := by
      rw [zpow_add_one₀ (by norm_num)]
    have e0 : (2 : ℚ) ^ (binadeDown k (y * 2)) = 2 ^ (binadeDown k (y * 2) - 1) * 2 := by
      rw [← zpow_add_one₀ (by norm_num)]
      congr 1
      ring
    by_cases h3 : y * 2 < 1
    · have h4 : 1 / 2 ^ k ≤ y * 2 := by
        rw [pow_succ] at h2
        have hk : (0 : ℚ) < 2 ^ k := by positivity
        have e : (1 : ℚ) / (2 ^ k * 2) * 2 = 1 / 2 ^ k := by
          field_simp
          ring
        linarith
      obtain ⟨i1, i2⟩ := ih (y * 2) (by linarith) h3 h4
      have e2 : (2 : ℚ) ^ (binadeDown k (y * 2) + 1) = 2 ^ binadeDown k (y * 2) * 2 := by
        rw [zpow_add_one₀ (by norm_num)]
      rw [e1]
      rw [e2, e0] at i2
      rw [e0] at i1
      constructor <;> linarith
    · have h5 : binadeDown k (y * 2) = 0 := by
        cases k with
        | zero => rfl
        | succ j =>
          unfold binadeDown
          rw [if_pos (not_lt.1 h3)]
      rw [h5]
      norm_num
      constructor <;> linarith [not_lt.1 h3]

/-- The exponent of `binade` is the binary order of magnitude. -/
theorem binade_spec (x : ℚ) (h1 : 1 / 2 ^ 1100 ≤ |x|) (h2 : |x| < 2 ^ (1100 + 1)) :
    (2 : ℚ) ^ binade x ≤ |x| ∧ |x| < 2 ^ (binade x + 1) := by
  unfold binade
  split_ifs with h
  · exact binadeUp_spec 1100 |x| h h2
  · have h0 : 0 < |x| := lt_of_lt_of_le (by positivity) h1
    exact binadeDown_spec 1100 |x| h0 (not_le.1 h) h1

theorem roundDouble_zero : roundDouble 0 = 0 := by
  simp [roundDouble]

theorem roundDouble_nonneg (x : ℚ) (h : 0 ≤ x) : 0 ≤ roundDouble x := by
  unfold roundDouble
  split_ifs with h0
  · exact le_refl 0
  · simp only []
    have hq : (0 : ℚ) < 2 ^ (max (binade x) (-1022) - 52) := zpow_pos (by norm_num) _
    have := roundHalfEven_nonneg (x / 2 ^ (max (binade x) (-1022) - 52)) (div_nonneg h hq.le)
    exact mul_nonneg (by exact_mod_cast this) hq.le

theorem roundDouble_nonpos (x : ℚ) (h : x ≤ 0) : roundDouble x ≤ 0 := by
  unfold roundDouble
  split_ifs with h0
  · exact le_refl 0
  · simp only []
    have hq : (0 : ℚ) < 2 ^ (max (binade x) (-1022) - 52) := zpow_pos (by norm_num) _
    have := roundHalfEven_nonpos (x / 2 ^ (max (binade x) (-1022) - 52))
      (div_nonpos_of_nonpos_of_nonneg h hq.le)
    exact mul_nonpos_of_nonpos_of_nonneg (by exact_mod_cast this) hq.le

theorem roundDouble_near (x : ℚ) (h : |x| < 4) : |roundDouble x - x| ≤ 1 / 2 ^ 52 := by
  unfold roundDouble
  split_ifs with h0
  · rw [h0]; norm_num
  · simp only []
    have he : max (binade x) (-1022) - 52 ≤ -51 := by
      have := binade_le_one x h
      omega
    generalize max (binade x) (-1022) - 52 = e at *
    have hq : (0 : ℚ) < 2 ^ e := zpow_pos (by norm_num) _
    have hq2 : (2 : ℚ) ^ e ≤ 2 ^ (-51 : ℤ) := zpow_le_zpow_right₀ (by norm_num) he
    have hnear := roundHalfEven_near (x / 2 ^ e)
    have hx : x = x / 2 ^ e * 2 ^ e := by field_simp
    have e1 : (roundHalfEven (x / 2 ^ e) : ℚ) * 2 ^ e - x =
        ((roundHalfEven (x / 2 ^ e) : ℚ) - x / 2 ^ e) * 2 ^ e := by
      field_simp
    rw [e1, abs_mul, abs_of_pos hq]
    have h51 : (2 : ℚ) ^ (-51 : ℤ) = 1 / 2 ^ 51 := by
      rw [zpow_neg]; norm_num
    calc |(roundHalfEven (x / 2 ^ e) : ℚ) - x / 2 ^ e| * 2 ^ e
        ≤ 1 / 2 * 2 ^ e := mul_le_mul_of_nonneg_right hnear hq.le
      _ ≤ 1 / 2 * 2 ^ (-51 : ℤ) := mul_le_mul_of_nonneg_left hq2 (by norm_num)
      _ = 1 / 2 ^ 52 := by rw [h51]; norm_num

/-- Known binary64 values: one tenth, and the constants of the vehicle. -/
theorem roundDouble_values :
    roundDouble (1 / 10) = 3602879701896397 / 2 ^ 55 ∧
    roundDouble 3.2 = 3602879701896397 / 2 ^ 50 ∧
    roundDouble 0.04 = 5764607523034235 / 2 ^ 57 ∧
    roundDouble 0.12 = 8646911284551352 / 2 ^ 56 ∧
    roundDouble 0.4 = 3602879701896397 / 2 ^ 53 ∧
    roundDouble 0.5 = 1 / 2 ∧
    roundDouble (-(roundDouble 3.2) * roundDouble 0.7) = -5044031582654955 / 2 ^ 51 := by
  refine ⟨by decide!, by decide!, by decide!, by decide!, by decide!, by decide!, by decide!⟩

/-! ### Friction in double arithmetic -/

theorem applyThrottleDouble_consts (up down : Bool) (p : Player) :
    (applyThrottleDouble up down p).maxSpeed = p.maxSpeed ∧
    (applyThrottleDouble up down p).friction = p.friction := by
  unfold applyThrottleDouble
  cases up <;> cases down <;> simp

theorem applySteeringDouble_consts (left right : Bool) (p : Player) :
    (applySteeringDouble left right p).maxSpeed = p.maxSpeed ∧
    (applySteeringDouble left right p).friction = p.friction ∧
    (applySteeringDouble left right p).speed = p.speed := by
  unfold applySteeringDouble
  simp only []
  split_ifs <;> simp

theorem applyFrictionDouble_consts (up down : Bool) (p : Player) :
    (applyFrictionDouble up down p).maxSpeed = p.maxSpeed ∧
    (applyFrictionDouble up down p).friction = p.friction := by
  unfold applyFrictionDouble
  simp only []
  split_ifs <;> simp

theorem resolveMoveDouble_consts (m : CityMap) (tr : Rect) (p : Player) :
    (resolveMoveDouble m tr p).maxSpeed = p.maxSpeed ∧
    (resolveMoveDouble m tr p).friction = p.friction := by
  unfold resolveMoveDouble
  simp only []
  split_ifs <;> simp

theorem updatePlayerDouble_eq (t : Trig) (canvas : Canvas) (m : CityMap)
    (keys : List String) (p : Player) :
    updatePlayerDouble t canvas m keys p =
      resolveMoveDouble m
        (tryRectDouble t canvas (applyFrictionDouble (keyUp keys) (keyDown keys)
          (applySteeringDouble (keyLeft keys) (keyRight keys)
            (applyThrottleDouble (keyUp keys) (keyDown keys) p))))
        (applyFrictionDouble (keyUp keys) (keyDown keys)
          (applySteeringDouble (keyLeft keys) (keyRight keys)
            (applyThrottleDouble (keyUp keys) (keyDown keys) p))) := rfl

theorem updatePlayerDouble_consts (t : Trig) (canvas : Canvas) (m : CityMap)
    (keys : List String) (p : Player) :
    (updatePlayerDouble t canvas m keys p).maxSpeed = p.maxSpeed ∧
    (updatePlayerDouble t canvas m keys p).friction = p.friction := by
  rw [updatePlayerDouble_eq]
  obtain ⟨h7, h8⟩ := applyThrottleDouble_consts (keyUp keys) (keyDown keys) p
  generalize applyThrottleDouble (keyUp keys) (keyDown keys) p = a at *
  obtain ⟨h5, h6, -⟩ := applySteeringDouble_consts (keyLeft keys) (keyRight keys) a
  generalize applySteeringDouble (keyLeft keys) (keyRight keys) a = b at *
  obtain ⟨h3, h4⟩ := applyFrictionDouble_consts (keyUp keys) (keyDown keys) b
  generalize applyFrictionDouble (keyUp keys) (keyDown keys) b = c at *
  obtain ⟨h1, h2⟩ := resolveMoveDouble_consts m (tryRectDouble t canvas c) c
  exact ⟨by rw [h1, h3, h5, h7], by rw [h2, h4, h6, h8]⟩

theorem clamp_between (v lo hi : ℚ) (hlo : lo ≤ 0) (hhi : 0 ≤ hi) :
    (0 ≤ v → 0 ≤ clamp v lo hi ∧ clamp v lo hi ≤ v ∧ clamp v lo hi ≤ hi) ∧
    (v ≤ 0 → v ≤ clamp v lo hi ∧ clamp v lo hi ≤ 0 ∧ lo ≤ clamp v lo hi) := by
  unfold clamp
  constructor
  · intro hv
    refine ⟨le_max_of_le_right (le_min hhi hv), max_le (by linarith) (min_le_right _ _),
      max_le (by linarith) (min_le_left _ _)⟩
  · intro hv
    refine ⟨?_, max_le hlo (le_trans (min_le_right _ _) hv), le_max_left _ _⟩
    rw [min_eq_right (by linarith)]
    exact le_max_right _ _

theorem applyFrictionDouble_idle (p : Player) (hs : |p.speed| < 4)
    (hf0 : 0 ≤ p.friction) (hf1 : p.friction ≤ 1) :
    (0 ≤ p.speed → 0 ≤ (applyFrictionDouble false false p).speed ∧
      ((applyFrictionDouble false false p).speed = 0 ∨
        (applyFrictionDouble false false p).speed ≤ p.speed - p.friction + 1 / 2 ^ 52)) ∧
    (p.speed ≤ 0 → (applyFrictionDouble false false p).speed ≤ 0 ∧
      ((applyFrictionDouble false false p).speed = 0 ∨
        p.speed + p.friction - 1 / 2 ^ 52 ≤ (applyFrictionDouble false false p).speed)) := by
  obtain ⟨hs1, hs2⟩ := abs_lt.1 hs
  unfold applyFrictionDouble
  simp only [Bool.not_false, Bool.and_self, if_true]
  by_cases h1 : p.speed > 0
  · rw [if_pos h1]
    have h2 : ¬ (max 0 (roundDouble (p.speed - p.friction)) < 0) := not_lt.2 (le_max_left _ _)
    simp only [h2, if_false]
    refine ⟨fun _ => ⟨le_max_left _ _, ?_⟩, fun h => absurd h1 (not_lt.2 h)⟩
    have hz : |p.speed - p.friction| < 4 := by
      rw [abs_lt]; constructor <;> linarith
    have hnear := abs_le.1 (roundDouble_near _ hz)
    rcases le_total 0 (roundDouble (p.speed - p.friction)) with h | h
    · right
      rw [max_eq_right h]
      linarith [hnear.2]
    · left
      rw [max_eq_left h]
  · rw [if_neg h1]
    by_cases h3 : p.speed < 0
    · rw [if_pos h3]
      refine ⟨fun h => absurd h3 (not_lt.2 h), fun _ => ⟨min_le_left _ _, ?_⟩⟩
      have hz : |p.speed + p.friction| < 4 := by
        rw [abs_lt]; constructor <;> linarith
      have hnear := abs_le.1 (roundDouble_near _ hz)
      rcases le_total 0 (roundDouble (p.speed + p.friction)) with h | h
      · left
        exact min_eq_left h
      · right
        rw [min_eq_right h]
        linarith [hnear.1]
    · rw [if_neg h3]
      have h0 : p.speed = 0 := le_antisymm (not_lt.1 h1) (not_lt.1 h3)
      exact ⟨fun _ => ⟨h0.ge, Or.inl h0⟩, fun _ => ⟨h0.le, Or.inl h0⟩⟩

theorem dampen_double (s c : ℚ) (hc0 : 0 ≤ c) (hc1 : c ≤ 1) (hs : |s| < 4) :
    (0 ≤ s → 0 ≤ roundDouble (s * c) ∧ roundDouble (s * c) ≤ s + 1 / 2 ^ 52) ∧
    (s ≤ 0 → roundDouble (s * c) ≤ 0 ∧ s - 1 / 2 ^ 52 ≤ roundDouble (s * c)) ∧
    (s = 0 → roundDouble (s * c) = 0) := by
  obtain ⟨hs1, hs2⟩ := abs_lt.1 hs
  refine ⟨fun h => ?_, fun h => ?_, fun h => by rw [h, zero_mul, roundDouble_zero]⟩
  · have h1 : 0 ≤ s * c := mul_nonneg h hc0
    have h2 : s * c ≤ s := by nlinarith
    have hz : |s * c| < 4 := by
      rw [abs_lt]; constructor <;> linarith
    have hnear := abs_le.1 (roundDouble_near _ hz)
    exact ⟨roundDouble_nonneg _ h1, by linarith [hnear.2]⟩
  · have h1 : s * c ≤ 0 := mul_nonpos_of_nonpos_of_nonneg h hc0
    have h2 : s ≤ s * c := by nlinarith
    have hz : |s * c| < 4 := by
      rw [abs_lt]; constructor <;> linarith
    have hnear := abs_le.1 (roundDouble_near _ hz)
    exact ⟨roundDouble_nonpos _ h1, by linarith [hnear.1]⟩

theorem resolveMoveDouble_speed (m : CityMap) (tr : Rect) (p : Player) :
    (resolveMoveDouble m tr p).speed = p.speed ∨
      (resolveMoveDouble m tr p).speed = roundDouble (p.speed * roundDouble 0.4) ∨
      (resolveMoveDouble m tr p).speed = roundDouble (p.speed * roundDouble 0.5) := by
  unfold resolveMoveDouble
  simp only []
  split_ifs <;> simp

theorem resolveMoveDouble_speed_toward (m : CityMap) (tr : Rect) (p : Player)
    (hs : |p.speed| < 4) :
    (0 ≤ p.speed → 0 ≤ (resolveMoveDouble m tr p).speed ∧
      (resolveMoveDouble m tr p).speed ≤ p.speed + 1 / 2 ^ 52) ∧
    (p.speed ≤ 0 → (resolveMoveDouble m tr p).speed ≤ 0 ∧
      p.speed - 1 / 2 ^ 52 ≤ (resolveMoveDouble m tr p).speed) ∧
    (p.speed = 0 → (resolveMoveDouble m tr p).speed = 0) := by
  have h4 := dampen_double p.speed (roundDouble 0.4)
    (by rw [roundDouble_values.2.2.2.2.1]; norm_num)
    (by rw [roundDouble_values.2.2.2.2.1]; norm_num) hs
  have h5 := dampen_double p.speed (roundDouble 0.5)
    (by rw [roundDouble_values.2.2.2.2.2.1]; norm_num)
    (by rw [roundDouble_values.2.2.2.2.2.1]; norm_num) hs
  rcases resolveMoveDouble_speed m tr p with h | h | h <;> rw [h]
  · exact ⟨fun h0 => ⟨h0, by linarith⟩, fun h0 => ⟨h0, by linarith⟩, fun h0 => h0⟩
  · exact h4
  · exact h5

/-- One frame without throttle in double arithmetic, for the constants of
`initPlayer`: the speed keeps its sign or becomes zero, and it is zero or has
lost the friction constant up to two roundings of at most `2 ^ (-52)` each. -/
theorem updatePlayerDouble_idle_speed (t : Trig) (canvas : Canvas) (m : CityMap)
    (keys : List String) (p : Player)
    (hM : p.maxSpeed = roundDouble 3.2) (hF : p.friction = roundDouble 0.04)
    (hup : keyUp keys = false) (hdown : keyDown keys = false) :
    (0 ≤ p.speed → 0 ≤ (updatePlayerDouble t canvas m keys p).speed ∧
      ((updatePlayerDouble t canvas m keys p).speed = 0 ∨
        (updatePlayerDouble t canvas m keys p).speed ≤
          min p.speed 4 - (p.friction - 1 / 2 ^ 51))) ∧
    (p.speed ≤ 0 → (updatePlayerDouble t canvas m keys p).speed ≤ 0 ∧
      ((updatePlayerDouble t canvas m keys p).speed = 0 ∨
        max p.speed (-4) + (p.friction - 1 / 2 ^ 51) ≤
          (updatePlayerDouble t canvas m keys p).speed)) := by
  rw [updatePlayerDouble_eq, hup, hdown]
  have hMv : p.maxSpeed = 3602879701896397 / 2 ^ 50 := by
    rw [hM, roundDouble_values.2.1]
  have hFv : p.friction = 5764607523034235 / 2 ^ 57 := by
    rw [hF, roundDouble_values.2.2.1]
  have hL : roundDouble (-p.maxSpeed * roundDouble 0.7) = -5044031582654955 / 2 ^ 51 := by
    rw [hM, roundDouble_values.2.2.2.2.2.2]
  have ha : (applyThrottleDouble false false p).speed =
      clamp p.speed (roundDouble (-p.maxSpeed * roundDouble 0.7)) p.maxSpeed := rfl
  have hcl := clamp_between p.speed (roundDouble (-p.maxSpeed * roundDouble 0.7)) p.maxSpeed
    (by rw [hL]; norm_num) (by rw [hMv]; norm_num)
  rw [← ha, hL, hMv] at hcl
  obtain ⟨-, hfa⟩ := applyThrottleDouble_consts false false p
  generalize applyThrottleDouble false false p = a at *
  obtain ⟨-, hfb, hsb⟩ := applySteeringDouble_consts (keyLeft keys) (keyRight keys) a
  generalize applySteeringDouble (keyLeft keys) (keyRight keys) a = b at *
  have hfbv : b.friction = 5764607523034235 / 2 ^ 57 := by rw [hfb, hfa, hFv]
  have hc := fun hs => applyFrictionDouble_idle b hs (by rw [hfbv]; norm_num)
    (by rw [hfbv]; norm_num)
  generalize applyFrictionDouble false false b = c at *
  have hd := resolveMoveDouble_speed_toward m (tryRectDouble t canvas c) c
  generalize (resolveMoveDouble m (tryRectDouble t canvas c) c).speed = d at *
  rw [hsb, hfbv] at hc
  rw [hFv]
  constructor
  · intro h0
    obtain ⟨h1, h2, h2m⟩ := hcl.1 h0
    have has : |a.speed| < 4 := by
      rw [abs_lt]; constructor <;> [linarith; (norm_num at h2m; linarith)]
    obtain ⟨h3, h4⟩ := (hc has).1 h1
    have hcs : |c.speed| < 4 := by
      rw [abs_lt]
      constructor
      · linarith
      · rcases h4 with h4 | h4
        · rw [h4]; norm_num
        · norm_num at h2m h4 ⊢; linarith
    obtain ⟨h5, h6⟩ := (hd hcs).1 h3
    refine ⟨h5, ?_⟩
    rcases h4 with h4 | h4
    · left
      exact (hd hcs).2.2 h4
    · right
      have hmin : a.speed ≤ min p.speed 4 := le_min h2 (by norm_num at h2m; linarith)
      generalize min p.speed 4 = mn at hmin ⊢
      norm_num at h4 h6 ⊢
      linarith
  · intro h0
    obtain ⟨h1, h2, h2m⟩ := hcl.2 h0
    have has : |a.speed| < 4 := by
      rw [abs_lt]; constructor <;> [(norm_num at h2m; linarith); linarith]
    obtain ⟨h3, h4⟩ := (hc has).2 h2
    have hcs : |c.speed| < 4 := by
      rw [abs_lt]
      constructor
      · rcases h4 with h4 | h4
        · rw [h4]; norm_num
        · norm_num at h2m h4 ⊢; linarith
      · linarith
    obtain ⟨h5, h6⟩ := (hd hcs).2.1 h3
    refine ⟨h5, ?_⟩
    rcases h4 with h4 | h4
    · left
      exact (hd hcs).2.2 h4
    · right
      have hmax : max p.speed (-4) ≤ a.speed := max_le h1 (by norm_num at h2m; linarith)
      generalize max p.speed (-4) = mx at hmax ⊢
      norm_num at h4 h6 ⊢
      linarith

theorem runFramesDouble_cons (t : Trig) (canvas : Canvas) (m : CityMap)
    (keys : List String) (frames : List (List String)) (p : Player) :
    runFramesDouble t canvas m (keys :: frames) p =
      runFramesDouble t canvas m frames (updatePlayerDouble t canvas m keys p) := rfl

/-- Any number of frames without throttle in double arithmetic. -/
theorem runFramesDouble_idle_speed (t : Trig) (canvas : Canvas) (m : CityMap)
    (frames : List (List String)) (p : Player)
    (hM : p.maxSpeed = roundDouble 3.2) (hF : p.friction = roundDouble 0.04)
    (hidle : ∀ keys ∈ frames, keyUp keys = false ∧ keyDown keys = false) :
    (0 ≤ p.speed → 0 ≤ (runFramesDouble t canvas m frames p).speed ∧
      ((runFramesDouble t canvas m frames p).speed = 0 ∨
        (runFramesDouble t canvas m frames p).speed ≤
          p.speed - frames.length * (p.friction - 1 / 2 ^ 51))) ∧
    (p.speed ≤ 0 → (runFramesDouble t canvas m frames p).speed ≤ 0 ∧
      ((runFramesDouble t canvas m frames p).speed = 0 ∨
        p.speed + frames.length * (p.friction - 1 / 2 ^ 51) ≤
          (runFramesDouble t canvas m frames p).speed)) := by
  induction frames generalizing p with
  | nil =>
    exact ⟨fun h => ⟨h, Or.inr (by simp [runFramesDouble])⟩,
      fun h => ⟨h, Or.inr (by simp [runFramesDouble])⟩⟩
  | cons keys rest ih =>
    rw [runFramesDouble_cons]
    obtain ⟨hk1, hk2⟩ := hidle keys (List.mem_cons_self _ _)
    obtain ⟨h3, h4⟩ := updatePlayerDouble_consts t canvas m keys p
    have hstep := updatePlayerDouble_idle_speed t canvas m keys p hM hF hk1 hk2
    have hrest := ih (updatePlayerDouble t canvas m keys p) (by rw [h3]; exact hM)
      (by rw [h4]; exact hF) (fun k hk => hidle k (List.mem_cons_of_mem _ hk))
    rw [h4] at hrest
    have hFv : p.friction = 5764607523034235 / 2 ^ 57 := by
      rw [hF, roundDouble_values.2.2.1]
    have hG : 0 ≤ p.friction - 1 / 2 ^ 51 := by rw [hFv]; norm_num
    have hlen : ((keys :: rest).length : ℚ) = (rest.length : ℚ) + 1 := by
      simp
    have hn : (0 : ℚ) ≤ (rest.length : ℚ) := Nat.cast_nonneg _
    rw [hlen]
    generalize p.friction - 1 / 2 ^ 51 = g at *
    have hng : 0 ≤ (rest.length : ℚ) * g := mul_nonneg hn hG
    have hmin : min p.speed 4 ≤ p.speed := min_le_left _ _
    have hmax : p.speed ≤ max p.speed (-4) := le_max_left _ _
    generalize min p.speed 4 = mn at *
    generalize max p.speed (-4) = mx at *
    generalize (runFramesDouble t canvas m rest (updatePlayerDouble t canvas m keys p)).speed
      = r at *
    generalize (updatePlayerDouble t canvas m keys p).speed = u at *
    constructor
    · intro h0
      obtain ⟨hu0, hu⟩ := hstep.1 h0
      obtain ⟨hr0, hr⟩ := hrest.1 hu0
      refine ⟨hr0, ?_⟩
      rcases hr with hr | hr
      · exact Or.inl hr
      · rcases hu with hu | hu
        · left
          rw [hu] at hr
          linarith
        · right
          linarith
    · intro h0
      obtain ⟨hu0, hu⟩ := hstep.2 h0
      obtain ⟨hr0, hr⟩ := hrest.2 hu0
      refine ⟨hr0, ?_⟩
      rcases hr with hr | hr
      · exact Or.inl hr
      · rcases hu with hu | hu
        · left
          rw [hu] at hr
          linarith
        · right
          linarith

theorem applyFrictionDouble_pressed (up down : Bool) (p : Player)
    (h : (up || down) = true) : applyFrictionDouble up down p = p := by
  unfold applyFrictionDouble
  cases up <;> cases down <;> simp at h ⊢

theorem dampen_double_half (s c : ℚ) (hc0 : 0 ≤ c) (hc1 : c ≤ 1 / 2) (hs : |s| < 4) :
    (0 ≤ s → 0 ≤ roundDouble (s * c) ∧ roundDouble (s * c) ≤ max s (1 / 2 ^ 51)) ∧
    (s ≤ 0 → roundDouble (s * c) ≤ 0 ∧ min s (-(1 / 2 ^ 51)) ≤ roundDouble (s * c)) := by
  obtain ⟨hs1, hs2⟩ := abs_lt.1 hs
  constructor
  · intro h
    have h1 : 0 ≤ s * c := mul_nonneg h hc0
    have h2 : s * c ≤ s / 2 := by nlinarith
    have hz : |s * c| < 4 := by
      rw [abs_lt]; constructor <;> linarith
    have hnear := abs_le.1 (roundDouble_near _ hz)
    refine ⟨roundDouble_nonneg _ h1, ?_⟩
    rcases le_total (1 / 2 ^ 51) s with h3 | h3
    · refine le_max_of_le_left ?_
      norm_num at h3 hnear ⊢
      linarith [hnear.2]
    · refine le_max_of_le_right ?_
      norm_num at h3 hnear ⊢
      linarith [hnear.2]
  · intro h
    have h1 : s * c ≤ 0 := mul_nonpos_of_nonpos_of_nonneg h hc0
    have h2 : s / 2 ≤ s * c := by nlinarith
    have hz : |s * c| < 4 := by
      rw [abs_lt]; constructor <;> linarith
    have hnear := abs_le.1 (roundDouble_near _ hz)
    refine ⟨roundDouble_nonpos _ h1, ?_⟩
    rcases le_total s (-(1 / 2 ^ 51)) with h3 | h3
    · refine min_le_of_left_le ?_
      norm_num at h3 hnear ⊢
      linarith [hnear.1]
    · refine min_le_of_right_le ?_
      norm_num at h3 hnear ⊢
      linarith [hnear.1]

/-- One frame in double arithmetic, for the constants of `initPlayer`, puts
the speed between the two clamp bounds that the code computes. -/
theorem updatePlayerDouble_speed_range (t : Trig) (canvas : Canvas) (m : CityMap)
    (keys : List String) (p : Player)
    (hM : p.maxSpeed = roundDouble 3.2) (hF : p.friction = roundDouble 0.04) :
    roundDouble (-p.maxSpeed * roundDouble 0.7) ≤ (updatePlayerDouble t canvas m keys p).speed ∧
    (updatePlayerDouble t canvas m keys p).speed ≤ p.maxSpeed := by
  rw [updatePlayerDouble_eq]
  have hMv : p.maxSpeed = 3602879701896397 / 2 ^ 50 := by
    rw [hM, roundDouble_values.2.1]
  have hFv : p.friction = 5764607523034235 / 2 ^ 57 := by
    rw [hF, roundDouble_values.2.2.1]
  have hL : roundDouble (-p.maxSpeed * roundDouble 0.7) = -5044031582654955 / 2 ^ 51 := by
    rw [hM, roundDouble_values.2.2.2.2.2.2]
  have ha1 : roundDouble (-p.maxSpeed * roundDouble 0.7) ≤
      (applyThrottleDouble (keyUp keys) (keyDown keys) p).speed := by
    unfold applyThrottleDouble
    cases keyUp keys <;> cases keyDown keys <;> exact clamp_ge _ _ _
  have ha2 : (applyThrottleDouble (keyUp keys) (keyDown keys) p).speed ≤ p.maxSpeed := by
    have hlo : roundDouble (-p.maxSpeed * roundDouble 0.7) ≤ p.maxSpeed := by
      rw [hL, hMv]; norm_num
    unfold applyThrottleDouble
    cases keyUp keys <;> cases keyDown keys <;> exact clamp_le _ _ _ hlo
  obtain ⟨-, hfa⟩ := applyThrottleDouble_consts (keyUp keys) (keyDown keys) p
  generalize applyThrottleDouble (keyUp keys) (keyDown keys) p = a at *
  obtain ⟨-, hfb, hsb⟩ := applySteeringDouble_consts (keyLeft keys) (keyRight keys) a
  generalize applySteeringDouble (keyLeft keys) (keyRight keys) a = b at *
  have hfbv : b.friction = 5764607523034235 / 2 ^ 57 := by rw [hfb, hfa, hFv]
  rw [hL] at ha1 ⊢
  rw [hMv] at ha2 ⊢
  rw [← hsb] at ha1 ha2
  have hbs : |b.speed| < 4 := by
    rw [abs_lt]; constructor <;> [(norm_num at ha1; linarith); (norm_num at ha2; linarith)]
  have hc : -5044031582654955 / 2 ^ 51 ≤
        (applyFrictionDouble (keyUp keys) (keyDown keys) b).speed ∧
      (applyFrictionDouble (keyUp keys) (keyDown keys) b).speed ≤
        3602879701896397 / 2 ^ 50 := by
    by_cases hpress : (keyUp keys || keyDown keys) = true
    · rw [applyFrictionDouble_pressed _ _ _ hpress]
      exact ⟨ha1, ha2⟩
    · have hu : keyUp keys = false := by
        cases h : keyUp keys <;> simp [h] at hpress ⊢
      have hd : keyDown keys = false := by
        cases h : keyDown keys <;> simp [h] at hpress ⊢
      rw [hu, hd]
      have hidle := applyFrictionDouble_idle b hbs (by rw [hfbv]; norm_num)
        (by rw [hfbv]; norm_num)
      rw [hfbv] at hidle
      generalize (applyFrictionDouble false false b).speed = c at *
      rcases le_total 0 b.speed with h0 | h0
      · obtain ⟨h1, h2⟩ := hidle.1 h0
        constructor
        · norm_num; linarith
        · rcases h2 with h2 | h2
          · rw [h2]; norm_num
          · norm_num at h2 ha2 ⊢; linarith
      · obtain ⟨h1, h2⟩ := hidle.2 h0
        constructor
        · rcases h2 with h2 | h2
          · rw [h2]; norm_num
          · norm_num at h2 ha1 ⊢; linarith
        · norm_num; linarith
  generalize applyFrictionDouble (keyUp keys) (keyDown keys) b = c at *
  have hcs : |c.speed| < 4 := by
    rw [abs_lt]; constructor <;> [(norm_num at hc; linarith); (norm_num at hc; linarith)]
  have h4 := dampen_double_half c.speed (roundDouble 0.4)
    (by rw [roundDouble_values.2.2.2.2.1]; norm_num)
    (by rw [roundDouble_values.2.2.2.2.1]; norm_num) hcs
  have h5 := dampen_double_half c.speed (roundDouble 0.5)
    (by rw [roundDouble_values.2.2.2.2.2.1]; norm_num)
    (by rw [roundDouble_values.2.2.2.2.2.1]) hcs
  have hdamp : ∀ d : ℚ,
      (0 ≤ c.speed → 0 ≤ d ∧ d ≤ max c.speed (1 / 2 ^ 51)) →
      (c.speed ≤ 0 → d ≤ 0 ∧ min c.speed (-(1 / 2 ^ 51)) ≤ d) →
      -5044031582654955 / 2 ^ 51 ≤ d ∧ d ≤ 3602879701896397 / 2 ^ 50 := by
    intro d hp hn
    rcases le_total 0 c.speed with h0 | h0
    · obtain ⟨h1, h2⟩ := hp h0
      have h3 : max c.speed (1 / 2 ^ 51) ≤ 3602879701896397 / 2 ^ 50 :=
        max_le hc.2 (by norm_num)
      constructor
      · norm_num; linarith
      · linarith
    · obtain ⟨h1, h2⟩ := hn h0
      have h3 : -5044031582654955 / 2 ^ 51 ≤ min c.speed (-(1 / 2 ^ 51)) :=
        le_min hc.1 (by norm_num)
      constructor
      · linarith
      · norm_num; linarith
  rcases resolveMoveDouble_speed m (tryRectDouble t canvas c) c with h | h | h <;> rw [h]
  · exact hc
  · exact hdamp _ h4.1 h4.2
  · exact hdamp _ h5.1 h5.2

theorem runFramesDouble_speed_range (t : Trig) (canvas : Canvas) (m : CityMap)
    (frames : List (List String)) (p : Player)
    (hM : p.maxSpeed = roundDouble 3.2) (hF : p.friction = roundDouble 0.04)
    (h0 : roundDouble (-p.maxSpeed * roundDouble 0.7) ≤ p.speed ∧ p.speed ≤ p.maxSpeed) :
    (runFramesDouble t canvas m frames p).maxSpeed = p.maxSpeed ∧
    roundDouble (-p.maxSpeed * roundDouble 0.7) ≤ (runFramesDouble t canvas m frames p).speed ∧
    (runFramesDouble t canvas m frames p).speed ≤ p.maxSpeed := by
  induction frames generalizing p with
  | nil => exact ⟨rfl, h0⟩
  | cons keys rest ih =>
    rw [runFramesDouble_cons]
    obtain ⟨h3, h4⟩ := updatePlayerDouble_consts t canvas m keys p
    have h5 := updatePlayerDouble_speed_range t canvas m keys p hM hF
    have := ih (updatePlayerDouble t canvas m keys p) (by rw [h3]; exact hM)
      (by rw [h4]; exact hF) (by rw [h3]; exact h5)
    rw [h3] at this
    exact this

/-- C5: from the vehicle of `initPlayer`, after any finite sequence of
`updatePlayer` frames, with any pressed keys, on any map and canvas and for
any cosine and sine, the speed lies in `[-0.7 * maxSpeed, maxSpeed]`. This
holds in exact arithmetic, where `maxSpeed` stays 3.2 and the interval is
`[-2.24, 3.2]`, and in the double arithmetic of the code, where the lower
clamp bound is the double that `-p.maxSpeed * 0.7` evaluates to, which is not
below `-0.7 * maxSpeed`. -/
theorem speed_within_clamp_interval (t : Trig) (canvas : Canvas) (m : CityMap)
    (frames : List (List String)) :
    ((runFrames t canvas m frames initPlayer).maxSpeed = 3.2 ∧
      -0.7 * (runFrames t canvas m frames initPlayer).maxSpeed ≤
        (runFrames t canvas m frames initPlayer).speed ∧
      (runFrames t canvas m frames initPlayer).speed ≤
        (runFrames t canvas m frames initPlayer).maxSpeed) ∧
    ((runFramesDouble t canvas m frames initPlayerDouble).maxSpeed = roundDouble 3.2 ∧
      roundDouble (-(runFramesDouble t canvas m frames initPlayerDouble).maxSpeed *
          roundDouble 0.7) ≤ (runFramesDouble t canvas m frames initPlayerDouble).speed ∧
      -0.7 * (runFramesDouble t canvas m frames initPlayerDouble).maxSpeed ≤
        (runFramesDouble t canvas m frames initPlayerDouble).speed ∧
      (runFramesDouble t canvas m frames initPlayerDouble).speed ≤
        (runFramesDouble t canvas m frames initPlayerDouble).maxSpeed) := by
  constructor
  · have h := speed_range_exact t canvas m frames
    exact ⟨h.1, h.2.1, h.2.2.1⟩
  · have hM : initPlayerDouble.maxSpeed = roundDouble 3.2 := rfl
    have hF : initPlayerDouble.friction = roundDouble 0.04 := rfl
    have hL : roundDouble (-initPlayerDouble.maxSpeed * roundDouble 0.7) =
        -5044031582654955 / 2 ^ 51 := by
      rw [hM, roundDouble_values.2.2.2.2.2.2]
    have hMv : initPlayerDouble.maxSpeed = 3602879701896397 / 2 ^ 50 := by
      rw [hM, roundDouble_values.2.1]
    have hs : initPlayerDouble.speed = 0 := rfl
    obtain ⟨h1, h2, h3⟩ := runFramesDouble_speed_range t canvas m frames initPlayerDouble
      hM hF (by rw [hL, hMv, hs]; norm_num)
    rw [h1]
    refine ⟨hM, h2, ?_, h3⟩
    rw [hL] at h2
    rw [hMv]
    norm_num at h2 ⊢
    linarith

/-- C6 as the code computes it, in double arithmetic and for the constants
of `initPlayer` (`maxSpeed` 3.2, `friction` 0.04): a frame with neither
accelerate nor brake pressed yields a speed that is zero or has the sign it
had, of magnitude at most `max 0 (|speed| - friction + 2 ^ (-51))`; over any
run of such frames the speed is zero or keeps its sign, and once the run has
at least `ceil (|speed| / friction) + 1` frames the speed is exactly 0,
however long the run goes on. -/
theorem friction_reaches_zero_in_doubles (t : Trig) (canvas : Canvas) (m : CityMap)
    (p : Player) (hM : p.maxSpeed = roundDouble 3.2) (hF : p.friction = roundDouble 0.04) :
    (∀ keys, keyUp keys = false → keyDown keys = false →
      ((updatePlayerDouble t canvas m keys p).speed = 0 ∨
        (0 < p.speed ∧ 0 < (updatePlayerDouble t canvas m keys p).speed) ∨
        (p.speed < 0 ∧ (updatePlayerDouble t canvas m keys p).speed < 0)) ∧
      |(updatePlayerDouble t canvas m keys p).speed| ≤
        max 0 (|p.speed| - p.friction + 1 / 2 ^ 51)) ∧
    (∀ frames : List (List String),
      (∀ keys ∈ frames, keyUp keys = false ∧ keyDown keys = false) →
      ((runFramesDouble t canvas m frames p).speed = 0 ∨
        (0 < p.speed ∧ 0 < (runFramesDouble t canvas m frames p).speed) ∨
        (p.speed < 0 ∧ (runFramesDouble t canvas m frames p).speed < 0)) ∧
      (⌈|p.speed| / p.friction⌉₊ + 1 ≤ frames.length →
        (runFramesDouble t canvas m frames p).speed = 0)) := by
  have hFv : p.friction = 5764607523034235 / 2 ^ 57 := by
    rw [hF, roundDouble_values.2.2.1]
  have hFpos : 0 < p.friction := by rw [hFv]; norm_num
  have hG : 0 < p.friction - 1 / 2 ^ 51 := by rw [hFv]; norm_num
  constructor
  · intro keys hup hdown
    have h := updatePlayerDouble_idle_speed t canvas m keys p hM hF hup hdown
    have hmin : min p.speed 4 ≤ p.speed := min_le_left _ _
    have hmax : p.speed ≤ max p.speed (-4) := le_max_left _ _
    generalize min p.speed 4 = mn at *
    generalize max p.speed (-4) = mx at *
    generalize (updatePlayerDouble t canvas m keys p).speed = u at *
    rcases le_total 0 p.speed with h0 | h0
    · obtain ⟨hu0, hu⟩ := h.1 h0
      rw [abs_of_nonneg hu0, abs_of_nonneg h0]
      rcases hu with hu | hu
      · exact ⟨Or.inl hu, by rw [hu]; exact le_max_left _ _⟩
      · refine ⟨?_, le_max_of_le_right (by linarith)⟩
        rcases eq_or_lt_of_le hu0 with hz | hz
        · exact Or.inl hz.symm
        · exact Or.inr (Or.inl ⟨by linarith, hz⟩)
    · obtain ⟨hu0, hu⟩ := h.2 h0
      rw [abs_of_nonpos hu0, abs_of_nonpos h0]
      rcases hu with hu | hu
      · exact ⟨Or.inl hu, by rw [hu]; simp⟩
      · refine ⟨?_, le_max_of_le_right (by linarith)⟩
        rcases eq_or_lt_of_le hu0 with hz | hz
        · exact Or.inl hz
        · exact Or.inr (Or.inr ⟨by linarith, hz⟩)
  · intro frames hidle
    constructor
    · have h := runFramesDouble_idle_speed t canvas m frames p hM hF hidle
      have hn : (0 : ℚ) ≤ (frames.length : ℚ) := Nat.cast_nonneg _
      have hng : 0 ≤ (frames.length : ℚ) * (p.friction - 1 / 2 ^ 51) := mul_nonneg hn hG.le
      generalize (runFramesDouble t canvas m frames p).speed = r at *
      rcases le_total 0 p.speed with h0 | h0
      · obtain ⟨hr0, hr⟩ := h.1 h0
        rcases eq_or_lt_of_le hr0 with hz | hz
        · exact Or.inl hz.symm
        · refine Or.inr (Or.inl ⟨?_, hz⟩)
          rcases hr with hr | hr
          · exact absurd hr (ne_of_gt hz)
          · linarith
      · obtain ⟨hr0, hr⟩ := h.2 h0
        rcases eq_or_lt_of_le hr0 with hz | hz
        · exact Or.inl hz
        · refine Or.inr (Or.inr ⟨?_, hz⟩)
          rcases hr with hr | hr
          · exact absurd hr (ne_of_lt hz)
          · linarith
    · intro hceil
      cases frames with
      | nil => simp at hceil
      | cons keys rest =>
        rw [runFramesDouble_cons]
        obtain ⟨hk1, hk2⟩ := hidle keys (List.mem_cons_self _ _)
        obtain ⟨h3, h4⟩ := updatePlayerDouble_consts t canvas m keys p
        have hstep := updatePlayerDouble_idle_speed t canvas m keys p hM hF hk1 hk2
        have hrest := runFramesDouble_idle_speed t canvas m rest
          (updatePlayerDouble t canvas m keys p) (by rw [h3]; exact hM)
          (by rw [h4]; exact hF) (fun k hk => hidle k (List.mem_cons_of_mem _ hk))
        rw [h4] at hrest
        have hk : ⌈|p.speed| / p.friction⌉₊ ≤ rest.length := by
          simp only [List.length_cons] at hceil
          omega
        have hle : |p.speed| / p.friction ≤ (rest.length : ℚ) := Nat.ceil_le.1 hk
        rw [div_le_iff₀ hFpos] at hle
        have hn : (0 : ℚ) ≤ (rest.length : ℚ) := Nat.cast_nonneg _
        have hmin4 : min p.speed 4 ≤ 4 := min_le_right _ _
        have hmin : min p.speed 4 ≤ p.speed := min_le_left _ _
        have hmax4 : -4 ≤ max p.speed (-4) := le_max_right _ _
        have hmax : p.speed ≤ max p.speed (-4) := le_max_left _ _
        generalize min p.speed 4 = mn at *
        generalize max p.speed (-4) = mx at *
        generalize (runFramesDouble t canvas m rest
          (updatePlayerDouble t canvas m keys p)).speed = r at *
        generalize (updatePlayerDouble t canvas m keys p).speed = u at *
        generalize (rest.length : ℚ) = k at *
        rw [hFv] at hstep hrest hle
        rcases le_total 0 p.speed with h0 | h0
        · rw [abs_of_nonneg h0] at hle
          obtain ⟨hu0, hu⟩ := hstep.1 h0
          obtain ⟨hr0, hr⟩ := hrest.1 hu0
          rcases hr with hr | hr
          · exact hr
          · rcases hu with hu | hu
            · rw [hu] at hr
              norm_num at hr
              linarith
            · norm_num at hr hu hle
              rcases le_total k 1000 with hk1000 | hk1000 <;> linarith
        · rw [abs_of_nonpos h0] at hle
          obtain ⟨hu0, hu⟩ := hstep.2 h0
          obtain ⟨hr0, hr⟩ := hrest.2 hu0
          rcases hr with hr | hr
          · exact hr
          · rcases hu with hu | hu
            · rw [hu] at hr
              norm_num at hr
              linarith
            · norm_num at hr hu hle
              rcases le_total k 1000 with hk1000 | hk1000 <;> linarith

/-- C6 in double arithmetic on the vehicle that four accelerate frames leave
at speed 0.48: `ceil (0.48 / 0.04) + 1` is 13, and 13 frames without
throttle bring the speed to 0. -/
theorem friction_reaches_zero_in_doubles_witness :
    ⌈|roundDouble 0.48| / roundDouble 0.04⌉₊ + 1 = 13 ∧
    (runFramesDouble headingZero ⟨1000, 600⟩ (buildCityMap ⟨1000, 600⟩)
      (List.replicate 13 []) { initPlayerDouble with speed := roundDouble 0.48 }).speed = 0 :=
  ⟨by decide!,
    ((friction_reaches_zero_in_doubles headingZero ⟨1000, 600⟩ (buildCityMap ⟨1000, 600⟩)
      { initPlayerDouble with speed := roundDouble 0.48 } rfl rfl).2
      (List.replicate 13 []) (by decide)).2 (by decide!)⟩

/-- C6 fails as stated, in the double arithmetic of the code. From rest, four
frames with the up key bring the vehicle of `initPlayer` to the speed 0.48,
and `ceil (0.48 / 0.04)` is 12; after 12 further frames with no key held the
speed is `6 * 2 ^ (-57)` (printed as 4.163336342344337e-17), not 0: the
rounded subtractions have lost less than 12 times the friction constant.
The 13th frame gives 0. -/
theorem friction_frame_bound_fails_in_doubles :
    (runFramesDouble headingZero ⟨1000, 600⟩ (buildCityMap ⟨1000, 600⟩)
      (List.replicate 4 ["ArrowUp"]) initPlayerDouble).speed = roundDouble 0.48 ∧
    ⌈|roundDouble 0.48| / initPlayerDouble.friction⌉₊ = 12 ∧
    (runFramesDouble headingZero ⟨1000, 600⟩ (buildCityMap ⟨1000, 600⟩)
      (List.replicate 4 ["ArrowUp"] ++ List.replicate 12 []) initPlayerDouble).speed
        = 6 / 2 ^ 57 ∧
    (runFramesDouble headingZero ⟨1000, 600⟩ (buildCityMap ⟨1000, 600⟩)
      (List.replicate 4 ["ArrowUp"] ++ List.replicate 12 []) initPlayerDouble).speed ≠ 0 ∧
    (runFramesDouble headingZero ⟨1000, 600⟩ (buildCityMap ⟨1000, 600⟩)
      (List.replicate 4 ["ArrowUp"] ++ List.replicate 13 []) initPlayerDouble).speed = 0 := by
  refine ⟨by decide!, by decide!, by decide!, by decide!, by decide!⟩

theorem resolveMove_building (m : CityMap) (tr : Rect) (p : Player)
    (h : ∃ b ∈ m.buildings, isRectOverlap tr b = true) :
    resolveMove m tr p = { p with speed := p.speed * 0.4 } := by
  unfold resolveMove
  simp only []
  rw [if_pos (List.any_eq_true.2 h)]

theorem resolveMove_offroad (m : CityMap) (tr : Rect) (p : Player)
    (hb : ∀ b ∈ m.buildings, isRectOverlap tr b = false)
    (hr : ∀ r ∈ m.roads, isPointInRect (tr.x + tr.w / 2) (tr.y + tr.h / 2) r = false) :
    resolveMove m tr p = { p with speed := p.speed * 0.5 } := by
  unfold resolveMove
  simp only []
  have h1 : ¬ (m.buildings.any (fun b => isRectOverlap tr b) = true) := by
    rw [List.any_eq_true]
    rintro ⟨b, hbm, hov⟩
    rw [hb b hbm] at hov
    cases hov
  have h2 : (m.roads.any (fun r => isPointInRect (tr.x + tr.w / 2) (tr.y + tr.h / 2) r))
      = false := by
    rw [Bool.eq_false_iff, Ne, List.any_eq_true]
    rintro ⟨r, hrm, hin⟩
    rw [hr r hrm] at hin
    cases hin
  rw [if_neg h1, h2]
  rfl

theorem resolveMove_commit (m : CityMap) (tr : Rect) (p : Player)
    (hb : ∀ b ∈ m.buildings, isRectOverlap tr b = false)
    (hr : ∃ r ∈ m.roads, isPointInRect (tr.x + tr.w / 2) (tr.y + tr.h / 2) r = true) :
    resolveMove m tr p = { p with x := tr.x + p.w / 2, y := tr.y + p.h / 2 } := by
  unfold resolveMove
  simp only []
  have h1 : ¬ (m.buildings.any (fun b => isRectOverlap tr b) = true) := by
    rw [List.any_eq_true]
    rintro ⟨b, hbm, hov⟩
    rw [hb b hbm] at hov
    cases hov
  rw [if_neg h1, List.any_eq_true.2 hr]
  rfl

/-- C7: let `v` and `a` be the speed and the heading after throttle, steering
and friction, and `c` the body rectangle at the projected position, clamped
to the canvas. If `c` overlaps a building, the position is unchanged and the
speed is `v * 0.4`, on or off the road. Otherwise, if the center of `c` is in
no road, the position is unchanged and the speed is `v * 0.5`. Otherwise the
position is the center of `c` and the speed is `v`. -/
theorem updatePlayer_building_before_road (t : Trig) (canvas : Canvas) (m : CityMap)
    (keys : List String) (p : Player) (v a : ℚ) (c : Rect)
    (hv : v = (applyFriction (keyUp keys) (keyDown keys)
      (applySteering (keyLeft keys) (keyRight keys)
        (applyThrottle (keyUp keys) (keyDown keys) p))).speed)
    (ha : a = (applyFriction (keyUp keys) (keyDown keys)
      (applySteering (keyLeft keys) (keyRight keys)
        (applyThrottle (keyUp keys) (keyDown keys) p))).angle)
    (hc : c = ⟨clamp (p.x + t.cos a * v - p.w / 2) 0 (canvas.width - p.w),
               clamp (p.y + t.sin a * v - p.h / 2) 0 (canvas.height - p.h), p.w, p.h⟩) :
    ((∃ b ∈ m.buildings, isRectOverlap c b = true) →
      (updatePlayer t canvas m keys p).x = p.x ∧ (updatePlayer t canvas m keys p).y = p.y ∧
      (updatePlayer t canvas m keys p).speed = v * 0.4) ∧
    ((∀ b ∈ m.buildings, isRectOverlap c b = false) →
      (∀ r ∈ m.roads, isPointInRect (c.x + c.w / 2) (c.y + c.h / 2) r = false) →
      (updatePlayer t canvas m keys p).x = p.x ∧ (updatePlayer t canvas m keys p).y = p.y ∧
      (updatePlayer t canvas m keys p).speed = v * 0.5) ∧
    ((∀ b ∈ m.buildings, isRectOverlap c b = false) →
      (∃ r ∈ m.roads, isPointInRect (c.x + c.w / 2) (c.y + c.h / 2) r = true) →
      (updatePlayer t canvas m keys p).x = c.x + c.w / 2 ∧
      (updatePlayer t canvas m keys p).y = c.y + c.h / 2 ∧
      (updatePlayer t canvas m keys p).speed = v) := by
  rw [updatePlayer_eq]
  obtain ⟨-, -, hx1, hy1, hw1, hh1⟩ := applyThrottle_consts (keyUp keys) (keyDown keys) p
  generalize applyThrottle (keyUp keys) (keyDown keys) p = q1 at *
  obtain ⟨-, -, hx2, hy2, hw2, hh2, -⟩ :=
    applySteering_consts (keyLeft keys) (keyRight keys) q1
  generalize applySteering (keyLeft keys) (keyRight keys) q1 = q2 at *
  obtain ⟨-, -, hx3, hy3, hw3, hh3, -⟩ := applyFriction_consts (keyUp keys) (keyDown keys) q2
  generalize applyFriction (keyUp keys) (keyDown keys) q2 = q at *
  have hqx : q.x = p.x := by rw [hx3, hx2, hx1]
  have hqy : q.y = p.y := by rw [hy3, hy2, hy1]
  have hqw : q.w = p.w := by rw [hw3, hw2, hw1]
  have hqh : q.h = p.h := by rw [hh3, hh2, hh1]
  have htr : tryRect t canvas q = c := by
    rw [hc, hv, ha]
    simp only [tryRect, hqx, hqy, hqw, hqh]
  rw [htr]
  have hcw : c.w = p.w := by rw [hc]
  have hch : c.h = p.h := by rw [hc]
  refine ⟨fun hb => ?_, fun hb hr => ?_, fun hb hr => ?_⟩
  · rw [resolveMove_building m c q hb]
    exact ⟨hqx, hqy, by rw [hv]⟩
  · rw [resolveMove_offroad m c q hb hr]
    exact ⟨hqx, hqy, by rw [hv]⟩
  · rw [resolveMove_commit m c q hb hr]
    exact ⟨by simp only [hqw, hcw], by simp only [hqh, hch], by rw [hv]⟩

/-- C7 on the 1000 by 600 map. The vehicle at (215, 200) with speed 1 and no
key held projects onto a rectangle that overlaps the first building and whose
center is on no road: the position stays and the speed is 0.96 times 0.4.
The vehicle of `initPlayer` with the up key held moves to (140.12, 95) at
speed 0.12. -/
theorem updatePlayer_building_before_road_witness :
    (∀ r ∈ (buildCityMap ⟨1000, 600⟩).roads,
      isPointInRect (204.96 + 22 / 2) (194 + 12 / 2) r = false) ∧
    ((updatePlayer headingZero ⟨1000, 600⟩ (buildCityMap ⟨1000, 600⟩) [] strayPlayer).x
        = strayPlayer.x ∧
      (updatePlayer headingZero ⟨1000, 600⟩ (buildCityMap ⟨1000, 600⟩) [] strayPlayer).y
        = strayPlayer.y ∧
      (updatePlayer headingZero ⟨1000, 600⟩ (buildCityMap ⟨1000, 600⟩) [] strayPlayer).speed
        = 0.96 * 0.4) ∧
    ((updatePlayer headingZero ⟨1000, 600⟩ (buildCityMap ⟨1000, 600⟩) ["ArrowUp"]
        initPlayer).x = 129.12 + 22 / 2 ∧
      (updatePlayer headingZero ⟨1000, 600⟩ (buildCityMap ⟨1000, 600⟩) ["ArrowUp"]
        initPlayer).y = 89 + 12 / 2 ∧
      (updatePlayer headingZero ⟨1000, 600⟩ (buildCityMap ⟨1000, 600⟩) ["ArrowUp"]
        initPlayer).speed = 0.12) :=
  ⟨by decide!,
    (updatePlayer_building_before_road headingZero ⟨1000, 600⟩ (buildCityMap ⟨1000, 600⟩) []
      strayPlayer 0.96 0 ⟨204.96, 194, 22, 12⟩ (by decide!) (by decide!) (by decide!)).1
      ⟨⟨220, 150, 160, 110⟩, by decide!, by decide!⟩,
    (updatePlayer_building_before_road headingZero ⟨1000, 600⟩ (buildCityMap ⟨1000, 600⟩)
      ["ArrowUp"] initPlayer 0.12 0 ⟨129.12, 89, 22, 12⟩
      (by decide!) (by decide!) (by decide!)).2.2
      (by decide!) ⟨⟨80, 60, 840, 70⟩, by decide!, by decide!⟩⟩

/-! ### Item placement -/

/-- Induction over the iterations of the loop of `spawnItems`: a property of
`tries` and `items` that holds at entry and is kept by a rejected draw and by
an accepted one holds at exit, where the loop condition is false. -/
theorem spawnLoop_induction (canvas : Canvas) (m : CityMap) (collectedItemIds : List String)
    (count : ℕ) (rnd : ℕ → ℚ) (P : ℕ → List Item → Prop)
    (hskip : ∀ tries items, items.length < count → tries < 3000 →
      P tries items → P (tries + 1) items)
    (hacc : ∀ tries items (x y : ℤ), items.length < count → tries < 3000 →
      isDrivableRect m ⟨x - 16 / 2, y - 16 / 2, 16, 16⟩ = true →
      (∀ it ∈ items, hypotLt70 (it.x - x) (it.y - y) = false) →
      P tries items →
      P (tries + 1) (items ++ [⟨"item-" ++ toString (items.length + 1), x, y, 16,
        collectedItemIds.contains ("item-" ++ toString (items.length + 1))⟩])) :
    ∀ (n tries : ℕ) (items : List Item), 3000 - tries = n → P tries items →
      P (spawnLoop canvas m collectedItemIds count rnd tries items).2
          (spawnLoop canvas m collectedItemIds count rnd tries items).1 ∧
        ¬ ((spawnLoop canvas m collectedItemIds count rnd tries items).1.length < count ∧
          (spawnLoop canvas m collectedItemIds count rnd tries items).2 < 3000) := by
  intro n
  induction n with
  | zero =>
    intro tries items hn hP
    have hc : ¬ (items.length < count ∧ tries < 3000) := by omega
    rw [spawnLoop, dif_neg hc]
    exact ⟨hP, hc⟩
  | succ k ih =>
    intro tries items hn hP
    by_cases hc : items.length < count ∧ tries < 3000
    · rw [spawnLoop, dif_pos hc]
      simp only []
      split_ifs with h1 h2
      · exact ih (tries + 1) items (by omega) (hskip tries items hc.1 hc.2 hP)
      · exact ih (tries + 1) items (by omega) (hskip tries items hc.1 hc.2 hP)
      · refine ih (tries + 1) _ (by omega) (hacc tries items _ _ hc.1 hc.2 ?_ ?_ hP)
        · simpa using h1
        · intro it hit
          have h3 : ¬ (items.any (fun it =>
              hypotLt70 (it.x - randomInt (rnd (2 * tries)) 60 (canvas.width - 60))
                (it.y - randomInt (rnd (2 * tries + 1)) 60 (canvas.height - 60))) = true) := h2
          rw [List.any_eq_true] at h3
          cases hh : hypotLt70 (it.x - randomInt (rnd (2 * tries)) 60 (canvas.width - 60))
              (it.y - randomInt (rnd (2 * tries + 1)) 60 (canvas.height - 60))
          · rfl
          · exact absurd ⟨it, hit, hh⟩ h3
    · rw [spawnLoop, dif_neg hc]
      exact ⟨hP, hc⟩

theorem spawnLoop_exit (canvas : Canvas) (m : CityMap) (collectedItemIds : List String)
    (count : ℕ) (rnd : ℕ → ℚ) (tries : ℕ) (items : List Item)
    (h : ¬ (items.length < count ∧ tries < 3000)) :
    spawnLoop canvas m collectedItemIds count rnd tries items = (items, tries) := by
  rw [spawnLoop, dif_neg h]

theorem spawnLoop_reject (canvas : Canvas) (m : CityMap) (collectedItemIds : List String)
    (count : ℕ) (rnd : ℕ → ℚ) (tries : ℕ) (items : List Item)
    (h : items.length < count ∧ tries < 3000)
    (hr : isDrivableRect m
        ⟨randomInt (rnd (2 * tries)) 60 (canvas.width - 60) - 16 / 2,
         randomInt (rnd (2 * tries + 1)) 60 (canvas.height - 60) - 16 / 2, 16, 16⟩ = false ∨
      items.any (fun it =>
        hypotLt70 (it.x - randomInt (rnd (2 * tries)) 60 (canvas.width - 60))
          (it.y - randomInt (rnd (2 * tries + 1)) 60 (canvas.height - 60))) = true) :
    spawnLoop canvas m collectedItemIds count rnd tries items =
      spawnLoop canvas m collectedItemIds count rnd (tries + 1) items := by
  rw [spawnLoop, dif_pos h]
  simp only []
  split_ifs with h1 h2
  · rfl
  · rfl
  · rcases hr with hr | hr
    · rw [hr] at h1
      exact absurd rfl h1
    · exact absurd hr h2

theorem spawnLoop_accept (canvas : Canvas) (m : CityMap) (collectedItemIds : List String)
    (count : ℕ) (rnd : ℕ → ℚ) (tries : ℕ) (items : List Item)
    (h : items.length < count ∧ tries < 3000)
    (hd : isDrivableRect m
        ⟨randomInt (rnd (2 * tries)) 60 (canvas.width - 60) - 16 / 2,
         randomInt (rnd (2 * tries + 1)) 60 (canvas.height - 60) - 16 / 2, 16, 16⟩ = true)
    (hfar : items.any (fun it =>
        hypotLt70 (it.x - randomInt (rnd (2 * tries)) 60 (canvas.width - 60))
          (it.y - randomInt (rnd (2 * tries + 1)) 60 (canvas.height - 60))) = false) :
    spawnLoop canvas m collectedItemIds count rnd tries items =
      spawnLoop canvas m collectedItemIds count rnd (tries + 1)
        (items ++ [⟨"item-" ++ toString (items.length + 1),
          randomInt (rnd (2 * tries)) 60 (canvas.width - 60),
          randomInt (rnd (2 * tries + 1)) 60 (canvas.height - 60), 16,
          collectedItemIds.contains ("item-" ++ toString (items.length + 1))⟩]) := by
  rw [spawnLoop, dif_pos h]
  simp only []
  rw [hd, hfar]
  rfl

/-- The run of `spawnItems(2)` on the 1000 by 600 map with the draws of
`sampleDraws`: (500, 108) is accepted, the same point drawn again is
rejected as too close, (720, 108) is accepted, and the loop exits after three
attempts. -/
theorem spawnLoop_sample :
    spawnLoop ⟨1000, 600⟩ (buildCityMap ⟨1000, 600⟩) [] 2 sampleDraws 0 [] =
      ([⟨"item-1", 500, 108, 16, false⟩, ⟨"item-2", 720, 108, 16, false⟩], 3) := by
  rw [spawnLoop_accept _ _ _ _ _ 0 [] (by decide) (by decide!) (by decide!)]
  rw [spawnLoop_reject _ _ _ _ _ (0 + 1) _ (by decide) (Or.inr (by decide!))]
  rw [spawnLoop_accept _ _ _ _ _ (0 + 1 + 1) _ (by decide) (by decide!) (by decide!)]
  rw [spawnLoop_exit _ _ _ _ _ _ _ (by decide)]
  decide!

/-- C9: every item returned by `spawnItems` has size 16 and its 16 by 16
rectangle satisfies `isDrivableRect`, and two items at different positions of
the returned list are at least 70 apart: the squares of their coordinate
differences sum to at least 4900. -/
theorem spawnItems_drivable_and_apart (canvas : Canvas) (m : CityMap)
    (collectedItemIds : List String) (count : ℕ) (rnd : ℕ → ℚ) :
    (∀ it ∈ spawnItems canvas m collectedItemIds count rnd,
      it.size = 16 ∧
      isDrivableRect m ⟨it.x - it.size / 2, it.y - it.size / 2, it.size, it.size⟩ = true) ∧
    (∀ (i j : ℕ) (a b : Item), i ≠ j →
      (spawnItems canvas m collectedItemIds count rnd)[i]? = some a →
      (spawnItems canvas m collectedItemIds count rnd)[j]? = some b →
      4900 ≤ (a.x - b.x) * (a.x - b.x) + (a.y - b.y) * (a.y - b.y)) := by
  have hinv := (spawnLoop_induction canvas m collectedItemIds count rnd
    (fun _ items =>
      (∀ it ∈ items, it.size = 16 ∧
        isDrivableRect m ⟨it.x - 16 / 2, it.y - 16 / 2, 16, 16⟩ = true) ∧
      items.Pairwise (fun a b =>
        4900 ≤ (a.x - b.x) * (a.x - b.x) + (a.y - b.y) * (a.y - b.y)))
    (fun _ _ _ _ h => h)
    (by
      intro tries items x y _ _ hd hfar hP
      obtain ⟨h1, h2⟩ := hP
      constructor
      · intro it hit
        rw [List.mem_append, List.mem_singleton] at hit
        rcases hit with hit | hit
        · exact h1 it hit
        · subst hit
          exact ⟨rfl, hd⟩
      · rw [List.pairwise_append]
        refine ⟨h2, List.pairwise_singleton _ _, ?_⟩
        intro a ha b hb
        rw [List.mem_singleton] at hb
        subst hb
        have := hfar a ha
        simp only [hypotLt70, decide_eq_false_iff_not, not_lt] at this
        simpa using this)
    3000 0 [] rfl ⟨by simp, List.Pairwise.nil⟩).1
  obtain ⟨h1, h2⟩ := hinv
  constructor
  · intro it hit
    obtain ⟨hs, hd⟩ := h1 it hit
    rw [hs]
    exact ⟨rfl, hd⟩
  · intro i j a b hij ha hb
    rw [List.pairwise_iff_getElem] at h2
    obtain ⟨hi, hai⟩ := List.getElem?_eq_some.1 ha
    obtain ⟨hj, hbj⟩ := List.getElem?_eq_some.1 hb
    rcases Nat.lt_or_gt_of_ne hij with hlt | hgt
    · have := h2 i j hi hj hlt
      unfold spawnItems at hai hbj
      rw [hai, hbj] at this
      exact this
    · have := h2 j i hj hi hgt
      unfold spawnItems at hai hbj
      rw [hai, hbj] at this
      have e : (a.x - b.x) * (a.x - b.x) + (a.y - b.y) * (a.y - b.y) =
          (b.x - a.x) * (b.x - a.x) + (b.y - a.y) * (b.y - a.y) := by ring
      rw [e]
      exact this

/-- C9 on the sample run: the two items returned for the draws of
`sampleDraws` are drivable and 220 apart. -/
theorem spawnItems_drivable_and_apart_witness :
    spawnItems ⟨1000, 600⟩ (buildCityMap ⟨1000, 600⟩) [] 2 sampleDraws =
      [⟨"item-1", 500, 108, 16, false⟩, ⟨"item-2", 720, 108, 16, false⟩] ∧
    isDrivableRect (buildCityMap ⟨1000, 600⟩) ⟨500 - 16 / 2, 108 - 16 / 2, 16, 16⟩ = true ∧
    (4900 : ℤ) ≤ (500 - 720) * (500 - 720) + (108 - 108) * (108 - 108) := by
  have hrun : spawnItems ⟨1000, 600⟩ (buildCityMap ⟨1000, 600⟩) [] 2 sampleDraws =
      [⟨"item-1", 500, 108, 16, false⟩, ⟨"item-2", 720, 108, 16, false⟩] := by
    unfold spawnItems
    rw [spawnLoop_sample]
  have h := spawnItems_drivable_and_apart ⟨1000, 600⟩ (buildCityMap ⟨1000, 600⟩) []
    2 sampleDraws
  refine ⟨hrun, ?_, ?_⟩
  · have h1 := (h.1 ⟨"item-1", 500, 108, 16, false⟩ (by rw [hrun]; simp)).2
    simpa using h1
  · exact h.2 0 1 ⟨"item-1", 500, 108, 16, false⟩ ⟨"item-2", 720, 108, 16, false⟩
      (by decide) (by rw [hrun]; rfl) (by rw [hrun]; rfl)

/-- C10: the loop of `spawnItems` ends after at most 3000 attempts (each
attempt draws one candidate point), it returns at most `count` items, it
returns fewer than `count` items only when all 3000 attempts were made, and
on a map without road rectangles it returns no item, for `count` 5 as for any
other count. -/
theorem spawnItems_budget (canvas : Canvas) (m : CityMap)
    (collectedItemIds : List String) (count : ℕ) (rnd : ℕ → ℚ) :
    (spawnLoop canvas m collectedItemIds count rnd 0 []).2 ≤ 3000 ∧
    (spawnItems canvas m collectedItemIds count rnd).length ≤ count ∧
    ((spawnItems canvas m collectedItemIds count rnd).length < count →
      (spawnLoop canvas m collectedItemIds count rnd 0 []).2 = 3000) ∧
    (m.roads = [] → spawnItems canvas m collectedItemIds 5 rnd = [] ∧
      spawnItems canvas m collectedItemIds count rnd = []) := by
  have hinv := spawnLoop_induction canvas m collectedItemIds count rnd
    (fun tries items => tries ≤ 3000 ∧ items.length ≤ count)
    (fun tries items h1 h2 _ => ⟨by omega, by omega⟩)
    (fun tries items x y h1 h2 _ _ _ => ⟨by omega, by simp; omega⟩)
    3000 0 [] rfl ⟨by omega, by simp⟩
  obtain ⟨⟨h1, h2⟩, h3⟩ := hinv
  have hempty : ∀ n : ℕ, m.roads = [] → spawnItems canvas m collectedItemIds n rnd = [] := by
    intro n hroads
    have hnd : ∀ rect : Rect, isDrivableRect m rect = false := by
      intro rect
      unfold isDrivableRect
      simp [hroads]
    exact (spawnLoop_induction canvas m collectedItemIds n rnd
      (fun _ items => items = [])
      (fun _ _ _ _ h => h)
      (fun tries items x y _ _ hd _ _ => by rw [hnd] at hd; cases hd)
      3000 0 [] rfl rfl).1
  refine ⟨h1, h2, ?_, fun hroads => ⟨hempty 5 hroads, hempty count hroads⟩⟩
  intro hlt
  unfold spawnItems at hlt
  omega

/-- C10 on concrete runs: on the 1000 by 600 map stripped of its roads
`spawnItems(5)` returns the empty list and uses all 3000 attempts; on the full
map the sample run returns its two items after three attempts. -/
theorem spawnItems_budget_witness :
    spawnItems ⟨1000, 600⟩ { buildCityMap ⟨1000, 600⟩ with roads := [] } [] 5 sampleDraws = [] ∧
    (spawnLoop ⟨1000, 600⟩ { buildCityMap ⟨1000, 600⟩ with roads := [] } [] 5
      sampleDraws 0 []).2 = 3000 ∧
    (spawnLoop ⟨1000, 600⟩ (buildCityMap ⟨1000, 600⟩) [] 2 sampleDraws 0 []).2 = 3 := by
  have h := spawnItems_budget ⟨1000, 600⟩ { buildCityMap ⟨1000, 600⟩ with roads := [] } []
    5 sampleDraws
  have he := (h.2.2.2 rfl).1
  refine ⟨he, h.2.2.1 (by rw [he]; decide), ?_⟩
  rw [spawnLoop_sample]

/-! ### Item ids -/

theorem digitChar_toNat (k : ℕ) (h : k < 10) : (Nat.digitChar k).toNat - 48 = k := by
  interval_cases k <;> rfl

theorem toDigitsCore_decode (fuel n : ℕ) (ds : List Char) (h : n < fuel) :
    (Nat.toDigitsCore 10 fuel n ds).foldl (fun acc c => acc * 10 + (c.toNat - 48)) 0 =
      ds.foldl (fun acc c => acc * 10 + (c.toNat - 48)) n := by
  induction fuel generalizing n ds with
  | zero => omega
  | succ f ih =>
    unfold Nat.toDigitsCore
    simp only []
    split_ifs with h0
    · rw [List.foldl_cons, digitChar_toNat _ (Nat.mod_lt _ (by norm_num))]
      congr 1
      omega
    · have hlt : n / 10 < f := by omega
      rw [ih (n / 10) _ hlt, List.foldl_cons, digitChar_toNat _ (Nat.mod_lt _ (by norm_num))]
      congr 1
      omega

/-- The decimal text of a natural number determines the number. -/
theorem toString_nat_injective (a b : ℕ) (h : toString a = toString b) : a = b := by
  have h1 : Nat.toDigits 10 a = Nat.toDigits 10 b := by
    have := congrArg String.data h
    simpa [toString, Nat.repr] using this
  have h2 := congrArg (List.foldl (fun acc c => acc * 10 + (c.toNat - 48)) 0) h1
  unfold Nat.toDigits at h2
  rw [toDigitsCore_decode _ _ _ (Nat.lt_succ_self a),
    toDigitsCore_decode _ _ _ (Nat.lt_succ_self b)] at h2
  simpa using h2

theorem itemId_injective (a b : ℕ) (h : "item-" ++ toString a = "item-" ++ toString b) :
    a = b := by
  apply toString_nat_injective
  have := congrArg String.data h
  rw [String.data_append, String.data_append] at this
  exact String.ext (List.append_cancel_left this)

/-- C11: the item at position `k` (from 0) of the list that `spawnItems`
returns, which is the `k + 1`-th returned item, has the id `item-` followed by
the decimal text of `k + 1`, and its `collected` flag is true exactly when
that id is in `collectedItemIds` at spawn time; so the ids of two items at
different positions differ. -/
theorem spawnItems_ids_by_order (canvas : Canvas) (m : CityMap)
    (collectedItemIds : List String) (count : ℕ) (rnd : ℕ → ℚ) :
    (∀ (k : ℕ) (it : Item),
      (spawnItems canvas m collectedItemIds count rnd)[k]? = some it →
      it.id = "item-" ++ toString (k + 1) ∧
      (it.collected = true ↔ it.id ∈ collectedItemIds)) ∧
    (∀ (i j : ℕ) (a b : Item), i ≠ j →
      (spawnItems canvas m collectedItemIds count rnd)[i]? = some a →
      (spawnItems canvas m collectedItemIds count rnd)[j]? = some b →
      a.id ≠ b.id) := by
  have hinv := (spawnLoop_induction canvas m collectedItemIds count rnd
    (fun _ items => ∀ (k : ℕ) (it : Item), items[k]? = some it →
      it.id = "item-" ++ toString (k + 1) ∧
      it.collected = collectedItemIds.contains it.id)
    (fun _ _ _ _ h => h)
    (by
      intro tries items x y _ _ _ _ hP k it hk
      rcases Nat.lt_or_ge k items.length with hlt | hge
      · rw [List.getElem?_append_left hlt] at hk
        exact hP k it hk
      · rw [List.getElem?_append_right hge] at hk
        have hk0 : k - items.length = 0 := by
          by_contra hne
          have : k - items.length = (k - items.length - 1) + 1 := by omega
          rw [this, List.getElem?_cons_succ] at hk
          simp at hk
        rw [hk0, List.getElem?_cons_zero] at hk
        have hkl : k = items.length := by omega
        cases hk
        subst hkl
        exact ⟨rfl, rfl⟩)
    3000 0 [] rfl (by intro k it hk; simp at hk)).1
  have hall : ∀ (k : ℕ) (it : Item),
      (spawnItems canvas m collectedItemIds count rnd)[k]? = some it →
      it.id = "item-" ++ toString (k + 1) ∧
      (it.collected = true ↔ it.id ∈ collectedItemIds) := by
    intro k it hk
    obtain ⟨h1, h2⟩ := hinv k it hk
    refine ⟨h1, ?_⟩
    rw [h2]
    simp
  refine ⟨hall, ?_⟩
  intro i j a b hij ha hb hid
  rw [(hall i a ha).1, (hall j b hb).1] at hid
  have := itemId_injective _ _ hid
  omega

theorem spawnLoop_sample_collected :
    spawnLoop ⟨1000, 600⟩ (buildCityMap ⟨1000, 600⟩) ["item-2"] 2 sampleDraws 0 [] =
      ([⟨"item-1", 500, 108, 16, false⟩, ⟨"item-2", 720, 108, 16, true⟩], 3) := by
  rw [spawnLoop_accept _ _ _ _ _ 0 [] (by decide) (by decide!) (by decide!)]
  rw [spawnLoop_reject _ _ _ _ _ (0 + 1) _ (by decide) (Or.inr (by decide!))]
  rw [spawnLoop_accept _ _ _ _ _ (0 + 1 + 1) _ (by decide) (by decide!) (by decide!)]
  rw [spawnLoop_exit _ _ _ _ _ _ _ (by decide)]
  decide!

/-- C11 on the sample run with `item-2` already collected: the two returned
items are `item-1`, not collected, and `item-2`, collected. -/
theorem spawnItems_ids_by_order_witness :
    spawnItems ⟨1000, 600⟩ (buildCityMap ⟨1000, 600⟩) ["item-2"] 2 sampleDraws =
      [⟨"item-1", 500, 108, 16, false⟩, ⟨"item-2", 720, 108, 16, true⟩] ∧
    ("item-2" = "item-" ++ toString (1 + 1) ∧
      ((true : Bool) = true ↔ "item-2" ∈ ["item-2"])) ∧
    "item-1" ≠ "item-2" := by
  have hrun : spawnItems ⟨1000, 600⟩ (buildCityMap ⟨1000, 600⟩) ["item-2"] 2 sampleDraws =
      [⟨"item-1", 500, 108, 16, false⟩, ⟨"item-2", 720, 108, 16, true⟩] := by
    unfold spawnItems
    rw [spawnLoop_sample_collected]
  have h := spawnItems_ids_by_order ⟨1000, 600⟩ (buildCityMap ⟨1000, 600⟩) ["item-2"]
    2 sampleDraws
  exact ⟨hrun,
    h.1 1 ⟨"item-2", 720, 108, 16, true⟩ (by rw [hrun]; rfl),
    h.2 0 1 ⟨"item-1", 500, 108, 16, false⟩ ⟨"item-2", 720, 108, 16, true⟩ (by decide)
      (by rw [hrun]; rfl) (by rw [hrun]; rfl)⟩

/-! ### Overlap of rectangles -/

/-- C15 as the code behaves: a rectangle overlaps itself exactly when its width and its
height are positive; in double arithmetic, exactly when adding the width to
`x` and the height to `y` gives larger numbers. -/
theorem isRectOverlap_self (a : Rect) :
    (isRectOverlap a a = true ↔ 0 < a.w ∧ 0 < a.h) ∧
    (isRectOverlapDouble a a = true ↔
      a.x < roundDouble (a.x + a.w) ∧ a.y < roundDouble (a.y + a.h)) := by
  constructor
  · simp only [isRectOverlap, Bool.and_eq_true, decide_eq_true_eq]
    constructor
    · rintro ⟨⟨⟨h1, -⟩, h3⟩, -⟩
      exact ⟨by linarith, by linarith⟩
    · rintro ⟨h1, h2⟩
      exact ⟨⟨⟨by linarith, by linarith⟩, by linarith⟩, by linarith⟩
  · simp only [isRectOverlapDouble, Bool.and_eq_true, decide_eq_true_eq, gt_iff_lt]
    constructor
    · rintro ⟨⟨⟨h1, -⟩, h3⟩, -⟩
      exact ⟨h1, h3⟩
    · rintro ⟨h1, h2⟩
      exact ⟨⟨⟨h1, h1⟩, h2⟩, h2⟩

/-- C15 fails as stated: a rectangle of width 0, the empty rectangle at the origin and
a rectangle of negative width do not overlap themselves; in double arithmetic
neither does the rectangle of width 1 at `x = 2 ^ 53`. -/
theorem isRectOverlap_self_fails :
    isRectOverlap ⟨10, 10, 0, 5⟩ ⟨10, 10, 0, 5⟩ = false ∧
    isRectOverlap ⟨0, 0, 0, 0⟩ ⟨0, 0, 0, 0⟩ = false ∧
    isRectOverlap ⟨10, 10, -4, 5⟩ ⟨10, 10, -4, 5⟩ = false ∧
    isRectOverlapDouble ⟨9007199254740992, 0, 1, 5⟩ ⟨9007199254740992, 0, 1, 5⟩ = false := by
  refine ⟨by decide!, by decide!, by decide!, by decide!⟩

/-- C15 on the body of the vehicle of `initPlayer`, whose width 22 and height
12 are positive: it overlaps itself, in exact and in double arithmetic. -/
theorem isRectOverlap_self_witness :
    isRectOverlap (bodyRect initPlayer) (bodyRect initPlayer) = true ∧
    isRectOverlapDouble (bodyRect initPlayer) (bodyRect initPlayer) = true :=
  ⟨(isRectOverlap_self (bodyRect initPlayer)).1.2 ⟨by decide!, by decide!⟩,
    (isRectOverlap_self (bodyRect initPlayer)).2.2 ⟨by decide!, by decide!⟩⟩

/-- C16: `isRectOverlap(A, B)` equals `isRectOverlap(B, A)` for all rectangles,
in exact and in double arithmetic. -/
theorem isRectOverlap_symm (a b : Rect) :
    isRectOverlap a b = isRectOverlap b a ∧
    isRectOverlapDouble a b = isRectOverlapDouble b a := by
  constructor
  · rw [Bool.eq_iff_iff]
    simp only [isRectOverlap, Bool.and_eq_true, decide_eq_true_eq, gt_iff_lt]
    tauto
  · rw [Bool.eq_iff_iff]
    simp only [isRectOverlapDouble, Bool.and_eq_true, decide_eq_true_eq, gt_iff_lt]
    tauto

/-! ### Restart and reload -/

theorem saveProgress_fields (s : State) :
    (saveProgress s).items = s.items ∧
    (saveProgress s).collectedItemIds = s.collectedItemIds ∧
    (saveProgress s).askedQuestionIds = s.askedQuestionIds ∧
    (saveProgress s).stats = s.stats := ⟨rfl, rfl, rfl, rfl⟩

/-- C12: after `restartRun(false)`, from any state and with any draws, the two id
sets are empty, the tally is 0 and 0, every item is uncollected and the stored
record is the cleared progress; after a `restartRun(true)` that follows
directly, every item is uncollected. -/
theorem restartRun_clears_progress (canvas canvas2 : Canvas) (rnd rnd2 : ℕ → ℚ) (s : State) :
    (restartRun canvas false rnd s).collectedItemIds = [] ∧
    (restartRun canvas false rnd s).askedQuestionIds = [] ∧
    (restartRun canvas false rnd s).stats = ⟨0, 0⟩ ∧
    (∀ it ∈ (restartRun canvas false rnd s).items, it.collected = false) ∧
    (restartRun canvas false rnd s).storage =
      some (.document (.obj
        [ ("collectedItemIds", .arr []),
          ("askedQuestionIds", .arr []),
          ("stats", .obj [("correct", .num 0), ("wrong", .num 0)]) ])) ∧
    (∀ it ∈ (restartRun canvas2 true rnd2 (restartRun canvas false rnd s)).items,
      it.collected = false) := by
  have h1 : (restartRun canvas false rnd s).collectedItemIds = [] := by
    simp [restartRun, saveProgress]
  refine ⟨h1, by simp [restartRun, saveProgress], by simp [restartRun, saveProgress],
    ?_, by simp [restartRun, saveProgress], ?_⟩
  · intro it hit
    simp only [restartRun, saveProgress, Bool.not_false, if_true, List.mem_map] at hit
    obtain ⟨a, -, ha⟩ := hit
    rw [← ha]
  · intro it hit
    simp only [restartRun, Bool.not_true, Bool.false_eq_true, if_false, List.mem_map] at hit
    obtain ⟨a, -, ha⟩ := hit
    rw [← ha]
    simp only [restartRun, saveProgress, Bool.not_false, if_true] at *
    simp [setHas]

/-- The run of `spawnItems(6)` on the 1000 by 600 map with the draws of
`spreadDraws`, `item-1` being collected: six draws, six items. -/
theorem spawnLoop_spread :
    spawnLoop ⟨1000, 600⟩ (buildCityMap ⟨1000, 600⟩) ["item-1"] 6 spreadDraws 0 [] =
      ([⟨"item-1", 150, 108, 16, true⟩, ⟨"item-2", 250, 108, 16, false⟩,
        ⟨"item-3", 350, 108, 16, false⟩, ⟨"item-4", 450, 108, 16, false⟩,
        ⟨"item-5", 550, 108, 16, false⟩, ⟨"item-6", 650, 108, 16, false⟩], 6) := by
  rw [spawnLoop_accept _ _ _ _ _ 0 [] (by decide) (by decide!) (by decide!)]
  rw [spawnLoop_accept _ _ _ _ _ (0 + 1) _ (by decide) (by decide!) (by decide!)]
  rw [spawnLoop_accept _ _ _ _ _ (0 + 1 + 1) _ (by decide) (by decide!) (by decide!)]
  rw [spawnLoop_accept _ _ _ _ _ (0 + 1 + 1 + 1) _ (by decide) (by decide!) (by decide!)]
  rw [spawnLoop_accept _ _ _ _ _ (0 + 1 + 1 + 1 + 1) _ (by decide) (by decide!) (by decide!)]
  rw [spawnLoop_accept _ _ _ _ _ (0 + 1 + 1 + 1 + 1 + 1) _ (by decide) (by decide!)
    (by decide!)]
  rw [spawnLoop_exit _ _ _ _ _ _ _ (by decide)]
  decide!

/-- C12 on the state `playedScenario`, which has a collected item, an asked
question and a tally of 1 and 0: `restartRun(false)` with the draws of
`spreadDraws` spawns six items, all uncollected, and clears the progress. -/
theorem restartRun_clears_progress_witness :
    (restartRun ⟨1000, 600⟩ false spreadDraws playedScenario).items =
      [⟨"item-1", 150, 108, 16, false⟩, ⟨"item-2", 250, 108, 16, false⟩,
        ⟨"item-3", 350, 108, 16, false⟩, ⟨"item-4", 450, 108, 16, false⟩,
        ⟨"item-5", 550, 108, 16, false⟩, ⟨"item-6", 650, 108, 16, false⟩] ∧
    (restartRun ⟨1000, 600⟩ false spreadDraws playedScenario).collectedItemIds = [] ∧
    (restartRun ⟨1000, 600⟩ false spreadDraws playedScenario).askedQuestionIds = [] ∧
    (restartRun ⟨1000, 600⟩ false spreadDraws playedScenario).stats = ⟨0, 0⟩ ∧
    (∀ it ∈ (restartRun ⟨1000, 600⟩ false spreadDraws playedScenario).items,
      it.collected = false) ∧
    (restartRun ⟨1000, 600⟩ false spreadDraws playedScenario).storage =
      some (.document (.obj
        [ ("collectedItemIds", .arr []),
          ("askedQuestionIds", .arr []),
          ("stats", .obj [("correct", .num 0), ("wrong", .num 0)]) ])) ∧
    (∀ it ∈ (restartRun ⟨1000, 600⟩ true spreadDraws
        (restartRun ⟨1000, 600⟩ false spreadDraws playedScenario)).items,
      it.collected = false) := by
  refine ⟨?_, restartRun_clears_progress ⟨1000, 600⟩ ⟨1000, 600⟩ spreadDraws spreadDraws
    playedScenario⟩
  have hcount : min 12 (max 6 playedScenario.questions.length) = 6 := by decide
  have hids : playedScenario.collectedItemIds = ["item-1"] := rfl
  simp only [restartRun, saveProgress, Bool.not_false, if_true, hcount, hids, spawnItems,
    spawnLoop_spread]
  rfl

/-- C13 as the code behaves: `loadProgress` leaves the state as it is when nothing is
stored, when the stored text does not parse, when the document has none of
the three fields with a truthy value, and when the first of the fields
`collectedItemIds` and `askedQuestionIds` that has a truthy value is one that
`new Set` rejects (a number, `true` or a plain object). -/
theorem loadProgress_absent (s : State) :
    (s.storage = none → loadProgress s = some s) ∧
    (s.storage = some .unparseable → loadProgress s = some s) ∧
    (∀ data : Json, s.storage = some (.document data) →
      data.field "collectedItemIds" = none → data.field "askedQuestionIds" = none →
      data.field "stats" = none → loadProgress s = some s) ∧
    (∀ (data v : Json), s.storage = some (.document data) →
      data.field "collectedItemIds" = some v → newSet v = .throws →
      loadProgress s = some s) ∧
    (∀ (data v : Json), s.storage = some (.document data) →
      data.field "collectedItemIds" = none →
      data.field "askedQuestionIds" = some v → newSet v = .throws →
      loadProgress s = some s) := by
  refine ⟨?_, ?_, ?_, ?_, ?_⟩
  · intro h
    unfold loadProgress
    rw [h]
  · intro h
    unfold loadProgress
    rw [h]
  · intro data h h1 h2 h3
    unfold loadProgress
    rw [h]
    simp only [h1, h2, h3]
  · intro data v h h1 h2
    unfold loadProgress
    rw [h]
    simp only [h1, h2]
  · intro data v h h1 h2 h3
    unfold loadProgress
    rw [h]
    simp only [h1, h2, h3]

/-- C13 fails as stated: from a state with no collected id, a document whose
`collectedItemIds` is the string `ab` makes the collected ids `a` and `b`, and
a document whose `askedQuestionIds` is the number 5 after a well-formed
`collectedItemIds` leaves the collected ids replaced by the stored ones. -/
theorem loadProgress_applies_malformed :
    quizScenario.collectedItemIds = [] ∧
    (loadProgress { quizScenario with
      storage := some (.document (.obj [("collectedItemIds", .str "ab")])) }).map
        (fun s => s.collectedItemIds) = some ["a", "b"] ∧
    (loadProgress { quizScenario with
      storage := some (.document (.obj
        [("collectedItemIds", .arr [.str "x"]), ("askedQuestionIds", .num 5)])) }).map
        (fun s => s.collectedItemIds) = some ["x"] := by
  refine ⟨rfl, by decide!, by decide!⟩

/-- C13 on the state `quizScenario`: with nothing stored, with a text that does
not parse, with a document that has none of the three fields, with the number
5 stored as `collectedItemIds` and with `true` stored as `askedQuestionIds`,
`loadProgress` returns the state as it was. -/
theorem loadProgress_absent_witness :
    loadProgress quizScenario = some quizScenario ∧
    loadProgress { quizScenario with storage := some .unparseable } =
      some { quizScenario with storage := some .unparseable } ∧
    loadProgress { quizScenario with
        storage := some (.document (.obj [("level", .num 3)])) } =
      some { quizScenario with
        storage := some (.document (.obj [("level", .num 3)])) } ∧
    loadProgress { quizScenario with
        storage := some (.document (.obj [("collectedItemIds", .num 5)])) } =
      some { quizScenario with
        storage := some (.document (.obj [("collectedItemIds", .num 5)])) } ∧
    loadProgress { quizScenario with
        storage := some (.document (.obj [("askedQuestionIds", .bool true)])) } =
      some { quizScenario with
        storage := some (.document (.obj [("askedQuestionIds", .bool true)])) } :=
  ⟨(loadProgress_absent quizScenario).1 rfl,
    (loadProgress_absent { quizScenario with storage := some .unparseable }).2.1 rfl,
    (loadProgress_absent { quizScenario with
        storage := some (.document (.obj [("level", .num 3)])) }).2.2.1
      (.obj [("level", .num 3)]) rfl rfl rfl rfl,
    (loadProgress_absent { quizScenario with
        storage := some (.document (.obj [("collectedItemIds", .num 5)])) }).2.2.2.1
      (.obj [("collectedItemIds", .num 5)]) (.num 5) rfl rfl rfl,
    (loadProgress_absent { quizScenario with
        storage := some (.document (.obj [("askedQuestionIds", .bool true)])) }).2.2.2.2
      (.obj [("askedQuestionIds", .bool true)]) (.bool true) rfl rfl rfl rfl⟩

/-! ### The question file -/

theorem set_perm {α : Type} (l : List α) (i : ℕ) (a b : α) (h : l[i]? = some a) :
    (l.set i b).Perm (b :: l.eraseIdx i) ∧ l.Perm (a :: l.eraseIdx i) := by
  induction l generalizing i with
  | nil => simp at h
  | cons x xs ih =>
    cases i with
    | zero =>
      simp at h
      subst h
      simp
    | succ i' =>
      simp at h
      obtain ⟨h1, h2⟩ := ih i' h
      simp only [List.set_cons_succ, List.eraseIdx_cons_succ]
      exact ⟨(List.Perm.cons x h1).trans (List.Perm.swap b x _),
        (List.Perm.cons x h2).trans (List.Perm.swap a x _)⟩

theorem swapAt_perm {α : Type} (arr : List α) (i j : ℕ) : (swapAt arr i j).Perm arr := by
  unfold swapAt
  cases hi : arr[i]? with
  | none => exact List.Perm.refl _
  | some a =>
    cases hj : arr[j]? with
    | none => exact List.Perm.refl _
    | some b =>
      simp only []
      by_cases hij : i = j
      · subst hij
        rw [hi] at hj
        cases hj
        rw [List.set_set]
        have : arr.set i a = arr := by
          apply List.ext_getElem?
          intro n
          by_cases hn : i = n
          · subst hn
            rw [List.getElem?_set_self (List.getElem?_eq_some.1 hi).1, hi]
          · rw [List.getElem?_set_ne hn]
        rw [this]
      · have hj2 : (arr.set i b)[j]? = some b := by
          rw [List.getElem?_set_ne hij, hj]
        obtain ⟨p1, p2⟩ := set_perm (arr.set i b) j b a hj2
        obtain ⟨p3, p4⟩ := set_perm arr i a b hi
        have p5 : ((arr.set i b).eraseIdx j).Perm (arr.eraseIdx i) :=
          List.Perm.cons_inv (p2.symm.trans p3)
        exact p1.trans ((List.Perm.cons a p5).trans p4.symm)

theorem shuffleFrom_perm {α : Type} (rnd : ℕ → ℚ) (i k : ℕ) (arr : List α) :
    (shuffleFrom rnd i k arr).Perm arr := by
  induction i generalizing k arr with
  | zero => exact List.Perm.refl _
  | succ i ih =>
    unfold shuffleFrom
    exact (ih _ _).trans (swapAt_perm _ _ _)

theorem shuffle_perm {α : Type} (rnd : ℕ → ℚ) (arr : List α) : (shuffle rnd arr).Perm arr :=
  shuffleFrom_perm rnd _ _ arr

/-- The entries that pass the filter of `loadQuestions`: the objects with a
string `id`, a string `prompt`, an array `choices` of at least two entries and
an integer `answerIndex` from 0 to below the number of choices. -/
theorem validQuestion_iff (q : Json) :
    validQuestion q = true ↔
      ∃ (fields : List (String × Json)) (id prompt : String) (choices : List Json)
        (answerIndex : ℤ),
        q = .obj fields ∧ fields.lookup "id" = some (.str id) ∧
        fields.lookup "prompt" = some (.str prompt) ∧
        fields.lookup "choices" = some (.arr choices) ∧
        fields.lookup "answerIndex" = some (.num answerIndex) ∧
        2 ≤ choices.length ∧ 0 ≤ answerIndex ∧ answerIndex < choices.length := by
  constructor
  · intro h
    cases q with
    | obj fields =>
      simp only [validQuestion, Json.get, Bool.and_eq_true] at h
      obtain ⟨⟨⟨⟨⟨-, h1⟩, h2⟩, h3⟩, h4⟩, h5⟩ := h
      cases hid : fields.lookup "id" with
      | none => rw [hid] at h1; simp at h1
      | some vid =>
        cases vid <;> (rw [hid] at h1; try (simp at h1))
        rename_i id
        cases hpr : fields.lookup "prompt" with
        | none => rw [hpr] at h2; simp at h2
        | some vpr =>
          cases vpr <;> (rw [hpr] at h2; try (simp at h2))
          rename_i prompt
          cases hch : fields.lookup "choices" with
          | none => rw [hch] at h3; simp at h3
          | some vch =>
            cases vch <;> (rw [hch] at h3; try (simp at h3))
            rename_i choices
            cases han : fields.lookup "answerIndex" with
            | none => rw [han] at h4; simp at h4
            | some van =>
              cases van <;> (rw [han] at h4; try (simp at h4))
              rename_i n
              rw [han, hch] at h5
              simp only [Bool.and_eq_true, decide_eq_true_eq] at h5
              have hn : n = ((n.num : ℤ) : ℚ) := by
                have := Rat.num_div_den n
                rw [h4] at this
                simpa using this.symm
              refine ⟨fields, id, prompt, choices, n.num, rfl, hid, hpr, hch, ?_, h3, ?_, ?_⟩
              · rw [← hn, han]
              · have := h5.1
                rw [hn] at this
                exact_mod_cast this
              · have := h5.2
                rw [hn] at this
                exact_mod_cast this
    | null => simp [validQuestion, Json.truthy] at h
    | bool b => simp [validQuestion, Json.get] at h
    | num n => simp [validQuestion, Json.get] at h
    | str s => simp [validQuestion, Json.get] at h
    | arr l => simp [validQuestion, Json.get] at h
  · rintro ⟨fields, id, prompt, choices, answerIndex, rfl, h1, h2, h3, h4, h5, h6, h7⟩
    simp only [validQuestion, Json.get, Json.truthy, h1, h2, h3, h4, Bool.and_eq_true,
      decide_eq_true_eq, Bool.true_and, Rat.intCast_den, true_and]
    refine ⟨⟨h5, trivial⟩, ?_, ?_⟩
    · exact_mod_cast h6
    · exact_mod_cast h7

theorem loadQuestions_of_items (data : Json) (rnd : ℕ → ℚ) (items : List Json)
    (h : data.get "items" = some (.arr items)) :
    loadQuestions data rnd = some (shuffle rnd (items.filter validQuestion)) := by
  cases data with
  | obj l =>
    unfold loadQuestions
    rw [h]
    rfl
  | null => simp [Json.get] at h
  | bool b => simp [Json.get] at h
  | num n => simp [Json.get] at h
  | str s => simp [Json.get] at h
  | arr l => simp [Json.get] at h

/-- C14 as the code behaves: the pool that `loadQuestions` keeps is a rearrangement of the
entries of `items` that pass the validation, and an entry is in the pool
exactly when it is an entry of `items` that is an object with an `id` that is
a string (the empty string included), a `prompt` that is a string, an array
`choices` of at least two entries and an `answerIndex` that is an integer from
0 to below the number of choices. -/
theorem loadQuestions_keeps_valid (data : Json) (rnd : ℕ → ℚ) (items : List Json)
    (h : data.get "items" = some (.arr items)) :
    ∃ pool : List Json, loadQuestions data rnd = some pool ∧
      pool.Perm (items.filter validQuestion) ∧
      ∀ q : Json, q ∈ pool ↔
        q ∈ items ∧
        ∃ (fields : List (String × Json)) (id prompt : String) (choices : List Json)
          (answerIndex : ℤ),
          q = .obj fields ∧ fields.lookup "id" = some (.str id) ∧
          fields.lookup "prompt" = some (.str prompt) ∧
          fields.lookup "choices" = some (.arr choices) ∧
          fields.lookup "answerIndex" = some (.num answerIndex) ∧
          2 ≤ choices.length ∧ 0 ≤ answerIndex ∧ answerIndex < choices.length := by
  refine ⟨_, loadQuestions_of_items data rnd items h, shuffle_perm rnd _, ?_⟩
  intro q
  rw [(shuffle_perm rnd (items.filter validQuestion)).mem_iff, List.mem_filter,
    validQuestion_iff]

/-- C14 fails as stated: a record whose `id` is the empty string, and which is otherwise
valid, passes the validation and is kept in the pool. -/
theorem loadQuestions_keeps_empty_id :
    emptyIdRecord.get "id" = some (.str "") ∧
    validQuestion emptyIdRecord = true ∧
    ∃ pool : List Json,
      loadQuestions (.obj [("items", .arr [emptyIdRecord])]) sampleDraws = some pool ∧
      emptyIdRecord ∈ pool := by
  have hv : validQuestion emptyIdRecord = true := by decide!
  refine ⟨rfl, hv, _, loadQuestions_of_items _ sampleDraws [emptyIdRecord] rfl, ?_⟩
  rw [(shuffle_perm sampleDraws _).mem_iff, List.mem_filter]
  exact ⟨List.mem_singleton.2 rfl, hv⟩

/-- C14 on the file `sampleFile`: of its three entries the pool keeps one, the
record `recordQ1`. -/
theorem loadQuestions_keeps_valid_witness :
    (loadQuestions sampleFile sampleDraws).map List.length = some 1 ∧
    ∃ pool : List Json, loadQuestions sampleFile sampleDraws = some pool ∧ recordQ1 ∈ pool := by
  obtain ⟨pool, hpool, -, hmem⟩ := loadQuestions_keeps_valid sampleFile sampleDraws
    [.null, recordQ1,
      .obj [("id", .str "q2"), ("prompt", .str "p"), ("choices", .arr [.str "a", .str "b"]),
        ("answerIndex", .num 2)]] rfl
  refine ⟨by decide!, pool, hpool, (hmem recordQ1).2 ⟨by simp, ?_⟩⟩
  exact ⟨_, "q1", "p", [.str "a", .str "b"], 1, rfl, rfl, rfl, rfl, rfl, by decide, by decide,
    by decide⟩

/-! ### The vehicle at rest -/

/-- C17: a vehicle at speed 0 whose body lies within the canvas (and whose
`maxSpeed` is not negative; `initPlayer` sets it to 3.2 and nothing changes
it) is returned unchanged by a frame in which neither the up nor the down key
is pressed, on any map and wherever it stands: position, heading and speed
are the same. -/
theorem updatePlayer_at_rest (t : Trig) (canvas : Canvas) (m : CityMap)
    (keys : List String) (p : Player) (hM : 0 ≤ p.maxSpeed) (hs : p.speed = 0)
    (hup : keyUp keys = false) (hdown : keyDown keys = false)
    (hx0 : 0 ≤ p.x - p.w / 2) (hx1 : p.x + p.w / 2 ≤ canvas.width)
    (hy0 : 0 ≤ p.y - p.h / 2) (hy1 : p.y + p.h / 2 ≤ canvas.height) :
    updatePlayer t canvas m keys p = p ∧
    (updatePlayer t canvas m keys p).x = p.x ∧ (updatePlayer t canvas m keys p).y = p.y ∧
    (updatePlayer t canvas m keys p).angle = p.angle ∧
    (updatePlayer t canvas m keys p).speed = p.speed := by
  have hmain : updatePlayer t canvas m keys p = p := by
    rw [updatePlayer_eq, hup, hdown]
    have h1 : applyThrottle false false p = p := by
      have hc : clamp p.speed (-p.maxSpeed * 0.7) p.maxSpeed = p.speed := by
        rw [hs]
        unfold clamp
        rw [min_eq_right hM, max_eq_right (by linarith)]
      unfold applyThrottle
      simp only [Bool.false_eq_true, if_false, hc]
    rw [h1]
    have h2 : applySteering (keyLeft keys) (keyRight keys) p = p := by
      unfold applySteering
      simp only [hs, abs_zero]
      rw [if_neg (by norm_num)]
    rw [h2]
    have h3 : applyFriction false false p = p := by
      unfold applyFriction
      simp [hs]
    rw [h3]
    have htr : tryRect t canvas p = ⟨p.x - p.w / 2, p.y - p.h / 2, p.w, p.h⟩ := by
      have hcx : clamp (p.x - p.w / 2) 0 (canvas.width - p.w) = p.x - p.w / 2 := by
        unfold clamp
        rw [min_eq_right (by linarith), max_eq_right hx0]
      have hcy : clamp (p.y - p.h / 2) 0 (canvas.height - p.h) = p.y - p.h / 2 := by
        unfold clamp
        rw [min_eq_right (by linarith), max_eq_right hy0]
      simp only [tryRect, hs, mul_zero, add_zero, hcx, hcy]
    rw [htr]
    unfold resolveMove
    simp only [hs, zero_mul, sub_add_cancel]
    split_ifs <;> (cases p; simp_all)
  rw [hmain]
  exact ⟨rfl, rfl, rfl, rfl, rfl⟩

/-- C17 on the vehicle at the center of the 1000 by 600 canvas, at speed 0
with no key pressed: the frame returns it unchanged. -/
theorem updatePlayer_at_rest_witness :
    updatePlayer headingZero ⟨1000, 600⟩ (buildCityMap ⟨1000, 600⟩) [] centerPlayer
      = centerPlayer ∧
    (updatePlayer headingZero ⟨1000, 600⟩ (buildCityMap ⟨1000, 600⟩) [] centerPlayer).x
      = centerPlayer.x ∧
    (updatePlayer headingZero ⟨1000, 600⟩ (buildCityMap ⟨1000, 600⟩) [] centerPlayer).y
      = centerPlayer.y ∧
    (updatePlayer headingZero ⟨1000, 600⟩ (buildCityMap ⟨1000, 600⟩) [] centerPlayer).angle
      = centerPlayer.angle ∧
    (updatePlayer headingZero ⟨1000, 600⟩ (buildCityMap ⟨1000, 600⟩) [] centerPlayer).speed
      = centerPlayer.speed :=
  updatePlayer_at_rest headingZero ⟨1000, 600⟩ (buildCityMap ⟨1000, 600⟩) [] centerPlayer
    (by decide!) rfl rfl rfl (by decide!) (by decide!) (by decide!) (by decide!)

/-- The frame of C17 in double arithmetic, for the vehicle at the center of the
1000 by 600 canvas: it is returned unchanged as well. -/
theorem updatePlayerDouble_at_rest_center :
    updatePlayerDouble headingZero ⟨1000, 600⟩ (buildCityMap ⟨1000, 600⟩) []
      { initPlayerDouble with x := 500, y := 300 } =
      { initPlayerDouble with x := 500, y := 300 } := by
  decide!

/-! ### Frames and pickup -/

/-- C18: while `locked` is true, or while every item is collected (an empty item
list included), the gameplay part of `tick` returns the state it was given,
whatever keys are pressed: the vehicle, the items, the active item and
question, the lock and the progress are all unchanged. -/
theorem tick_suspended (t : Trig) (canvas : Canvas) (keys : List String) (u : ℚ) (s : State)
    (h : s.locked = true ∨ allCollected s = true) :
    tick t canvas keys u s = s := by
  unfold tick
  rcases h with h | h <;> simp [h]

/-- C18 on `quizScenario`, where the quiz is open, and on `playedScenario`,
where the one item is collected: a frame with the up key pressed changes
nothing. -/
theorem tick_suspended_witness :
    tick headingZero ⟨1000, 600⟩ ["ArrowUp"] (1 / 2) quizScenario = quizScenario ∧
    tick headingZero ⟨1000, 600⟩ ["ArrowUp"] (1 / 2) playedScenario = playedScenario :=
  ⟨tick_suspended headingZero ⟨1000, 600⟩ ["ArrowUp"] (1 / 2) quizScenario (Or.inl rfl),
    tick_suspended headingZero ⟨1000, 600⟩ ["ArrowUp"] (1 / 2) playedScenario (Or.inr rfl)⟩

/-- The scan of `checkItemPickup` finds nothing exactly when no item is both
uncollected and under the vehicle. -/
theorem pickupScan_none (pr : Rect) (l : List Item) (start : ℕ) :
    pickupScan pr l start = none ↔
      ∀ it ∈ l, ¬ (it.collected = false ∧ isRectOverlap pr (itemRect it) = true) := by
  induction l generalizing start with
  | nil => simp [pickupScan]
  | cons x xs ih =>
    unfold pickupScan
    split_ifs with h1 h2
    · rw [ih]
      simp [h1]
    · simp [h1, h2]
    · rw [ih]
      simp [h1, h2]

/-- The scan of `checkItemPickup` stops at the first item that is uncollected
and under the vehicle. -/
theorem pickupScan_some (pr : Rect) (l : List Item) (start i : ℕ) :
    pickupScan pr l start = some i ↔
      ∃ (k : ℕ) (it : Item), i = start + k ∧ l[k]? = some it ∧
        (it.collected = false ∧ isRectOverlap pr (itemRect it) = true) ∧
        ∀ (j : ℕ) (jt : Item), j < k → l[j]? = some jt →
          ¬ (jt.collected = false ∧ isRectOverlap pr (itemRect jt) = true) := by
  induction l generalizing start with
  | nil => simp [pickupScan]
  | cons x xs ih =>
    have hskip : ¬ (x.collected = false ∧ isRectOverlap pr (itemRect x) = true) →
        (pickupScan pr xs (start + 1) = some i ↔
          ∃ (k : ℕ) (it : Item), i = start + k ∧ (x :: xs)[k]? = some it ∧
            (it.collected = false ∧ isRectOverlap pr (itemRect it) = true) ∧
            ∀ (j : ℕ) (jt : Item), j < k → (x :: xs)[j]? = some jt →
              ¬ (jt.collected = false ∧ isRectOverlap pr (itemRect jt) = true)) := by
      intro hx
      rw [ih]
      constructor
      · rintro ⟨k, it, hi, hk, hit, hfirst⟩
        refine ⟨k + 1, it, by omega, by simpa using hk, hit, ?_⟩
        intro j jt hj hjt
        cases j with
        | zero =>
          simp at hjt
          subst hjt
          exact hx
        | succ j' => exact hfirst j' jt (by omega) (by simpa using hjt)
      · rintro ⟨k, it, hi, hk, hit, hfirst⟩
        cases k with
        | zero =>
          simp at hk
          subst hk
          exact absurd hit hx
        | succ k' =>
          refine ⟨k', it, by omega, by simpa using hk, hit, ?_⟩
          intro j jt hj hjt
          exact hfirst (j + 1) jt (by omega) (by simpa using hjt)
    unfold pickupScan
    split_ifs with h1 h2
    · exact hskip (by simp [h1])
    · constructor
      · intro h
        cases h
        exact ⟨0, x, rfl, List.getElem?_cons_zero, ⟨by simpa using h1, h2⟩,
          by intro j jt hj; omega⟩
      · rintro ⟨k, it, hi, hk, hit, hfirst⟩
        cases k with
        | zero => simp [hi]
        | succ k' =>
          exact absurd ⟨by simpa using h1, h2⟩ (hfirst 0 x (by omega) List.getElem?_cons_zero)
    · exact hskip (by simp [h2])

theorem chooseQuestion_isSome (s : State) (u : ℚ) (hne : s.questions ≠ [])
    (h0 : 0 ≤ u) (h1 : u < 1) : ∃ q, chooseQuestion s u = some q := by
  unfold chooseQuestion
  simp only []
  have key : ∀ pool : List Question, pool ≠ [] →
      ∃ q, (if pool.length = 0 then none
        else if ⌊u * (pool.length : ℚ)⌋ < 0 then none
        else pool[(⌊u * (pool.length : ℚ)⌋).toNat]?) = some q := by
    intro pool hp
    have hlen : 0 < pool.length := List.length_pos.2 hp
    have hlenq : (0 : ℚ) < (pool.length : ℚ) := by exact_mod_cast hlen
    have hfl0 : 0 ≤ ⌊u * (pool.length : ℚ)⌋ := Int.floor_nonneg.2 (mul_nonneg h0 hlenq.le)
    have hfl1 : ⌊u * (pool.length : ℚ)⌋ < (pool.length : ℤ) := by
      rw [Int.floor_lt]
      have : u * (pool.length : ℚ) < 1 * (pool.length : ℚ) :=
        mul_lt_mul_of_pos_right h1 hlenq
      simpa using this
    have hidx : (⌊u * (pool.length : ℚ)⌋).toNat < pool.length := by omega
    rw [if_neg (by omega), if_neg (by omega)]
    exact ⟨pool[(⌊u * (pool.length : ℚ)⌋).toNat], List.getElem?_eq_getElem hidx⟩
  by_cases hn : (s.questions.filter (fun q => !setHas s.askedQuestionIds q.id)).length ≠ 0
  · rw [if_pos hn]
    exact key _ (fun h => hn (by rw [h]; rfl))
  · rw [if_neg hn]
    exact key _ hne

theorem chooseQuestion_empty (s : State) (u : ℚ) (he : s.questions = []) :
    chooseQuestion s u = none := by
  unfold chooseQuestion
  simp [he]

/-- C19: `checkItemPickup` opens the quiz for the first item in list order that
is uncollected and overlaps the body of the vehicle, when the question pool is
not empty (and the draw is in `[0, 1)`): `locked` becomes true, that item is
the active item, and nothing else changes. With no such item the state is
unchanged, and so it is with an empty pool. In every case the state is either
unchanged or the quiz is open on that first item, so a collected item is never
the active item. -/
theorem checkItemPickup_first_overlap (u : ℚ) (s : State) :
    (∀ (i : ℕ) (it : Item), s.items[i]? = some it →
      it.collected = false → isRectOverlap (bodyRect s.player) (itemRect it) = true →
      (∀ (j : ℕ) (jt : Item), j < i → s.items[j]? = some jt →
        ¬ (jt.collected = false ∧ isRectOverlap (bodyRect s.player) (itemRect jt) = true)) →
      s.questions ≠ [] → 0 ≤ u → u < 1 →
      ∃ q, chooseQuestion s u = some q ∧
        checkItemPickup u s =
          { s with locked := true, activeItem := some i, activeQuestion := some q }) ∧
    ((∀ it ∈ s.items,
        ¬ (it.collected = false ∧ isRectOverlap (bodyRect s.player) (itemRect it) = true)) →
      checkItemPickup u s = s) ∧
    (s.questions = [] → checkItemPickup u s = s) ∧
    (checkItemPickup u s = s ∨
      ∃ (i : ℕ) (it : Item) (q : Question), s.items[i]? = some it ∧
        it.collected = false ∧ isRectOverlap (bodyRect s.player) (itemRect it) = true ∧
        (∀ (j : ℕ) (jt : Item), j < i → s.items[j]? = some jt →
          ¬ (jt.collected = false ∧
            isRectOverlap (bodyRect s.player) (itemRect jt) = true)) ∧
        chooseQuestion s u = some q ∧
        checkItemPickup u s =
          { s with locked := true, activeItem := some i, activeQuestion := some q }) := by
  refine ⟨?_, ?_, ?_, ?_⟩
  · intro i it hi hcol hov hfirst hne h0 h1
    obtain ⟨q, hq⟩ := chooseQuestion_isSome s u hne h0 h1
    refine ⟨q, hq, ?_⟩
    have hscan : pickupScan (bodyRect s.player) s.items 0 = some i :=
      (pickupScan_some _ _ _ _).2 ⟨i, it, by omega, hi, ⟨hcol, hov⟩, hfirst⟩
    unfold checkItemPickup
    rw [hscan]
    simp only [openQuizForItem, hq]
  · intro hnone
    unfold checkItemPickup
    rw [(pickupScan_none _ _ _).2 hnone]
  · intro he
    unfold checkItemPickup
    cases pickupScan (bodyRect s.player) s.items 0 with
    | none => rfl
    | some i => simp only [openQuizForItem, chooseQuestion_empty s u he]
  · cases hscan : pickupScan (bodyRect s.player) s.items 0 with
    | none =>
      left
      unfold checkItemPickup
      rw [hscan]
    | some i =>
      obtain ⟨k, it, hik, hk, hit, hfirst⟩ := (pickupScan_some _ _ _ _).1 hscan
      have hki : k = i := by omega
      subst hki
      cases hq : chooseQuestion s u with
      | none =>
        left
        unfold checkItemPickup
        rw [hscan]
        simp only [openQuizForItem, hq]
      | some q =>
        right
        refine ⟨k, it, q, hk, hit.1, hit.2, hfirst, rfl, ?_⟩
        unfold checkItemPickup
        rw [hscan]
        simp only [openQuizForItem, hq]

/-- C19 on `pickupScenario`: the vehicle stands on the second item only, and
the quiz opens on it with the question `q1`. -/
theorem checkItemPickup_first_overlap_witness :
    (∃ q, chooseQuestion pickupScenario (1 / 2) = some q ∧
      checkItemPickup (1 / 2) pickupScenario =
        { pickupScenario with
          locked := true, activeItem := some 1, activeQuestion := some q }) ∧
    chooseQuestion pickupScenario (1 / 2) = some questionQ1 :=
  ⟨(checkItemPickup_first_overlap (1 / 2) pickupScenario).1 1 ⟨"item-2", 500, 100, 16, false⟩
      rfl rfl (by decide!)
      (by
        intro j jt hj hjt
        have hj0 : j = 0 := by omega
        subst hj0
        have hjt2 : jt = ⟨"item-1", 400, 100, 16, false⟩ := (Option.some.inj hjt).symm
        subst hjt2
        decide!)
      (by decide) (by norm_num) (by norm_num),
    by decide!⟩

/-! ### The vehicle stays on the road -/

theorem updatePlayer_size (t : Trig) (canvas : Canvas) (m : CityMap) (keys : List String)
    (p : Player) :
    (updatePlayer t canvas m keys p).w = p.w ∧ (updatePlayer t canvas m keys p).h = p.h := by
  rw [updatePlayer_eq]
  obtain ⟨-, -, -, -, hw1, hh1⟩ := applyThrottle_consts (keyUp keys) (keyDown keys) p
  generalize applyThrottle (keyUp keys) (keyDown keys) p = q1 at *
  obtain ⟨-, -, -, -, hw2, hh2, -⟩ :=
    applySteering_consts (keyLeft keys) (keyRight keys) q1
  generalize applySteering (keyLeft keys) (keyRight keys) q1 = q2 at *
  obtain ⟨-, -, -, -, hw3, hh3, -⟩ := applyFriction_consts (keyUp keys) (keyDown keys) q2
  generalize applyFriction (keyUp keys) (keyDown keys) q2 = q at *
  obtain ⟨-, -, hw4, hh4, -⟩ := resolveMove_consts m (tryRect t canvas q) q
  exact ⟨by rw [hw4, hw3, hw2, hw1], by rw [hh4, hh3, hh2, hh1]⟩

/-- The three outcomes of a frame, in terms of the vehicle before the frame:
the position is kept, or it is the center of a clamped rectangle of the size
of the body that overlaps no building and whose center is on a road. -/
theorem updatePlayer_position (t : Trig) (canvas : Canvas) (m : CityMap)
    (keys : List String) (p : Player) :
    ((updatePlayer t canvas m keys p).x = p.x ∧ (updatePlayer t canvas m keys p).y = p.y) ∨
    ∃ cx cy : ℚ,
      (updatePlayer t canvas m keys p).x = clamp cx 0 (canvas.width - p.w) + p.w / 2 ∧
      (updatePlayer t canvas m keys p).y = clamp cy 0 (canvas.height - p.h) + p.h / 2 ∧
      (∀ b ∈ m.buildings, isRectOverlap
        ⟨clamp cx 0 (canvas.width - p.w), clamp cy 0 (canvas.height - p.h), p.w, p.h⟩ b
          = false) ∧
      (∃ r ∈ m.roads, isPointInRect (clamp cx 0 (canvas.width - p.w) + p.w / 2)
        (clamp cy 0 (canvas.height - p.h) + p.h / 2) r = true) := by
  rw [updatePlayer_eq]
  obtain ⟨-, -, hx1, hy1, hw1, hh1⟩ := applyThrottle_consts (keyUp keys) (keyDown keys) p
  generalize applyThrottle (keyUp keys) (keyDown keys) p = q1 at *
  obtain ⟨-, -, hx2, hy2, hw2, hh2, -⟩ :=
    applySteering_consts (keyLeft keys) (keyRight keys) q1
  generalize applySteering (keyLeft keys) (keyRight keys) q1 = q2 at *
  obtain ⟨-, -, hx3, hy3, hw3, hh3, -⟩ := applyFriction_consts (keyUp keys) (keyDown keys) q2
  generalize applyFriction (keyUp keys) (keyDown keys) q2 = q at *
  have hqx : q.x = p.x := by rw [hx3, hx2, hx1]
  have hqy : q.y = p.y := by rw [hy3, hy2, hy1]
  have hqw : q.w = p.w := by rw [hw3, hw2, hw1]
  have hqh : q.h = p.h := by rw [hh3, hh2, hh1]
  have htr : tryRect t canvas q =
      ⟨clamp (q.x + t.cos q.angle * q.speed - q.w / 2) 0 (canvas.width - p.w),
       clamp (q.y + t.sin q.angle * q.speed - q.h / 2) 0 (canvas.height - p.h), p.w, p.h⟩ := by
    simp only [tryRect, hqw, hqh]
  rw [htr]
  generalize q.x + t.cos q.angle * q.speed - q.w / 2 = cx
  generalize q.y + t.sin q.angle * q.speed - q.h / 2 = cy
  by_cases hb : ∃ b ∈ m.buildings, isRectOverlap
      ⟨clamp cx 0 (canvas.width - p.w), clamp cy 0 (canvas.height - p.h), p.w, p.h⟩ b = true
  · left
    rw [resolveMove_building m _ q hb]
    exact ⟨hqx, hqy⟩
  · have hb2 : ∀ b ∈ m.buildings, isRectOverlap
        ⟨clamp cx 0 (canvas.width - p.w), clamp cy 0 (canvas.height - p.h), p.w, p.h⟩ b
          = false := by
      intro b hbm
      cases h : isRectOverlap
        ⟨clamp cx 0 (canvas.width - p.w), clamp cy 0 (canvas.height - p.h), p.w, p.h⟩ b
      · rfl
      · exact absurd ⟨b, hbm, h⟩ hb
    by_cases hr : ∃ r ∈ m.roads, isPointInRect (clamp cx 0 (canvas.width - p.w) + p.w / 2)
        (clamp cy 0 (canvas.height - p.h) + p.h / 2) r = true
    · right
      refine ⟨cx, cy, ?_, ?_, hb2, hr⟩
      · rw [resolveMove_commit m _ q hb2 hr]
        simp only [hqw]
      · rw [resolveMove_commit m _ q hb2 hr]
        simp only [hqh]
    · left
      have hr2 : ∀ r ∈ m.roads, isPointInRect (clamp cx 0 (canvas.width - p.w) + p.w / 2)
          (clamp cy 0 (canvas.height - p.h) + p.h / 2) r = false := by
        intro r hrm
        cases h : isPointInRect (clamp cx 0 (canvas.width - p.w) + p.w / 2)
          (clamp cy 0 (canvas.height - p.h) + p.h / 2) r
        · rfl
        · exact absurd ⟨r, hrm, h⟩ hr
      rw [resolveMove_offroad m _ q hb2 hr2]
      exact ⟨hqx, hqy⟩

/-- One frame keeps the vehicle clear of the buildings, on a road and inside
the canvas, when the canvas is at least as large as the body. -/
theorem updatePlayer_keeps_on_road (t : Trig) (canvas : Canvas) (m : CityMap)
    (keys : List String) (p : Player)
    (hw : p.w ≤ canvas.width) (hh : p.h ≤ canvas.height)
    (hinv : (∀ b ∈ m.buildings, isRectOverlap (bodyRect p) b = false) ∧
      (∃ r ∈ m.roads, isPointInRect ((bodyRect p).x + (bodyRect p).w / 2)
        ((bodyRect p).y + (bodyRect p).h / 2) r = true) ∧
      0 ≤ (bodyRect p).x ∧ (bodyRect p).x + (bodyRect p).w ≤ canvas.width ∧
      0 ≤ (bodyRect p).y ∧ (bodyRect p).y + (bodyRect p).h ≤ canvas.height) :
    (∀ b ∈ m.buildings,
      isRectOverlap (bodyRect (updatePlayer t canvas m keys p)) b = false) ∧
    (∃ r ∈ m.roads,
      isPointInRect
        ((bodyRect (updatePlayer t canvas m keys p)).x +
          (bodyRect (updatePlayer t canvas m keys p)).w / 2)
        ((bodyRect (updatePlayer t canvas m keys p)).y +
          (bodyRect (updatePlayer t canvas m keys p)).h / 2) r = true) ∧
    0 ≤ (bodyRect (updatePlayer t canvas m keys p)).x ∧
    (bodyRect (updatePlayer t canvas m keys p)).x +
      (bodyRect (updatePlayer t canvas m keys p)).w ≤ canvas.width ∧
    0 ≤ (bodyRect (updatePlayer t canvas m keys p)).y ∧
    (bodyRect (updatePlayer t canvas m keys p)).y +
      (bodyRect (updatePlayer t canvas m keys p)).h ≤ canvas.height := by
  obtain ⟨hsw, hsh⟩ := updatePlayer_size t canvas m keys p
  rcases updatePlayer_position t canvas m keys p with ⟨hx, hy⟩ | ⟨cx, cy, hx, hy, hb, hr⟩
  · have hbody : bodyRect (updatePlayer t canvas m keys p) = bodyRect p := by
      simp only [bodyRect, hx, hy, hsw, hsh]
    rw [hbody]
    exact hinv
  · have hbody : bodyRect (updatePlayer t canvas m keys p) =
        ⟨clamp cx 0 (canvas.width - p.w), clamp cy 0 (canvas.height - p.h), p.w, p.h⟩ := by
      simp only [bodyRect, hx, hy, hsw, hsh, add_sub_cancel_right]
    rw [hbody]
    have hcw : (0 : ℚ) ≤ canvas.width - p.w := by linarith
    have hch : (0 : ℚ) ≤ canvas.height - p.h := by linarith
    refine ⟨hb, hr, clamp_ge _ _ _, ?_, clamp_ge _ _ _, ?_⟩
    · have := clamp_le cx 0 (canvas.width - p.w) hcw
      simp only []
      linarith
    · have := clamp_le cy 0 (canvas.height - p.h) hch
      simp only []
      linarith

/-- C20: on the map of `buildCityMap` for a canvas at least 220 wide and 101
high, after any sequence of frames from the vehicle of `initPlayer`, with any
keys, the body of the vehicle overlaps no building, its center is inside some
road, and the body lies within the canvas. -/
theorem vehicle_stays_on_road (t : Trig) (canvas : Canvas)
    (hW : 220 ≤ canvas.width) (hH : 101 ≤ canvas.height) (frames : List (List String)) :
    (∀ b ∈ (buildCityMap canvas).buildings,
      isRectOverlap (bodyRect (runFrames t canvas (buildCityMap canvas) frames initPlayer)) b
        = false) ∧
    (∃ r ∈ (buildCityMap canvas).roads,
      isPointInRect
        ((bodyRect (runFrames t canvas (buildCityMap canvas) frames initPlayer)).x +
          (bodyRect (runFrames t canvas (buildCityMap canvas) frames initPlayer)).w / 2)
        ((bodyRect (runFrames t canvas (buildCityMap canvas) frames initPlayer)).y +
          (bodyRect (runFrames t canvas (buildCityMap canvas) frames initPlayer)).h / 2) r
        = true) ∧
    0 ≤ (bodyRect (runFrames t canvas (buildCityMap canvas) frames initPlayer)).x ∧
    (bodyRect (runFrames t canvas (buildCityMap canvas) frames initPlayer)).x +
      (bodyRect (runFrames t canvas (buildCityMap canvas) frames initPlayer)).w
        ≤ canvas.width ∧
    0 ≤ (bodyRect (runFrames t canvas (buildCityMap canvas) frames initPlayer)).y ∧
    (bodyRect (runFrames t canvas (buildCityMap canvas) frames initPlayer)).y +
      (bodyRect (runFrames t canvas (buildCityMap canvas) frames initPlayer)).h
        ≤ canvas.height := by
  have hWq : (220 : ℚ) ≤ canvas.width := by exact_mod_cast hW
  have hHq : (101 : ℚ) ≤ canvas.height := by exact_mod_cast hH
  have hgen : ∀ (fr : List (List String)) (p : Player),
      p.w = 22 → p.h = 12 →
      ((∀ b ∈ (buildCityMap canvas).buildings, isRectOverlap (bodyRect p) b = false) ∧
        (∃ r ∈ (buildCityMap canvas).roads,
          isPointInRect ((bodyRect p).x + (bodyRect p).w / 2)
            ((bodyRect p).y + (bodyRect p).h / 2) r = true) ∧
        0 ≤ (bodyRect p).x ∧ (bodyRect p).x + (bodyRect p).w ≤ canvas.width ∧
        0 ≤ (bodyRect p).y ∧ (bodyRect p).y + (bodyRect p).h ≤ canvas.height) →
      ((∀ b ∈ (buildCityMap canvas).buildings,
          isRectOverlap (bodyRect (runFrames t canvas (buildCityMap canvas) fr p)) b
            = false) ∧
        (∃ r ∈ (buildCityMap canvas).roads,
          isPointInRect
            ((bodyRect (runFrames t canvas (buildCityMap canvas) fr p)).x +
              (bodyRect (runFrames t canvas (buildCityMap canvas) fr p)).w / 2)
            ((bodyRect (runFrames t canvas (buildCityMap canvas) fr p)).y +
              (bodyRect (runFrames t canvas (buildCityMap canvas) fr p)).h / 2) r = true) ∧
        0 ≤ (bodyRect (runFrames t canvas (buildCityMap canvas) fr p)).x ∧
        (bodyRect (runFrames t canvas (buildCityMap canvas) fr p)).x +
          (bodyRect (runFrames t canvas (buildCityMap canvas) fr p)).w ≤ canvas.width ∧
        0 ≤ (bodyRect (runFrames t canvas (buildCityMap canvas) fr p)).y ∧
        (bodyRect (runFrames t canvas (buildCityMap canvas) fr p)).y +
          (bodyRect (runFrames t canvas (buildCityMap canvas) fr p)).h ≤ canvas.height) := by
    intro fr
    induction fr with
    | nil => intro p _ _ h; exact h
    | cons keys rest ih =>
      intro p hw hh h
      rw [runFrames_cons]
      obtain ⟨hsw, hsh⟩ := updatePlayer_size t canvas (buildCityMap canvas) keys p
      exact ih _ (by rw [hsw, hw]) (by rw [hsh, hh])
        (updatePlayer_keeps_on_road t canvas (buildCityMap canvas) keys p
          (by rw [hw]; linarith) (by rw [hh]; linarith) h)
  apply hgen frames initPlayer rfl rfl
  refine ⟨?_, ?_, ?_, ?_, ?_, ?_⟩
  · intro b hb
    simp only [buildCityMap, List.mem_cons, List.mem_singleton, List.not_mem_nil,
      or_false] at hb
    rcases hb with h | h | h | h | h | h <;> subst h <;>
      simp [isRectOverlap, bodyRect, initPlayer] <;> norm_num
  · refine ⟨⟨80, 60, canvas.width - 160, 70⟩, by simp [buildCityMap], ?_⟩
    simp only [isPointInRect, bodyRect, initPlayer, Bool.and_eq_true, decide_eq_true_eq]
    norm_num
    linarith
  · norm_num [bodyRect, initPlayer]
  · norm_num [bodyRect, initPlayer]
    linarith
  · norm_num [bodyRect, initPlayer]
  · norm_num [bodyRect, initPlayer]
    linarith

/-- C20 on the 1000 by 600 canvas, after a frame with the up key and a frame
with the up and right keys. -/
theorem vehicle_stays_on_road_witness :
    (∀ b ∈ (buildCityMap ⟨1000, 600⟩).buildings,
      isRectOverlap (bodyRect (runFrames headingZero ⟨1000, 600⟩ (buildCityMap ⟨1000, 600⟩)
        [["ArrowUp"], ["ArrowUp", "ArrowRight"]] initPlayer)) b = false) ∧
    (∃ r ∈ (buildCityMap ⟨1000, 600⟩).roads,
      isPointInRect
        ((bodyRect (runFrames headingZero ⟨1000, 600⟩ (buildCityMap ⟨1000, 600⟩)
          [["ArrowUp"], ["ArrowUp", "ArrowRight"]] initPlayer)).x +
          (bodyRect (runFrames headingZero ⟨1000, 600⟩ (buildCityMap ⟨1000, 600⟩)
            [["ArrowUp"], ["ArrowUp", "ArrowRight"]] initPlayer)).w / 2)
        ((bodyRect (runFrames headingZero ⟨1000, 600⟩ (buildCityMap ⟨1000, 600⟩)
          [["ArrowUp"], ["ArrowUp", "ArrowRight"]] initPlayer)).y +
          (bodyRect (runFrames headingZero ⟨1000, 600⟩ (buildCityMap ⟨1000, 600⟩)
            [["ArrowUp"], ["ArrowUp", "ArrowRight"]] initPlayer)).h / 2) r = true) ∧
    0 ≤ (bodyRect (runFrames headingZero ⟨1000, 600⟩ (buildCityMap ⟨1000, 600⟩)
      [["ArrowUp"], ["ArrowUp", "ArrowRight"]] initPlayer)).x ∧
    (bodyRect (runFrames headingZero ⟨1000, 600⟩ (buildCityMap ⟨1000, 600⟩)
      [["ArrowUp"], ["ArrowUp", "ArrowRight"]] initPlayer)).x +
      (bodyRect (runFrames headingZero ⟨1000, 600⟩ (buildCityMap ⟨1000, 600⟩)
        [["ArrowUp"], ["ArrowUp", "ArrowRight"]] initPlayer)).w ≤ ((1000 : ℤ) : ℚ) ∧
    0 ≤ (bodyRect (runFrames headingZero ⟨1000, 600⟩ (buildCityMap ⟨1000, 600⟩)
      [["ArrowUp"], ["ArrowUp", "ArrowRight"]] initPlayer)).y ∧
    (bodyRect (runFrames headingZero ⟨1000, 600⟩ (buildCityMap ⟨1000, 600⟩)
      [["ArrowUp"], ["ArrowUp", "ArrowRight"]] initPlayer)).y +
      (bodyRect (runFrames headingZero ⟨1000, 600⟩ (buildCityMap ⟨1000, 600⟩)
        [["ArrowUp"], ["ArrowUp", "ArrowRight"]] initPlayer)).h ≤ ((600 : ℤ) : ℚ) :=
  vehicle_stays_on_road headingZero ⟨1000, 600⟩ (by decide) (by decide)
    [["ArrowUp"], ["ArrowUp", "ArrowRight"]]

/-! ### The tally -/

theorem roundHalfEven_intCast (k : ℤ) : roundHalfEven (k : ℚ) = k := by
  unfold roundHalfEven
  simp

/-- An integer of magnitude below `2 ^ 53` is a binary64 value. -/
theorem roundDouble_intCast (m : ℤ) (h : |m| < 2 ^ 53) : roundDouble (m : ℚ) = m := by
  by_cases h0 : m = 0
  · subst h0
    simp [roundDouble]
  have hx0 : ((m : ℤ) : ℚ) ≠ 0 := by exact_mod_cast h0
  have habs1 : (1 : ℚ) ≤ |(m : ℚ)| := by
    have : (1 : ℤ) ≤ |m| := Int.one_le_abs h0
    exact_mod_cast this
  have habs2 : |(m : ℚ)| < 2 ^ 53 := by exact_mod_cast h
  obtain ⟨hlo, hhi⟩ := binade_spec (m : ℚ)
    (le_trans (by
      rw [div_le_iff₀ (by positivity)]
      have : (1 : ℚ) ≤ 2 ^ 1100 := one_le_pow₀ (by norm_num)
      linarith) habs1)
    (lt_trans habs2 (by norm_num))
  have he0 : 0 ≤ binade (m : ℚ) := by
    have h1 : (2 : ℚ) ^ (0 : ℤ) < 2 ^ (binade (m : ℚ) + 1) := by
      rw [zpow_zero]
      exact lt_of_le_of_lt habs1 hhi
    have := (zpow_lt_zpow_iff_right₀ (by norm_num : (1 : ℚ) < 2)).1 h1
    omega
  have he1 : binade (m : ℚ) < 53 := by
    have h1 : (2 : ℚ) ^ binade (m : ℚ) < 2 ^ (53 : ℤ) := by
      have h53 : (2 : ℚ) ^ (53 : ℤ) = 2 ^ 53 := by norm_num
      rw [h53]
      exact lt_of_le_of_lt hlo habs2
    exact (zpow_lt_zpow_iff_right₀ (by norm_num : (1 : ℚ) < 2)).1 h1
  unfold roundDouble
  rw [if_neg hx0]
  simp only []
  rw [max_eq_left (by omega)]
  generalize binade (m : ℚ) = e at he0 he1
  obtain ⟨d, hd⟩ : ∃ d : ℕ, e - 52 = -(d : ℤ) := ⟨(52 - e).toNat, by omega⟩
  rw [hd, zpow_neg, zpow_natCast, div_inv_eq_mul]
  have hk : (m : ℚ) * 2 ^ d = ((m * 2 ^ d : ℤ) : ℚ) := by push_cast; ring
  rw [hk, roundHalfEven_intCast]
  push_cast
  field_simp

/-- Below `2 ^ 53` in magnitude the update `n += 1` is exact. -/
theorem tallyIncrement_eq (n : ℤ) (h : |n| < 2 ^ 53) : tallyIncrement n = n + 1 := by
  unfold tallyIncrement
  by_cases htop : n + 1 = 2 ^ 53
  · have hn : n = 2 ^ 53 - 1 := by omega
    subst hn
    decide!
  · have hb : |n + 1| < 2 ^ 53 := by
      rw [abs_lt] at h ⊢
      omega
    have hcast : ((n : ℚ) + 1) = ((n + 1 : ℤ) : ℚ) := by push_cast; ring
    rw [hcast, roundDouble_intCast (n + 1) hb, Int.floor_intCast]

/-- C2 as the code computes it: with a question open, `answerQuiz` applies the
update `+= 1` of doubles to `correct` and leaves `wrong` as it was when the
selected index is the answer index, and applies it to `wrong` and leaves
`correct` as it was otherwise. When both counters are below `2 ^ 53` in
magnitude the update is exact, and the tally changes by exactly one: one more
`correct` and the same `wrong` on the answer index, one more `wrong` and the
same `correct` on any other index. -/
theorem answerQuiz_tally (s : State) (q : Question) (selectedIndex : ℤ)
    (hq : s.activeQuestion = some q) :
    ((selectedIndex = q.answerIndex ∧
        (answerQuiz selectedIndex s).stats.correct = tallyIncrement s.stats.correct ∧
        (answerQuiz selectedIndex s).stats.wrong = s.stats.wrong) ∨
      (selectedIndex ≠ q.answerIndex ∧
        (answerQuiz selectedIndex s).stats.wrong = tallyIncrement s.stats.wrong ∧
        (answerQuiz selectedIndex s).stats.correct = s.stats.correct)) ∧
    (|s.stats.correct| < 2 ^ 53 → |s.stats.wrong| < 2 ^ 53 →
      (selectedIndex = q.answerIndex ∧
        (answerQuiz selectedIndex s).stats.correct = s.stats.correct + 1 ∧
        (answerQuiz selectedIndex s).stats.wrong = s.stats.wrong) ∨
      (selectedIndex ≠ q.answerIndex ∧
        (answerQuiz selectedIndex s).stats.wrong = s.stats.wrong + 1 ∧
        (answerQuiz selectedIndex s).stats.correct = s.stats.correct)) := by
  have hstats : ∀ t : State, (collectActiveItem t).stats = t.stats := by
    intro t
    unfold collectActiveItem
    cases t.activeItem with
    | none => rfl
    | some i =>
      simp only []
      cases t.items[i]? <;> rfl
  have hgen : (selectedIndex = q.answerIndex ∧
        (answerQuiz selectedIndex s).stats.correct = tallyIncrement s.stats.correct ∧
        (answerQuiz selectedIndex s).stats.wrong = s.stats.wrong) ∨
      (selectedIndex ≠ q.answerIndex ∧
        (answerQuiz selectedIndex s).stats.wrong = tallyIncrement s.stats.wrong ∧
        (answerQuiz selectedIndex s).stats.correct = s.stats.correct) := by
    unfold answerQuiz
    rw [hq]
    simp only []
    by_cases hc : selectedIndex = q.answerIndex
    · left
      simp [hc, saveProgress, hstats]
    · right
      simp [hc, saveProgress]
  refine ⟨hgen, ?_⟩
  intro hcor hwr
  rcases hgen with ⟨h1, h2, h3⟩ | ⟨h1, h2, h3⟩
  · left
    exact ⟨h1, by rw [h2, tallyIncrement_eq _ hcor], h3⟩
  · right
    exact ⟨h1, by rw [h2, tallyIncrement_eq _ hwr], h3⟩

/-- C2 on the scenario: the answer 1 to `q1` gives the tally 1 correct,
0 wrong; the answer 0 gives 0 correct, 1 wrong. -/
theorem answerQuiz_tally_witness :
    quizScenario.activeQuestion = some questionQ1 ∧
    ((answerQuiz 1 quizScenario).stats.correct = 1 ∧
      (answerQuiz 1 quizScenario).stats.wrong = 0) ∧
    ((answerQuiz 0 quizScenario).stats.correct = 0 ∧
      (answerQuiz 0 quizScenario).stats.wrong = 1) := by
  refine ⟨rfl, ?_, ?_⟩
  · rcases (answerQuiz_tally quizScenario questionQ1 1 rfl).2 (by decide) (by decide)
      with h | h
    · exact ⟨by simpa [quizScenario] using h.2.1, by simpa [quizScenario] using h.2.2⟩
    · exact absurd rfl h.1
  · rcases (answerQuiz_tally quizScenario questionQ1 0 rfl).2 (by decide) (by decide)
      with h | h
    · exact absurd h.1 (by decide)
    · exact ⟨by simpa [quizScenario] using h.2.2, by simpa [quizScenario] using h.2.1⟩

/-- C2 fails as stated, in the double arithmetic of the code. The stored tally
with `correct` equal to `2 ^ 53` (9007199254740992) is loaded as it is. With
the question `q1` open, whose answer index is 1, the answer 1 then leaves
`correct` at `2 ^ 53` and `wrong` at 0, because `2 ^ 53 + 1` rounds to
`2 ^ 53`: neither counter changes. In the same way the answer 0 leaves a
`wrong` of `2 ^ 53` and a `correct` of 0 as they are. -/
theorem answerQuiz_tally_stuck :
    quizScenario.activeQuestion = some questionQ1 ∧ questionQ1.answerIndex = 1 ∧
    (loadProgress { quizScenario with storage := some (.document (.obj
        [("stats", .obj [("correct", .num 9007199254740992), ("wrong", .num 0)])])) }).map
      (fun s => s.stats) = some ⟨9007199254740992, 0⟩ ∧
    (loadProgress { quizScenario with storage := some (.document (.obj
        [("stats", .obj [("correct", .num 9007199254740992), ("wrong", .num 0)])])) }).map
      (fun s => (answerQuiz 1 s).stats) = some ⟨9007199254740992, 0⟩ ∧
    (answerQuiz 1 { quizScenario with stats := ⟨9007199254740992, 0⟩ }).stats =
      ⟨9007199254740992, 0⟩ ∧
    (answerQuiz 0 { quizScenario with stats := ⟨0, 9007199254740992⟩ }).stats =
      ⟨0, 9007199254740992⟩ := by
  refine ⟨rfl, rfl, by decide!, by decide!, by decide!, by decide!⟩

end ChemCity
